import Mathlib

/-! Texture2D Array: source aggregation and GPU resource creation.

A shallow embedding of `Runtime/Engine/Private/Texture2DArray.cpp`
(`UTexture2DArray::UpdateSourceFromSourceTextures`, `FTexture2DArray2BulkData`,
`FTexture2DArray2Resource`) together with the properties proved about it.

Conventions of the embedding:

* `int32` values are `Int`; a signed product that leaves the `int32` range is a
  fault (`Fault.SignedOverflow`), as are a failed `check`, an allocation of a
  negative size and a copy that leaves its source or destination buffer.
* a byte buffer is a `List Byte`; a pointer into a buffer is the buffer plus an
  offset; a null pointer is `none`.
* memory returned by `FMemory::Malloc` is not initialised: its content is an
  explicit argument `Uninit : Nat → Byte` (the byte found at each offset).
* engine code that these sources call but do not define is a field of `Engine`.
-/

namespace T2DA

/-! ## Machine level -/

/-- One byte of a buffer. Bytes are only moved, never computed with. -/
abbrev Byte := Nat

/-- What stops a run of the embedded code. -/
inductive Fault where
  | CheckFailed
  | SignedOverflow
  | BadAlloc
  | NullDeref
  | IndexOutOfRange
  | ReadPastEnd
  | WritePastEnd
  | DivideByZero
  | ShiftOutOfRange
  deriving DecidableEq, Repr

def INT32_MAX : Int := 2147483647

def INT32_MIN : Int := -2147483648

/-- Product of two `int32` values; leaving the range is undefined in C++. -/
def mulInt32 (a b : Int) : Except Fault Int :=
  if INT32_MIN ≤ a * b ∧ a * b ≤ INT32_MAX then .ok (a * b) else .error .SignedOverflow

/-- `FMemory::Malloc(Count)` with a signed count: a negative count converts to a
huge `SIZE_T` and the allocation fails; otherwise `Count` uninitialised bytes. -/
def Malloc (Uninit : Nat → Byte) (Count : Int) : Except Fault (List Byte) :=
  if Count < 0 then .error .BadAlloc else .ok ((List.range Count.toNat).map Uninit)

/-- `FMemory::Memcpy(Dest + DestPos, Src + SrcPos, Count)` on buffers of known
extent. The copy must stay inside both buffers. -/
def Memcpy (Dest : List Byte) (DestPos : Int) (Src : List Byte) (SrcPos : Int) (Count : Int) :
    Except Fault (List Byte) :=
  if Count < 0 ∨ SrcPos < 0 ∨ (Src.length : Int) < SrcPos + Count then .error .ReadPastEnd
  else if DestPos < 0 ∨ (Dest.length : Int) < DestPos + Count then .error .WritePastEnd
  else .ok (Dest.take DestPos.toNat ++ (Src.drop SrcPos.toNat).take Count.toNat
            ++ Dest.drop (DestPos.toNat + Count.toNat))

/-! ## Engine types used by the asset -/

/-- Modelled from the spec: the engine enum `ETextureSourceFormat` is declared
outside these sources. `TSF_Invalid` is the enumerator the code names; every
other pixel format of a source is `TSF code`. -/
inductive ETextureSourceFormat where
  | TSF_Invalid
  | TSF (code : Nat)
  deriving DecidableEq, Repr

/-- Modelled from the spec: the engine enum `ETexturePowerOfTwoSetting`, of which
the code names `None`. -/
inductive ETexturePowerOfTwoSetting where
  | None
  | Pad (code : Nat)
  deriving DecidableEq, Repr

/-- Modelled from the spec: the engine enum `TextureMipGenSettings`, of which the
code names `TMGS_NoMipmaps`. -/
inductive TextureMipGenSettings where
  | TMGS_NoMipmaps
  | TMGS (code : Nat)
  deriving DecidableEq, Repr

/-- Modelled from the spec: `FTextureSource` is engine code outside these sources.
The record keeps what the array asset reads and writes: the dimensions, slice
count, mip count and format set by `Init`, and `MipData0`, the outcome of
`GetMipData(Out, 0)`: `none` when the call returns false, `some bytes` when it
returns true with `Out = bytes`. -/
structure FTextureSource where
  SizeX : Int
  SizeY : Int
  NumSlices : Int
  NumMips : Int
  Format : ETextureSourceFormat
  MipData0 : Option (List Byte)
  deriving DecidableEq, Repr

def FTextureSource.GetSizeX (s : FTextureSource) : Int := s.SizeX

def FTextureSource.GetSizeY (s : FTextureSource) : Int := s.SizeY

def FTextureSource.GetNumSlices (s : FTextureSource) : Int := s.NumSlices

def FTextureSource.GetNumMips (s : FTextureSource) : Int := s.NumMips

def FTextureSource.GetFormat (s : FTextureSource) : ETextureSourceFormat := s.Format

/-- Modelled from the spec: `FTextureSource::Init(SizeX, SizeY, NumSlices, NumMips,
Format, NewData)` replaces the record by its arguments; `NewData` is the buffer
behind the pointer, `none` for `nullptr`. -/
def FTextureSource.Init (NewSizeX NewSizeY NewNumSlices NewNumMips : Int)
    (NewFormat : ETextureSourceFormat) (NewData : Option (List Byte)) : FTextureSource :=
  { SizeX := NewSizeX, SizeY := NewSizeY, NumSlices := NewNumSlices, NumMips := NewNumMips,
    Format := NewFormat, MipData0 := NewData }

/-- The part of `UTexture2D` the array asset reads: its source record. -/
structure UTexture2D where
  Source : FTextureSource
  deriving DecidableEq, Repr

/-- Modelled from the spec: the engine enum `EPixelFormat`, of which the code
names `PF_Unknown`, `PF_G8` and `PF_BC4`. -/
inductive EPixelFormat where
  | PF_Unknown
  | PF_G8
  | PF_BC4
  | PF (code : Nat)
  deriving DecidableEq, Repr

/-- Engine code and tables that these sources use but do not define. -/
structure Engine where
  /-- The field `GPixelFormats[Format].BlockBytes`, indexed as the code indexes it. -/
  BlockBytes : ETextureSourceFormat → Int
  /-- The function `FMath::IsPowerOfTwo`. -/
  IsPowerOfTwo : Int → Bool
  /-- The constant `MAX_TEXTURE_MIP_COUNT`. -/
  MAX_TEXTURE_MIP_COUNT : Nat
  /-- The function `CalcTextureMipMapSize(SizeX, SizeY, Format, MipIndex)`. -/
  CalcTextureMipMapSize : Nat → Nat → EPixelFormat → Nat → Nat

/-- Modelled from the spec: `FTextureSource::IsPowerOfTwo` is engine code outside
these sources; a source is power-of-two when its width and its height are. -/
def FTextureSource.IsPowerOfTwo (E : Engine) (s : FTextureSource) : Bool :=
  E.IsPowerOfTwo s.SizeX && E.IsPowerOfTwo s.SizeY

/-! ## The asset -/

/-- Modelled from the spec: one cooked mip of `FTexturePlatformData` (engine code
outside these sources): the size its bulk data declares, and `Loaded`, the buffer
that loading this mip yields (`none` when it cannot be loaded). -/
structure FTexture2DMipMap where
  BulkDataSize : Int
  Loaded : Option (List Byte)
  deriving DecidableEq, Repr

/-- Modelled from the spec: the fields of the engine record `FTexturePlatformData`
that the array asset reads. -/
structure FTexturePlatformData where
  SizeX : Int
  SizeY : Int
  NumSlices : Int
  PixelFormat : EPixelFormat
  Mips : List FTexture2DMipMap
  deriving DecidableEq, Repr

/-- A content identity token (`FGuid`). -/
abbrev FGuid := Nat

/-- The members of `UTexture2DArray` (and of its base `UTexture`) that the code
of `Texture2DArray.cpp` reads or writes. -/
structure UTexture2DArray where
  PlatformData : Option FTexturePlatformData
  Source2DTextures : List (Option UTexture2D)
  Source : FTextureSource
  LightingGuid : FGuid
  PowerOfTwoMode : ETexturePowerOfTwoSetting
  MipGenSettings : TextureMipGenSettings
  NeverStream : Bool
  SRGB : Bool
  bNoTiling : Bool
  LODGroup : Nat
  CachedLODBias : Int
  deriving DecidableEq, Repr

def UTexture2DArray.GetSizeX (self : UTexture2DArray) : Int :=
  match self.PlatformData with
  | some pd => pd.SizeX
  | none => 0

def UTexture2DArray.GetSizeY (self : UTexture2DArray) : Int :=
  match self.PlatformData with
  | some pd => pd.SizeY
  | none => 0

def UTexture2DArray.GetSizeZ (self : UTexture2DArray) : Int :=
  match self.PlatformData with
  | some pd => pd.NumSlices
  | none => 0

def UTexture2DArray.GetNumMips (self : UTexture2DArray) : Int :=
  match self.PlatformData with
  | some pd => pd.Mips.length
  | none => 0

def UTexture2DArray.GetPixelFormat (self : UTexture2DArray) : EPixelFormat :=
  match self.PlatformData with
  | some pd => pd.PixelFormat
  | none => .PF_Unknown

def UTexture2DArray.GetCachedLODBias (self : UTexture2DArray) : Int := self.CachedLODBias

/-- The call `SetLightingGuid()`: the asset takes a fresh identity token. -/
def UTexture2DArray.SetLightingGuid (NewGuid : FGuid) (self : UTexture2DArray) :
    UTexture2DArray :=
  { self with LightingGuid := NewGuid }

/-- `UTexture2DArray::UpdateMipGenSettings`. -/
def UTexture2DArray.UpdateMipGenSettings (E : Engine) (self : UTexture2DArray) :
    UTexture2DArray :=
  if self.PowerOfTwoMode = ETexturePowerOfTwoSetting.None ∧
      (!self.Source.IsPowerOfTwo E || !E.IsPowerOfTwo self.Source.NumSlices) = true then
    { self with MipGenSettings := .TMGS_NoMipmaps, NeverStream := true }
  else self

/-- The locals of the first loop of `UpdateSourceFromSourceTextures`. -/
structure SourceCheck where
  bSourceTexturesAreValid : Bool
  SizeX : Int
  SizeY : Int
  NumMips : Int
  TextureFormat : ETextureSourceFormat
  deriving DecidableEq, Repr

/-- The locals as initialised before the first loop. -/
def SourceCheck.start : SourceCheck :=
  { bSourceTexturesAreValid := true, SizeX := -1, SizeY := -1, NumMips := -1,
    TextureFormat := .TSF_Invalid }

/-- The first loop of `UpdateSourceFromSourceTextures` (lines 31-62): a null entry
or an entry that differs from the latched values clears the flag and breaks. -/
def checkSourceTextures : List (Option UTexture2D) → SourceCheck → SourceCheck
  | [], st => st
  | none :: _, st => { st with bSourceTexturesAreValid := false }
  | some TextureSlice :: rest, st =>
    let SliceSizeX := TextureSlice.Source.GetSizeX
    let SliceSizeY := TextureSlice.Source.GetSizeY
    let SliceNumMips := TextureSlice.Source.GetNumMips
    let SliceFormat := TextureSlice.Source.GetFormat
    let SizeX := if st.SizeX = -1 then SliceSizeX else st.SizeX
    let SizeY := if st.SizeY = -1 then SliceSizeY else st.SizeY
    let NumMips := if st.NumMips = -1 then SliceNumMips else st.NumMips
    let TextureFormat :=
      if st.TextureFormat = .TSF_Invalid then SliceFormat else st.TextureFormat
    if SizeX ≠ SliceSizeX ∨ SizeY ≠ SliceSizeY ∨ NumMips ≠ SliceNumMips ∨
        TextureFormat ≠ SliceFormat then
      { bSourceTexturesAreValid := false, SizeX := SizeX, SizeY := SizeY,
        NumMips := NumMips, TextureFormat := TextureFormat }
    else
      checkSourceTextures rest
        { bSourceTexturesAreValid := st.bSourceTexturesAreValid, SizeX := SizeX,
          SizeY := SizeY, NumMips := NumMips, TextureFormat := TextureFormat }

/-- The second loop of `UpdateSourceFromSourceTextures` (lines 74-84): each slice
whose `GetMipData(Ref2DData, 0)` succeeds is copied to `CurPos`; `CurPos` advances
by `OneTextureSize` either way. Returns the buffer and the final `CurPos`. -/
def copySourceTextures (OneTextureSize : Int) :
    List (Option UTexture2D) → List Byte → Int → Except Fault (List Byte × Int)
  | [], TextureData, CurPos => .ok (TextureData, CurPos)
  | none :: _, _, _ => .error .NullDeref
  | some TextureSlice :: rest, TextureData, CurPos =>
    match TextureSlice.Source.MipData0 with
    | some Ref2DData =>
      match Memcpy TextureData CurPos Ref2DData 0 OneTextureSize with
      | .ok TextureData1 =>
        copySourceTextures OneTextureSize rest TextureData1 (CurPos + OneTextureSize)
      | .error f => .error f
    | none => copySourceTextures OneTextureSize rest TextureData (CurPos + OneTextureSize)

/-- The block of lines 64-91: size the buffer, copy the slices, `Source.Init`. -/
def mergeSourceTextures (E : Engine) (Uninit : Nat → Byte) (self : UTexture2DArray)
    (NumSlices : Int) (chk : SourceCheck) : Except Fault UTexture2DArray :=
  let FormatDataSize := E.BlockBytes chk.TextureFormat
  match mulInt32 chk.SizeX chk.SizeY with
  | .error f => .error f
  | .ok XY =>
  match mulInt32 XY FormatDataSize with
  | .error f => .error f
  | .ok OneTextureSize =>
  match mulInt32 OneTextureSize NumSlices with
  | .error f => .error f
  | .ok AllocSize =>
  match Malloc Uninit AllocSize with
  | .error f => .error f
  | .ok TextureData =>
  match copySourceTextures OneTextureSize self.Source2DTextures TextureData 0 with
  | .error f => .error f
  | .ok (TextureData1, _) =>
    .ok { self with
      Source := FTextureSource.Init chk.SizeX chk.SizeY NumSlices 1 chk.TextureFormat
        (some TextureData1) }

/-- `UTexture2DArray::UpdateSourceFromSourceTextures` (editor build). Returns
`bSourceValid` and the asset after the call. `Uninit` is the content of the
memory `Malloc` hands out, `NewGuid` the token `SetLightingGuid` draws. -/
def UTexture2DArray.UpdateSourceFromSourceTextures (E : Engine) (Uninit : Nat → Byte)
    (NewGuid : FGuid) (self : UTexture2DArray) : Except Fault (Bool × UTexture2DArray) :=
  let NumSlices : Int := self.Source2DTextures.length
  let merged : Except Fault (Bool × UTexture2DArray) :=
    if NumSlices > 0 then
      let chk := checkSourceTextures self.Source2DTextures SourceCheck.start
      if chk.bSourceTexturesAreValid then
        match mergeSourceTextures E Uninit self NumSlices chk with
        | .error f => .error f
        | .ok self1 => .ok (true, self1)
      else .ok (false, self)
    else .ok (false, self)
  match merged with
  | .error f => .error f
  | .ok (bSourceValid, self1) =>
    let self2 :=
      if bSourceValid then self1.SetLightingGuid NewGuid
      else { self1 with Source := FTextureSource.Init 0 0 0 0 .TSF_Invalid none }
    .ok (bSourceValid, self2.UpdateMipGenSettings E)

/-! ## Vocabulary of the properties of the aggregation -/

/-- Two source records agree in width, height, mip count and format. -/
def SameShape (a b : FTextureSource) : Prop :=
  a.SizeX = b.SizeX ∧ a.SizeY = b.SizeY ∧ a.NumMips = b.NumMips ∧ a.Format = b.Format

instance (a b : FTextureSource) : Decidable (SameShape a b) := by
  unfold SameShape; infer_instance

/-- Every entry of the list is a texture (none is null). -/
def AllNonNull (l : List (Option UTexture2D)) : Prop := ∀ t ∈ l, t ≠ none

instance (l : List (Option UTexture2D)) : Decidable (AllNonNull l) := by
  unfold AllNonNull; infer_instance

/-- Every texture of the list agrees with `ref` in width, height, mip count and format. -/
def AllMatch (ref : FTextureSource) (l : List (Option UTexture2D)) : Prop :=
  ∀ t ∈ l, ∀ tex, t = some tex → SameShape tex.Source ref

instance (ref : FTextureSource) (l : List (Option UTexture2D)) : Decidable (AllMatch ref l) := by
  unfold AllMatch; infer_instance

/-- The locals after the four latching assignments of one iteration. -/
def SourceCheck.latch (st : SourceCheck) (s : FTextureSource) : SourceCheck :=
  { bSourceTexturesAreValid := st.bSourceTexturesAreValid,
    SizeX := if st.SizeX = -1 then s.SizeX else st.SizeX,
    SizeY := if st.SizeY = -1 then s.SizeY else st.SizeY,
    NumMips := if st.NumMips = -1 then s.NumMips else st.NumMips,
    TextureFormat := if st.TextureFormat = .TSF_Invalid then s.Format else st.TextureFormat }

/-- The comparison of one iteration: some latched value differs from the slice. -/
def SourceCheck.differs (st : SourceCheck) (s : FTextureSource) : Prop :=
  st.SizeX ≠ s.SizeX ∨ st.SizeY ≠ s.SizeY ∨ st.NumMips ≠ s.NumMips ∨ st.TextureFormat ≠ s.Format

instance (st : SourceCheck) (s : FTextureSource) : Decidable (st.differs s) := by
  unfold SourceCheck.differs; infer_instance

/-- The latched values are those of `ref`, or still the sentinels. -/
def SourceCheck.Tracks (st : SourceCheck) (ref : FTextureSource) : Prop :=
  (st.SizeX = -1 ∨ st.SizeX = ref.SizeX) ∧ (st.SizeY = -1 ∨ st.SizeY = ref.SizeY) ∧
  (st.NumMips = -1 ∨ st.NumMips = ref.NumMips) ∧
  (st.TextureFormat = .TSF_Invalid ∨ st.TextureFormat = ref.Format)

/-- The latched values are exactly those of `ref`. -/
def SourceCheck.Holds (st : SourceCheck) (ref : FTextureSource) : Prop :=
  st.SizeX = ref.SizeX ∧ st.SizeY = ref.SizeY ∧ st.NumMips = ref.NumMips ∧
  st.TextureFormat = ref.Format

/-- The bytes an allocation holds at offsets `a .. a + n` before anything is written. -/
def garbage (Uninit : Nat → Byte) (a n : Nat) : List Byte := (List.range' a n).map Uninit

/-- What slice `t` of the merged buffer holds when the slice starts at offset `pos`:
the first `S` bytes of the texture's mip-0 data, or what the allocation held there
when the texture yields none. -/
def sliceOf (Uninit : Nat → Byte) (S pos : Nat) (t : Option UTexture2D) : List Byte :=
  match t with
  | some tex =>
    match tex.Source.MipData0 with
    | some d => d.take S
    | none => garbage Uninit pos S
  | none => garbage Uninit pos S

/-- The merged buffer from offset `pos` on: one `sliceOf` per entry, in list order. -/
def mergedSlices (Uninit : Nat → Byte) (S : Nat) : List (Option UTexture2D) → Nat → List Byte
  | [], _ => []
  | t :: rest, pos => sliceOf Uninit S pos t ++ mergedSlices Uninit S rest (pos + S)

/-- Every mip-0 buffer that is present holds at least `S` bytes. -/
def DataCovers (S : Nat) (l : List (Option UTexture2D)) : Prop :=
  ∀ t ∈ l, ∀ tex, t = some tex → ∀ d, tex.Source.MipData0 = some d → S ≤ d.length

instance (S : Nat) (l : List (Option UTexture2D)) : Decidable (DataCovers S l) := by
  unfold DataCovers; infer_instance

/-- An `int32` value. -/
def FitsInt32 (x : Int) : Prop := INT32_MIN ≤ x ∧ x ≤ INT32_MAX

instance (x : Int) : Decidable (FitsInt32 x) := by unfold FitsInt32; infer_instance

/-- The size in bytes of one slice as the code computes it:
`SizeX * SizeY * GPixelFormats[Format].BlockBytes`. -/
def OneTextureSize (E : Engine) (W H : Int) (F : ETextureSourceFormat) : Int :=
  W * H * E.BlockBytes F

/-- The merge of `l` with latched width `W`, height `H` and format `F` runs without
a fault: the three products are `int32` values, the allocation size is not
negative, and every mip-0 buffer that is present covers one slice. -/
def MergeFits (E : Engine) (W H : Int) (F : ETextureSourceFormat)
    (l : List (Option UTexture2D)) : Prop :=
  FitsInt32 (W * H) ∧ FitsInt32 (OneTextureSize E W H F) ∧
  FitsInt32 (OneTextureSize E W H F * l.length) ∧ 0 ≤ OneTextureSize E W H F ∧
  DataCovers (OneTextureSize E W H F).toNat l

instance (E : Engine) (W H : Int) (F : ETextureSourceFormat) (l : List (Option UTexture2D)) :
    Decidable (MergeFits E W H F l) := by unfold MergeFits; infer_instance

/-- The source record a successful merge installs. -/
def mergedSource (E : Engine) (Uninit : Nat → Byte) (W H : Int) (F : ETextureSourceFormat)
    (l : List (Option UTexture2D)) : FTextureSource :=
  FTextureSource.Init W H l.length 1 F
    (some (mergedSlices Uninit (OneTextureSize E W H F).toNat l 0))

/-- The asset after a call that found the sources invalid or absent. -/
def UTexture2DArray.invalidated (E : Engine) (self : UTexture2DArray) : UTexture2DArray :=
  ({ self with Source := FTextureSource.Init 0 0 0 0 .TSF_Invalid none }).UpdateMipGenSettings E

/-- The asset after a call that merged the sources. -/
def UTexture2DArray.merged (E : Engine) (Uninit : Nat → Byte) (NewGuid : FGuid)
    (self : UTexture2DArray) (chk : SourceCheck) : UTexture2DArray :=
  (({ self with Source := (mergedSource E Uninit chk.SizeX chk.SizeY chk.TextureFormat
        self.Source2DTextures) }).SetLightingGuid NewGuid).UpdateMipGenSettings E

/-- Any two textures of the list agree in width, height, mip count and format. -/
def MutuallyMatch (l : List (Option UTexture2D)) : Prop :=
  ∀ t1 ∈ l, ∀ a, t1 = some a → ∀ t2 ∈ l, ∀ b, t2 = some b → SameShape a.Source b.Source

instance (l : List (Option UTexture2D)) : Decidable (MutuallyMatch l) := by
  unfold MutuallyMatch; infer_instance

/-- No field of the record equals the value the first loop uses for "not latched yet". -/
def NoSentinel (s : FTextureSource) : Prop :=
  s.SizeX ≠ -1 ∧ s.SizeY ≠ -1 ∧ s.NumMips ≠ -1 ∧ s.Format ≠ .TSF_Invalid

instance (s : FTextureSource) : Decidable (NoSentinel s) := by
  unfold NoSentinel; infer_instance

/-- The first entry of the list, when it is a texture, carries no sentinel value. -/
def FirstNoSentinel (l : List (Option UTexture2D)) : Prop :=
  match l with
  | some tex :: _ => NoSentinel tex.Source
  | _ => True

instance (l : List (Option UTexture2D)) : Decidable (FirstNoSentinel l) := by
  unfold FirstNoSentinel; split <;> infer_instance

/-- When the list starts with a texture, has no null entry and all its textures agree
with the first, its merge runs without a fault. -/
def MergeFitsWhenMatching (E : Engine) (l : List (Option UTexture2D)) : Prop :=
  match l with
  | some tex :: _ =>
    AllNonNull l → AllMatch tex.Source l →
      MergeFits E tex.Source.SizeX tex.Source.SizeY tex.Source.Format l
  | _ => True

instance (E : Engine) (l : List (Option UTexture2D)) : Decidable (MergeFitsWhenMatching E l) := by
  unfold MergeFitsWhenMatching; split <;> infer_instance

/-- Every texture of the list yields mip-0 data. -/
def AllHaveData (l : List (Option UTexture2D)) : Prop :=
  ∀ t ∈ l, ∀ tex, t = some tex → tex.Source.MipData0 ≠ none

instance (l : List (Option UTexture2D)) : Decidable (AllHaveData l) := by
  unfold AllHaveData; infer_instance

/-- The array `Ref2DData` after `GetMipData(Ref2DData, 0)`: the mip-0 bytes, or the
empty array when the call fails. -/
def Ref2DData (t : UTexture2D) : List Byte := t.Source.MipData0.getD []

/-- The empty/invalid state `Source.Init(0, 0, 0, 0, TSF_Invalid, nullptr)`. -/
def invalidSource : FTextureSource := FTextureSource.Init 0 0 0 0 .TSF_Invalid none

/-- Slice `i` of a buffer cut in slices of `S` bytes: the bytes `[i*S, (i+1)*S)`. -/
def sliceAt (buf : List Byte) (S i : Nat) : List Byte := (buf.drop (i * S)).take S

/-- A sample engine: one byte per pixel for every source format. -/
def demoEngine : Engine :=
  { BlockBytes := fun _ => 1,
    IsPowerOfTwo := fun v => (v.toNat &&& (v.toNat - 1)) == 0,
    MAX_TEXTURE_MIP_COUNT := 14,
    CalcTextureMipMapSize := fun x y _ m => max (x >>> m) 1 * max (y >>> m) 1 * 4 }

/-- A sample 2D texture. -/
def demoTexture (W H Mips : Int) (F : ETextureSourceFormat) (d : Option (List Byte)) :
    Option UTexture2D :=
  some { Source := { SizeX := W, SizeY := H, NumSlices := 1, NumMips := Mips, Format := F,
                     MipData0 := d } }

/-- A sample array asset over the given source textures. -/
def demoAsset (l : List (Option UTexture2D)) : UTexture2DArray :=
  { PlatformData := none, Source2DTextures := l, Source := invalidSource, LightingGuid := 0,
    PowerOfTwoMode := .None, MipGenSettings := .TMGS 0, NeverStream := false, SRGB := true,
    bNoTiling := false, LODGroup := 0, CachedLODBias := 0 }

/-! ## The bulk data handed to texture creation -/

/-- Conversion of a `uint32` value to `int32` (two's complement). -/
def toInt32 (x : Int) : Int := (x + 2147483648) % 4294967296 - 2147483648

/-- Conversion of an integer value to `uint32`. -/
def toUInt32 (x : Int) : Nat := (x % 4294967296).toNat

/-- Read `xs[i]` of a fixed-size C array. -/
def readAt {α : Type} (xs : List α) (i : Int) : Except Fault α :=
  if i < 0 then .error .IndexOutOfRange
  else match xs[i.toNat]? with
    | some x => .ok x
    | none => .error .IndexOutOfRange

/-- Write `xs[i] = v` of a fixed-size C array. -/
def writeAt {α : Type} (xs : List α) (i : Int) (v : α) : Except Fault (List α) :=
  if i < 0 ∨ (xs.length : Int) ≤ i then .error .IndexOutOfRange
  else .ok (xs.set i.toNat v)

/-- The indices `First, First + 1, ..., Last - 1` of a counting `for` loop. -/
def loopRange (First Last : Int) : List Int :=
  (List.range (Last - First).toNat).map fun (k : Nat) => First + (k : Int)

/-- `FTexture2DArray2BulkData`: `MipData[MAX_TEXTURE_MIP_COUNT]` (a buffer or null per
mip), `MipSize[MAX_TEXTURE_MIP_COUNT]` (`uint32`), `FirstMip`, `NumSlices`. -/
structure FTexture2DArray2BulkData where
  MipData : List (Option (List Byte))
  MipSize : List Nat
  FirstMip : Int
  NumSlices : Int
  deriving DecidableEq, Repr

/-- The constructor: both arrays zeroed. -/
def FTexture2DArray2BulkData.new (E : Engine) (InFirstMip InNumSlices : Int) :
    FTexture2DArray2BulkData :=
  { MipData := List.replicate E.MAX_TEXTURE_MIP_COUNT none,
    MipSize := List.replicate E.MAX_TEXTURE_MIP_COUNT 0,
    FirstMip := InFirstMip, NumSlices := InNumSlices }

def FTexture2DArray2BulkData.GetResourceBulkData (self : FTexture2DArray2BulkData) :
    Except Fault (Option (List Byte)) :=
  readAt self.MipData self.FirstMip

def FTexture2DArray2BulkData.GetResourceBulkDataSize (self : FTexture2DArray2BulkData) :
    Except Fault Nat :=
  readAt self.MipSize self.FirstMip

/-- The method `Discard`: every buffer freed and nulled, every size zeroed. -/
def FTexture2DArray2BulkData.Discard (self : FTexture2DArray2BulkData) :
    FTexture2DArray2BulkData :=
  { self with MipData := self.MipData.map fun _ => none,
              MipSize := self.MipSize.map fun _ => 0 }

def FTexture2DArray2BulkData.GetFirstMip (self : FTexture2DArray2BulkData) : Int :=
  self.FirstMip

/-- The first loop of `MergeMips` (lines 231-235): the `uint64` sum of the sizes. -/
def sumMipSizes (MipSize : List Nat) : List Int → Nat → Except Fault Nat
  | [], MergedSize => .ok MergedSize
  | MipIndex :: rest, MergedSize =>
    match readAt MipSize MipIndex with
    | .error f => .error f
    | .ok sz => sumMipSizes MipSize rest ((MergedSize + sz) % 18446744073709551616)

/-- The body of the inner loop of `MergeMips` (lines 246-252): the slice
`TextureSlice` of mip `MipIndex` is copied to `CurrPos` when the mip has a buffer;
`CurrPos` advances by the slice size either way. The division is unsigned
(`uint32 / int32`), its result is stored in an `int32`. -/
def mergeMipSlice (self : FTexture2DArray2BulkData) (TextureSlice MipIndex : Int)
    (MergedAlloc : List Byte) (CurrPos : Int) : Except Fault (List Byte × Int) :=
  match readAt self.MipSize MipIndex with
  | .error f => .error f
  | .ok sz =>
    if toUInt32 self.NumSlices = 0 then .error .DivideByZero
    else
      match mulInt32 TextureSlice (toInt32 ((sz / toUInt32 self.NumSlices : Nat) : Int)) with
      | .error f => .error f
      | .ok SliceOffset =>
        match readAt self.MipData MipIndex with
        | .error f => .error f
        | .ok (some Data) =>
          match Memcpy MergedAlloc CurrPos Data SliceOffset
              (toInt32 ((sz / toUInt32 self.NumSlices : Nat) : Int)) with
          | .error f => .error f
          | .ok MergedAlloc1 =>
            .ok (MergedAlloc1, CurrPos + toInt32 ((sz / toUInt32 self.NumSlices : Nat) : Int))
        | .ok none =>
          .ok (MergedAlloc, CurrPos + toInt32 ((sz / toUInt32 self.NumSlices : Nat) : Int))

/-- The inner loop of `MergeMips` (lines 244-253) for one `TextureSlice`. -/
def mergeMipsOfSlice (self : FTexture2DArray2BulkData) (TextureSlice : Int) :
    List Int → List Byte → Int → Except Fault (List Byte × Int)
  | [], MergedAlloc, CurrPos => .ok (MergedAlloc, CurrPos)
  | MipIndex :: rest, MergedAlloc, CurrPos =>
    match mergeMipSlice self TextureSlice MipIndex MergedAlloc CurrPos with
    | .error f => .error f
    | .ok (MergedAlloc1, CurrPos1) => mergeMipsOfSlice self TextureSlice rest MergedAlloc1 CurrPos1

/-- The outer loop of `MergeMips` (lines 242-254) over the slices. -/
def mergeSlices (self : FTexture2DArray2BulkData) (Mips : List Int) :
    List Int → List Byte → Int → Except Fault (List Byte × Int)
  | [], MergedAlloc, CurrPos => .ok (MergedAlloc, CurrPos)
  | TextureSlice :: rest, MergedAlloc, CurrPos =>
    match mergeMipsOfSlice self TextureSlice Mips MergedAlloc CurrPos with
    | .error f => .error f
    | .ok (MergedAlloc1, CurrPos1) => mergeSlices self Mips rest MergedAlloc1 CurrPos1

/-- `FTexture2DArray2BulkData::MergeMips(NumMips)`. -/
def FTexture2DArray2BulkData.MergeMips (E : Engine) (Uninit : Nat → Byte)
    (self : FTexture2DArray2BulkData) (NumMips : Int) : Except Fault FTexture2DArray2BulkData :=
  if ¬ NumMips < (E.MAX_TEXTURE_MIP_COUNT : Int) then .error .CheckFailed else
  match sumMipSizes self.MipSize (loopRange self.FirstMip NumMips) 0 with
  | .error f => .error f
  | .ok MergedSize =>
  match readAt self.MipSize self.FirstMip with
  | .error f => .error f
  | .ok FirstSize =>
  if MergedSize > FirstSize then
    match Malloc Uninit (MergedSize : Int) with
    | .error f => .error f
    | .ok MergedAlloc =>
    match mergeSlices self (loopRange self.FirstMip NumMips) (loopRange 0 self.NumSlices)
        MergedAlloc 0 with
    | .error f => .error f
    | .ok (MergedAlloc1, _) =>
    let self1 := self.Discard
    match writeAt self1.MipData self1.FirstMip (some MergedAlloc1) with
    | .error f => .error f
    | .ok MipData1 =>
    match writeAt self1.MipSize self1.FirstMip (MergedSize % 4294967296) with
    | .error f => .error f
    | .ok MipSize1 => .ok { self1 with MipData := MipData1, MipSize := MipSize1 }
  else .ok self

/-- The mips with indices `idxs` hold the buffers `chain`, each with its exact size. -/
def ChainAt (B : FTexture2DArray2BulkData) (idxs : List Int) (chain : List (List Byte)) : Prop :=
  List.Forall₂ (fun m d => readAt B.MipSize m = .ok d.length ∧ readAt B.MipData m = .ok (some d))
    idxs chain

/-- The bulk data of the example: 2 slices, 3 mips from mip 0, with the per-mip
buffers `AABB`, `CcDd`, `Ee` (bytes are character codes). -/
def demoBulkData : FTexture2DArray2BulkData :=
  { MipData := [some [65, 65, 66, 66], some [67, 99, 68, 100], some [69, 101]]
      ++ List.replicate 11 none,
    MipSize := [4, 4, 2] ++ List.replicate 11 0, FirstMip := 0, NumSlices := 2 }

/-- The buffer `buf` with the bytes from offset `pos` on replaced by `w`. -/
def overwrite (buf : List Byte) (pos : Nat) (w : List Byte) : List Byte :=
  buf.take pos ++ w ++ buf.drop (pos + w.length)

/-- The slice-major, mip-minor layout of a chain of mips that each hold `N` slice
regions of equal size: for each slice in turn, that slice's region of every mip. -/
def sliceMajor (N : Nat) (chain : List (List Byte)) : List Byte :=
  (List.range N).flatMap fun s => chain.flatMap fun d => sliceAt d (d.length / N) s

/-! ## The render resource -/

/-- The expression `x >> n` for a `uint32` x and a signed count: undefined unless
`0 <= n < 32`. -/
def shiftRightU32 (x : Nat) (n : Int) : Except Fault Nat :=
  if n < 0 ∨ 32 ≤ n then .error .ShiftOutOfRange else .ok (x >>> n.toNat)

/-- Modelled from the spec: `FTexturePlatformData::TryLoadMips(FirstMipToLoad,
OutMipData)` is engine code outside these sources. It loads every mip from
`FirstMipToLoad` on and stores mip `i` in `OutMipData[i - FirstMipToLoad]`; it
returns false, storing nothing, when some mip cannot be loaded. `Slots` is the
array behind `OutMipData`, of which entry `At` is `OutMipData[0]`. -/
def storeLoadedMips : List FTexture2DMipMap → Nat → List (Option (List Byte)) →
    List (Option (List Byte))
  | [], _, Slots => Slots
  | Mip :: rest, At, Slots => storeLoadedMips rest (At + 1) (Slots.set At Mip.Loaded)

/-- See `storeLoadedMips`. -/
def FTexturePlatformData.TryLoadMips (self : FTexturePlatformData) (FirstMipToLoad : Int)
    (Slots : List (Option (List Byte))) (At : Int) : Bool × List (Option (List Byte)) :=
  if (self.Mips.drop FirstMipToLoad.toNat).all (fun Mip => Mip.Loaded.isSome) then
    (true, storeLoadedMips (self.Mips.drop FirstMipToLoad.toNat) At.toNat Slots)
  else (false, Slots)

/-- The creation flags the constructor combines (`TexCreate_*` bits). -/
structure FTextureCreateFlags where
  TexCreate_SRGB : Bool
  TexCreate_OfflineProcessed : Bool
  TexCreate_ShaderResource : Bool
  TexCreate_NoTiling : Bool
  deriving DecidableEq, Repr

/-- The arguments of one `RHICreateTexture2DArray` call; `BulkData` is the bulk
data `CreateInfo.BulkData` points to. -/
structure FRHITexture2DArray where
  SizeX : Nat
  SizeY : Nat
  SizeZ : Nat
  Format : EPixelFormat
  NumMips : Nat
  Flags : FTextureCreateFlags
  BulkData : FTexture2DArray2BulkData
  deriving DecidableEq, Repr

/-- The sampler filter of the active device profile (`ESamplerFilter`). -/
abbrev ESamplerFilter := Nat

/-- The arguments of `RHICreateSamplerState`: the filter, and clamp addressing on the
three axes. -/
structure FSamplerStateInitializerRHI where
  Filter : ESamplerFilter
  AddressU_IsClamp : Bool
  AddressV_IsClamp : Bool
  AddressW_IsClamp : Bool
  deriving DecidableEq, Repr

/-- The process-wide stat counters `InitRHI` and `ReleaseRHI` touch: the texture
memory counter and the counter of each LOD group. -/
structure FStats where
  STAT_TextureMemory : Int
  LODGroupStat : Nat → Int

/-- `FTexture2DArray2Resource`: its members, the RHI handles it owns, and the slot
`TextureReference->TextureReferenceRHI` it updates. -/
structure FTexture2DArray2Resource where
  LODGroupStatName : Nat
  SizeX : Nat
  SizeY : Nat
  SizeZ : Nat
  CurrentFirstMip : Int
  NumMips : Int
  PixelFormat : EPixelFormat
  CreationFlags : FTextureCreateFlags
  TextureSize : Int
  SamplerFilter : ESamplerFilter
  bGreyScaleFormat : Bool
  Texture2DArrayRHI : Option FRHITexture2DArray
  TextureRHI : Option FRHITexture2DArray
  SamplerStateRHI : Option FSamplerStateInitializerRHI
  TextureReferenceRHI : Option FRHITexture2DArray
  InitialData : FTexture2DArray2BulkData
  deriving DecidableEq, Repr

def INDEX_NONE : Int := -1

/-- The loop of the constructor (lines 299-308): the size of every loaded mip is
`FMath::Max<int32>(bulk data size, CalcTextureMipMapSize(..) * SizeZ)`, stored in a
`uint32`. -/
def storeMipSizes (E : Engine) (Mips : List FTexture2DMipMap) (SizeX SizeY SizeZ : Nat)
    (PixelFormat : EPixelFormat) : List Int → List Nat → Except Fault (List Nat)
  | [], MipSize => .ok MipSize
  | MipIndex :: rest, MipSize =>
    match readAt Mips MipIndex with
    | .error f => .error f
    | .ok MipMap =>
      match writeAt MipSize MipIndex
          (toUInt32 (max MipMap.BulkDataSize
            (toInt32 ((E.CalcTextureMipMapSize SizeX SizeY PixelFormat MipIndex.toNat * SizeZ
              : Nat) : Int)))) with
      | .error f => .error f
      | .ok MipSize1 => storeMipSizes E Mips SizeX SizeY SizeZ PixelFormat rest MipSize1

/-- The constructor `FTexture2DArray2Resource(InTexture2DArray, MipBias)`.
`Filter` is the sampler filter the device profile gives for the asset. -/
def FTexture2DArray2Resource.new (E : Engine) (Filter : ESamplerFilter)
    (InTexture2DArray : UTexture2DArray) (MipBias : Int) :
    Except Fault FTexture2DArray2Resource :=
  let SizeX := toUInt32 InTexture2DArray.GetSizeX
  let SizeY := toUInt32 InTexture2DArray.GetSizeY
  let SizeZ := toUInt32 InTexture2DArray.GetSizeZ
  let NumMips := InTexture2DArray.GetNumMips
  let PixelFormat := InTexture2DArray.GetPixelFormat
  let InitialData := FTexture2DArray2BulkData.new E MipBias InTexture2DArray.GetSizeZ
  if ¬ (0 < NumMips ∧ NumMips ≤ (E.MAX_TEXTURE_MIP_COUNT : Int)) then .error .CheckFailed
  else if ¬ (0 ≤ MipBias ∧ MipBias < NumMips) then .error .CheckFailed
  else
    let self : FTexture2DArray2Resource :=
      { LODGroupStatName := InTexture2DArray.LODGroup,
        SizeX := SizeX, SizeY := SizeY, SizeZ := SizeZ,
        CurrentFirstMip := INDEX_NONE, NumMips := NumMips, PixelFormat := PixelFormat,
        CreationFlags :=
          { TexCreate_SRGB := InTexture2DArray.SRGB, TexCreate_OfflineProcessed := true,
            TexCreate_ShaderResource := true, TexCreate_NoTiling := InTexture2DArray.bNoTiling },
        TextureSize := 0, SamplerFilter := Filter,
        bGreyScaleFormat := PixelFormat = .PF_G8 || PixelFormat = .PF_BC4,
        Texture2DArrayRHI := none, TextureRHI := none, SamplerStateRHI := none,
        TextureReferenceRHI := none, InitialData := InitialData }
    match InTexture2DArray.PlatformData with
    | none => .ok self
    | some PlatformData =>
      match PlatformData.TryLoadMips MipBias InitialData.MipData MipBias with
      | (false, MipData1) => .ok { self with InitialData := { InitialData with MipData := MipData1 } }
      | (true, MipData1) =>
        match storeMipSizes E PlatformData.Mips SizeX SizeY SizeZ PixelFormat
            (loopRange MipBias NumMips) InitialData.MipSize with
        | .error f => .error f
        | .ok MipSize1 =>
          .ok { self with
            InitialData := { InitialData with MipData := MipData1, MipSize := MipSize1 } }

/-- `FTexture2DArray2Resource::InitRHI`. Returns the resource and the counters after
the call. -/
def FTexture2DArray2Resource.InitRHI (E : Engine) (Uninit : Nat → Byte)
    (self : FTexture2DArray2Resource) (Stats : FStats) :
    Except Fault (FTexture2DArray2Resource × FStats) :=
  let Stats1 : FStats :=
    { STAT_TextureMemory := Stats.STAT_TextureMemory + self.TextureSize,
      LODGroupStat := fun g =>
        if g = self.LODGroupStatName then Stats.LODGroupStat g + self.TextureSize
        else Stats.LODGroupStat g }
  let CurrentFirstMip := self.InitialData.GetFirstMip
  match self.InitialData.MergeMips E Uninit self.NumMips with
  | .error f => .error f
  | .ok InitialData1 =>
    match shiftRightU32 self.SizeX CurrentFirstMip with
    | .error f => .error f
    | .ok ShiftedX =>
      match shiftRightU32 self.SizeY CurrentFirstMip with
      | .error f => .error f
      | .ok ShiftedY =>
        let Created : FRHITexture2DArray :=
          { SizeX := max ShiftedX 1, SizeY := max ShiftedY 1, SizeZ := self.SizeZ,
            Format := self.PixelFormat, NumMips := toUInt32 (self.NumMips - CurrentFirstMip),
            Flags := self.CreationFlags, BulkData := InitialData1 }
        .ok ({ self with
                CurrentFirstMip := CurrentFirstMip, InitialData := InitialData1,
                Texture2DArrayRHI := some Created, TextureRHI := some Created,
                TextureReferenceRHI := some Created,
                SamplerStateRHI := some { Filter := self.SamplerFilter, AddressU_IsClamp := true,
                                          AddressV_IsClamp := true, AddressW_IsClamp := true } },
             Stats1)

/-- `FTexture2DArray2Resource::ReleaseRHI`. -/
def FTexture2DArray2Resource.ReleaseRHI (self : FTexture2DArray2Resource) (Stats : FStats) :
    FTexture2DArray2Resource × FStats :=
  ({ self with TextureReferenceRHI := none, Texture2DArrayRHI := none, TextureRHI := none,
               SamplerStateRHI := none },
   { STAT_TextureMemory := Stats.STAT_TextureMemory - self.TextureSize,
     LODGroupStat := fun g =>
       if g = self.LODGroupStatName then Stats.LODGroupStat g - self.TextureSize
       else Stats.LODGroupStat g })

/-- `FTexture2DArray2Resource::GetSizeX`. -/
def FTexture2DArray2Resource.GetSizeX (self : FTexture2DArray2Resource) : Except Fault Nat :=
  match shiftRightU32 self.SizeX self.CurrentFirstMip with
  | .error f => .error f
  | .ok Shifted => .ok (max Shifted 1)

/-- `FTexture2DArray2Resource::GetSizeY`. -/
def FTexture2DArray2Resource.GetSizeY (self : FTexture2DArray2Resource) : Except Fault Nat :=
  match shiftRightU32 self.SizeY self.CurrentFirstMip with
  | .error f => .error f
  | .ok Shifted => .ok (max Shifted 1)

/-! ## Resource creation by the asset -/

/-- Modelled from the spec: the engine enum `EShaderPlatform`, of which
`ShaderPlatformSupportsCompression` names seven enumerators. -/
inductive EShaderPlatform where
  | SP_PCD3D_SM4
  | SP_PCD3D_SM5
  | SP_PS4
  | SP_XBOXONE_D3D12
  | SP_VULKAN_SM5
  | SP_VULKAN_SM4
  | SP_VULKAN_SM5_LUMIN
  | SP (code : Nat)
  deriving DecidableEq, Repr

/-- The fields of an entry of `GPixelFormats` that `CreateResource` reads. -/
structure FPixelFormatInfo where
  Supported : Bool
  BlockSizeX : Int
  deriving DecidableEq, Repr

/-- The RHI globals and device settings `CreateResource` reads. -/
structure FRHIGlobals where
  GPixelFormats : EPixelFormat → FPixelFormatInfo
  GSupportsTexture2DArray : Bool
  GSupportsTexture3D : Bool
  GMaxRHIShaderPlatform : EShaderPlatform
  SamplerFilter : ESamplerFilter

/-- `UTexture2DArray::ShaderPlatformSupportsCompression`. -/
def ShaderPlatformSupportsCompression (ShaderPlatform : EShaderPlatform) : Bool :=
  match ShaderPlatform with
  | .SP_PCD3D_SM4 => true
  | .SP_PCD3D_SM5 => true
  | .SP_PS4 => true
  | .SP_XBOXONE_D3D12 => true
  | .SP_VULKAN_SM5 => true
  | .SP_VULKAN_SM4 => true
  | .SP_VULKAN_SM5_LUMIN => true
  | _ => false

/-- The three warnings `CreateResource` can log. -/
inductive ELogWarning where
  | ContainsNoMiplevels
  | RhiDoesNotSupport3dTextures
  | RhiDoesNotSupportFormat
  deriving DecidableEq, Repr

/-- The local `bFormatIsSupported` of `CreateResource`. -/
def UTexture2DArray.bFormatIsSupported (G : FRHIGlobals) (self : UTexture2DArray) : Bool :=
  let FormatInfo := G.GPixelFormats self.GetPixelFormat
  let bCompressedFormat : Bool := decide (FormatInfo.BlockSizeX > 1)
  FormatInfo.Supported && (!bCompressedFormat ||
    ShaderPlatformSupportsCompression G.GMaxRHIShaderPlatform)

/-- `UTexture2DArray::CreateResource`. Returns the asset as the call leaves it (no
member is written), the resource or null, and the warnings logged. -/
def UTexture2DArray.CreateResource (E : Engine) (G : FRHIGlobals) (self : UTexture2DArray) :
    Except Fault (UTexture2DArray × Option FTexture2DArray2Resource × List ELogWarning) :=
  if self.GetNumMips > 0 ∧ G.GSupportsTexture2DArray = true ∧ self.bFormatIsSupported G = true then
    match FTexture2DArray2Resource.new E G.SamplerFilter self self.GetCachedLODBias with
    | .error f => .error f
    | .ok Resource => .ok (self, some Resource, [])
  else if self.GetNumMips = 0 then .ok (self, none, [.ContainsNoMiplevels])
  else if G.GSupportsTexture3D = false then .ok (self, none, [.RhiDoesNotSupport3dTextures])
  else if self.bFormatIsSupported G = false then .ok (self, none, [.RhiDoesNotSupportFormat])
  else .ok (self, none, [])

/-! ## Editor: the slice entry box of the texture editor -/

/-- The texture an editor widget looks at: a texture array, or a texture of another
class (`Cast<UTexture2DArray>` gives null). -/
inductive UTexture where
  | Texture2DArray (asset : UTexture2DArray)
  | Other
  deriving DecidableEq, Repr

/-- Modelled from the spec: `FMath::Clamp(X, Min, Max)` is engine code outside these
sources: `X < Min ? Min : X < Max ? X : Max`. -/
def Clamp (X Min Max : Int) : Int := if X < Min then Min else if X < Max then X else Max

/-- The members of `FTextureEditorToolkit` the slice entry box uses. -/
structure FTextureEditorToolkit where
  Texture : UTexture
  SpecifiedTextureSlice : Int
  bUseSpecifiedTextureSlice : Bool
  deriving DecidableEq, Repr

/-- `FTextureEditorToolkit::GetMaxTextureSlice`; the optional it returns is always
set. -/
def FTextureEditorToolkit.GetMaxTextureSlice (self : FTextureEditorToolkit) : Option Int :=
  match self.Texture with
  | .Texture2DArray Texture2DArray => some (Texture2DArray.GetSizeZ - 1)
  | .Other => some 0

/-- `FTextureEditorToolkit::HandleTextureSliceCheckBoxIsEnabled`: the texture is a
texture array. -/
def FTextureEditorToolkit.HandleTextureSliceCheckBoxIsEnabled (self : FTextureEditorToolkit) :
    Bool :=
  match self.Texture with
  | .Texture2DArray _ => true
  | .Other => false

/-- `FTextureEditorToolkit::GetUseSpecifiedSlice` (lines 391-405): false, "disable the
widgets if we have no slice", unless `GetMaxTextureSlice()` is positive. -/
def FTextureEditorToolkit.GetUseSpecifiedSlice (self : FTextureEditorToolkit) : Bool :=
  if self.GetMaxTextureSlice.getD 0 > 0 then
    if self.HandleTextureSliceCheckBoxIsEnabled then self.bUseSpecifiedTextureSlice
    else true
  else false

/-- `FTextureEditorToolkit::HandleTextureSliceEntryBoxChanged`. -/
def FTextureEditorToolkit.HandleTextureSliceEntryBoxChanged (self : FTextureEditorToolkit)
    (NewTextureSlice : Int) : FTextureEditorToolkit :=
  { self with
    SpecifiedTextureSlice := Clamp NewTextureSlice 0 (self.GetMaxTextureSlice.getD 0) }

/-- The slice entry box (lines 1019-1026): `OnValueChanged` is bound to
`HandleTextureSliceEntryBoxChanged` and `IsEnabled` to `GetUseSpecifiedSlice`; this
is the only binding of the handler. Modelled from the spec: the widget class
`SNumericEntryBox` is engine code outside these sources; a disabled widget takes
no input, so an entered value reaches the handler only while `IsEnabled` holds. -/
def FTextureEditorToolkit.TextureSliceEntryBoxValueChanged (self : FTextureEditorToolkit)
    (NewTextureSlice : Int) : FTextureEditorToolkit :=
  if self.GetUseSpecifiedSlice then self.HandleTextureSliceEntryBoxChanged NewTextureSlice
  else self

/-! ## Editor: the texture array palette of the mesh paint mode -/

/-- One palette item: the source texture and its index. -/
structure FTextureArrayPaletteItemModel where
  Texture2D : UTexture2D
  TextureId : Int
  deriving DecidableEq, Repr

/-- The constructor of `FTextureArrayPaletteItemModel` (lines 409-413): it stores the
texture and its index and reads `Texture2D->GetFName()` without a null check, so a
null texture is dereferenced. -/
def FTextureArrayPaletteItemModel.new (InTexture2D : Option UTexture2D) (InTextureId : Int) :
    Except Fault FTextureArrayPaletteItemModel :=
  match InTexture2D with
  | none => .error .NullDeref
  | some Texture2D => .ok { Texture2D := Texture2D, TextureId := InTextureId }

/-- The textures of the materials of the selected components; a null component or
material is `none`. -/
abbrev SelectedComponents := List (Option (List (Option (List UTexture))))

/-- The inner loop of `RefreshTextureArrayPalette` over the textures of a material:
the first texture that is a texture array. -/
def findInTextures : List UTexture → Option UTexture2DArray
  | [] => none
  | .Texture2DArray t2da :: _ => some t2da
  | .Other :: rest => findInTextures rest

/-- The loop over the materials of a component. -/
def findInMaterials : List (Option (List UTexture)) → Option UTexture2DArray
  | [] => none
  | none :: rest => findInMaterials rest
  | some OutTextures :: rest =>
    match findInTextures OutTextures with
    | some t2da => some t2da
    | none => findInMaterials rest

/-- The loop over the selected components. -/
def findInComponents : SelectedComponents → Option UTexture2DArray
  | [] => none
  | none :: rest => findInComponents rest
  | some OutMaterials :: rest =>
    match findInMaterials OutMaterials with
    | some t2da => some t2da
    | none => findInComponents rest

/-- The loop that fills the palette (lines 383-388): one item is constructed per
entry of `Source2DTextures`, numbered from `TextureId`. -/
def addPaletteItems : List (Option UTexture2D) → Int → List FTextureArrayPaletteItemModel →
    Except Fault (List FTextureArrayPaletteItemModel)
  | [], _, Items => .ok Items
  | Texture :: rest, TextureId, Items =>
    match FTextureArrayPaletteItemModel.new Texture TextureId with
    | .error f => .error f
    | .ok Item => addPaletteItems rest (TextureId + 1) (Items ++ [Item])

/-- `SPaintModeWidget::RefreshTextureArrayPalette`: the new `TextureArrayPaletteItems`.
`SettingsTexture2DArray` is `VertexPaintSettings.Texture2DArray` of the painter
settings (`none` when the settings or the texture are null). -/
def RefreshTextureArrayPalette (SettingsTexture2DArray : Option UTexture2DArray)
    (Components : SelectedComponents) : Except Fault (List FTextureArrayPaletteItemModel) :=
  let Texture2DArray : Option UTexture2DArray :=
    match SettingsTexture2DArray with
    | some t2da => some t2da
    | none => findInComponents Components
  match Texture2DArray with
  | some t2da => addPaletteItems t2da.Source2DTextures 0 []
  | none => .ok []

/-! ## Material instance: copying the texture parameters -/

/-- A uniform texture expression: whether it is a texture parameter, and its name. -/
structure FMaterialUniformExpressionTexture where
  IsTextureParameter : Bool
  ParameterName : Nat
  deriving DecidableEq, Repr

/-- The three expression tables of a material resource that the loop reads. -/
structure FMaterialResource where
  Uniform2DTextureExpressions : List FMaterialUniformExpressionTexture
  Uniform2DTextureArrayExpressions : List FMaterialUniformExpressionTexture
  UniformCubeTextureExpressions : List FMaterialUniformExpressionTexture
  deriving DecidableEq, Repr

/-- The local array `TextureExpressions[4]` of `CopyMaterialUniformParameters`: four
pointers, of which the initialiser list sets three; the fourth is null. -/
def TextureExpressions (Resource : FMaterialResource) :
    List (Option (List FMaterialUniformExpressionTexture)) :=
  [some Resource.Uniform2DTextureExpressions, some Resource.Uniform2DTextureArrayExpressions,
   some Resource.UniformCubeTextureExpressions, none]

/-- The inner loop: a parameter value is added for every texture parameter. -/
def addTextureParameterValues : List FMaterialUniformExpressionTexture → List Nat → List Nat
  | [], Values => Values
  | Expression :: rest, Values =>
    if Expression.IsTextureParameter then
      addTextureParameterValues rest (Values ++ [Expression.ParameterName])
    else addTextureParameterValues rest Values

/-- The loop `for TypeIndex < ARRAY_COUNT(TextureExpressions)` of
`CopyMaterialUniformParameters`: each table pointer is dereferenced. -/
def copyTextureParameters :
    List (Option (List FMaterialUniformExpressionTexture)) → List Nat → Except Fault (List Nat)
  | [], Values => .ok Values
  | none :: _, _ => .error .NullDeref
  | some Table :: rest, Values =>
    copyTextureParameters rest (addTextureParameterValues Table Values)

/-- The texture part of `UMaterialInstanceDynamic::CopyMaterialUniformParameters` for
a `UMaterial` source with a material resource. -/
def CopyMaterialUniformParameters_Textures (Resource : FMaterialResource)
    (TextureParameterValues : List Nat) : Except Fault (List Nat) :=
  copyTextureParameters (TextureExpressions Resource) TextureParameterValues

/-- The constant `MAX_TEXTURE_2D_ARRAY_SLICES` of `Texture2DArray.cpp`. -/
def MAX_TEXTURE_2D_ARRAY_SLICES : Int := 512

/-- Three cooked mips of a 2x2 array with two slices (32, 8 and 8 bytes). -/
def demoMips : List FTexture2DMipMap :=
  [{ BulkDataSize := 32, Loaded := some (List.replicate 32 1) },
   { BulkDataSize := 8, Loaded := some (List.replicate 8 2) },
   { BulkDataSize := 8, Loaded := some (List.replicate 8 3) }]

/-- Sample platform data: 2x2, two slices, the three mips of `demoMips`. -/
def demoPlatformData : FTexturePlatformData :=
  { SizeX := 2, SizeY := 2, NumSlices := 2, PixelFormat := .PF 2, Mips := demoMips }

/-- A sample asset with cooked platform data. -/
def demoCookedAsset : UTexture2DArray :=
  { demoAsset [] with PlatformData := some demoPlatformData }

/-- Sample counters, all zero. -/
def demoStats : FStats := { STAT_TextureMemory := 0, LODGroupStat := fun _ => 0 }

/-- Sample RHI globals: every format supported and uncompressed. -/
def demoGlobals : FRHIGlobals :=
  { GPixelFormats := fun _ => { Supported := true, BlockSizeX := 1 },
    GSupportsTexture2DArray := true, GSupportsTexture3D := true,
    GMaxRHIShaderPlatform := .SP_PCD3D_SM5, SamplerFilter := 0 }

/-- The size the constructor records for mip `m`: `FMath::Max<int32>` of the declared
bulk size and of the computed size times the slice count, stored in a `uint32`. -/
def recordedMipSize (E : Engine) (SizeX SizeY SizeZ : Nat) (PixelFormat : EPixelFormat)
    (m : Nat) (Mip : FTexture2DMipMap) : Nat :=
  toUInt32 (max Mip.BulkDataSize
    (toInt32 ((E.CalcTextureMipMapSize SizeX SizeY PixelFormat m * SizeZ : Nat) : Int)))

/-- Every mip of the platform data from `FirstMipToLoad` on can be loaded, so that
`TryLoadMips` succeeds. -/
def MipsLoad (PlatformData : FTexturePlatformData) (FirstMipToLoad : Int) : Prop :=
  (PlatformData.Mips.drop FirstMipToLoad.toNat).all (fun Mip => Mip.Loaded.isSome) = true

instance (PlatformData : FTexturePlatformData) (FirstMipToLoad : Int) :
    Decidable (MipsLoad PlatformData FirstMipToLoad) := by
  unfold MipsLoad; infer_instance

/-- A sample asset whose mip chain has `MAX_TEXTURE_MIP_COUNT` (14) mips of 4 bytes. -/
def demoFullChainAsset : UTexture2DArray :=
  { demoAsset [] with
    PlatformData := some
      { SizeX := 8192, SizeY := 8192, NumSlices := 1, PixelFormat := .PF 2,
        Mips := List.replicate 14 { BulkDataSize := 4, Loaded := some [1, 2, 3, 4] } } }

/-- The resource the constructor builds from `demoCookedAsset` with mip bias 1. -/
def demoResource : FTexture2DArray2Resource :=
  { LODGroupStatName := 0, SizeX := 2, SizeY := 2, SizeZ := 2, CurrentFirstMip := -1,
    NumMips := 3, PixelFormat := .PF 2,
    CreationFlags := { TexCreate_SRGB := true, TexCreate_OfflineProcessed := true,
                       TexCreate_ShaderResource := true, TexCreate_NoTiling := false },
    TextureSize := 0, SamplerFilter := 0, bGreyScaleFormat := false,
    Texture2DArrayRHI := none, TextureRHI := none, SamplerStateRHI := none,
    TextureReferenceRHI := none,
    InitialData :=
      { MipData := [none, some [2, 2, 2, 2, 2, 2, 2, 2], some [3, 3, 3, 3, 3, 3, 3, 3]]
          ++ List.replicate 11 none,
        MipSize := [0, 8, 8] ++ List.replicate 11 0, FirstMip := 1, NumSlices := 2 } }

/-- The bulk data of `demoResource` after `MergeMips`. -/
def demoMergedData : FTexture2DArray2BulkData :=
  { MipData := [none, some [2, 2, 2, 2, 3, 3, 3, 3, 2, 2, 2, 2, 3, 3, 3, 3]]
      ++ List.replicate 12 none,
    MipSize := [0, 16] ++ List.replicate 12 0, FirstMip := 1, NumSlices := 2 }

/-- The texture `InitRHI` of `demoResource` asks the RHI to create. -/
def demoCreated : FRHITexture2DArray :=
  { SizeX := 1, SizeY := 1, SizeZ := 2, Format := .PF 2, NumMips := 2,
    Flags := demoResource.CreationFlags, BulkData := demoMergedData }

/-- The resource `demoResource` after `InitRHI`. -/
def demoResourceInitialised : FTexture2DArray2Resource :=
  { demoResource with
    CurrentFirstMip := 1, InitialData := demoMergedData,
    Texture2DArrayRHI := some demoCreated, TextureRHI := some demoCreated,
    TextureReferenceRHI := some demoCreated,
    SamplerStateRHI := some { Filter := 0, AddressU_IsClamp := true, AddressV_IsClamp := true,
                              AddressW_IsClamp := true } }

/-- The counters `Stats` after `InitRHI` of `demoResource`. -/
def demoStatsAfterInit (Stats : FStats) : FStats :=
  { STAT_TextureMemory := Stats.STAT_TextureMemory + 0,
    LODGroupStat := fun g => if g = 0 then Stats.LODGroupStat g + 0 else Stats.LODGroupStat g }

/-- The condition under which `CreateResource` constructs a resource: mips present,
array textures supported, and the pixel format supported (flagged `Supported`, and
not block-compressed or compression supported by the shader platform). -/
def ResourceCondition (G : FRHIGlobals) (A : UTexture2DArray) : Prop :=
  A.GetNumMips > 0 ∧ G.GSupportsTexture2DArray = true ∧
  (G.GPixelFormats A.GetPixelFormat).Supported = true ∧
  ((G.GPixelFormats A.GetPixelFormat).BlockSizeX ≤ 1 ∨
    ShaderPlatformSupportsCompression G.GMaxRHIShaderPlatform = true)

instance (G : FRHIGlobals) (A : UTexture2DArray) : Decidable (ResourceCondition G A) := by
  unfold ResourceCondition; infer_instance

/-- A sample asset whose platform data has mips but slice count 0. -/
def demoSlicelessAsset : UTexture2DArray :=
  { demoAsset [] with
    PlatformData := some { SizeX := 2, SizeY := 2, NumSlices := 0, PixelFormat := .PF 2,
                           Mips := [{ BulkDataSize := 0, Loaded := some [] }] } }

/-- The condition of `UpdateMipGenSettings`: `PowerOfTwoMode` is `None` and the source
dimensions or the slice count are not a power of two. -/
def ForcesNoMipmaps (E : Engine) (A : UTexture2DArray) : Prop :=
  A.PowerOfTwoMode = ETexturePowerOfTwoSetting.None ∧
  (E.IsPowerOfTwo A.Source.SizeX = false ∨ E.IsPowerOfTwo A.Source.SizeY = false ∨
    E.IsPowerOfTwo A.Source.NumSlices = false)

instance (E : Engine) (A : UTexture2DArray) : Decidable (ForcesNoMipmaps E A) := by
  unfold ForcesNoMipmaps; infer_instance

/-- A list of 513 equal 1x1 source textures. -/
def demoManyTextures : List (Option UTexture2D) :=
  List.replicate 513 (demoTexture 1 1 1 (.TSF 2) (some [9]))

/-- The copy branch of `MergeMips` (lines 239-259) on its own: the allocation of
`MergedSize` bytes, the two copy loops, `Discard`, and the two stores into entry
`FirstMip`. `MergeMips` runs it when `MergedSize > MipSize[FirstMip]`. -/
def FTexture2DArray2BulkData.mergeCopy (Uninit : Nat → Byte) (self : FTexture2DArray2BulkData)
    (NumMips : Int) (MergedSize : Nat) : Except Fault FTexture2DArray2BulkData :=
  match Malloc Uninit (MergedSize : Int) with
  | .error f => .error f
  | .ok MergedAlloc =>
  match mergeSlices self (loopRange self.FirstMip NumMips) (loopRange 0 self.NumSlices)
      MergedAlloc 0 with
  | .error f => .error f
  | .ok (MergedAlloc1, _) =>
  let self1 := self.Discard
  match writeAt self1.MipData self1.FirstMip (some MergedAlloc1) with
  | .error f => .error f
  | .ok MipData1 =>
  match writeAt self1.MipSize self1.FirstMip (MergedSize % 4294967296) with
  | .error f => .error f
  | .ok MipSize1 => .ok { self1 with MipData := MipData1, MipSize := MipSize1 }

/-- The value `MipSize[MipIndex]` of an index inside the array. -/
def FTexture2DArray2BulkData.sizeOfMip (self : FTexture2DArray2BulkData) (MipIndex : Int) : Nat :=
  self.MipSize.getD MipIndex.toNat 0

/-- The sizes `MipSize[m]` for `m` in `[FirstMip, NumMips)`, in order. -/
def FTexture2DArray2BulkData.sizesInRange (self : FTexture2DArray2BulkData) (NumMips : Int) :
    List Nat :=
  (loopRange self.FirstMip NumMips).map self.sizeOfMip

/-- Bulk data of 3 slices whose only mip holds 4 bytes: the slice count does not
divide the size. -/
def demoThreeSliceBulkData : FTexture2DArray2BulkData :=
  { MipData := [some [1, 2, 3, 4]] ++ List.replicate 13 none,
    MipSize := [4] ++ List.replicate 13 0, FirstMip := 0, NumSlices := 3 }

/-- Bulk data of 2 slices with a single mip of 4 bytes. -/
def demoSingleMipBulkData : FTexture2DArray2BulkData :=
  { MipData := [some [65, 65, 66, 66]] ++ List.replicate 13 none,
    MipSize := [4] ++ List.replicate 13 0, FirstMip := 0, NumSlices := 2 }

/-- A texture editor on the sample cooked array (2 slices), the use-slice box
checked. -/
def demoToolkit : FTextureEditorToolkit :=
  { Texture := .Texture2DArray demoCookedAsset, SpecifiedTextureSlice := 0,
    bUseSpecifiedTextureSlice := true }

/-- A texture editor on an array without platform data (slice count 0). -/
def demoEmptyToolkit : FTextureEditorToolkit :=
  { Texture := .Texture2DArray (demoAsset []), SpecifiedTextureSlice := 0,
    bUseSpecifiedTextureSlice := true }

/-- Bulk data of 2 slices whose second mip records 4 bytes over a buffer of 2. -/
def demoShortBufferBulkData : FTexture2DArray2BulkData :=
  { MipData := [some [1, 2, 3, 4], some [5, 6]] ++ List.replicate 12 none,
    MipSize := [4, 4] ++ List.replicate 12 0, FirstMip := 0, NumSlices := 2 }

/-- A cooked 2x2 array of 3 slices whose second mip declares and loads 8 bytes, while
`CalcTextureMipMapSize` of the sample engine gives 4 bytes a slice, 12 in all. -/
def demoShortMipAsset : UTexture2DArray :=
  { demoAsset [] with
    PlatformData := some { SizeX := 2, SizeY := 2, NumSlices := 3, PixelFormat := .PF 2,
                           Mips := [{ BulkDataSize := 48, Loaded := some (List.replicate 48 1) },
                                    { BulkDataSize := 8, Loaded := some (List.replicate 8 2) }] } }

/-- The bulk data `demoBulkData` after `MergeMips(3)`. -/
def demoBulkDataMerged : FTexture2DArray2BulkData :=
  { MipData := [some [65, 65, 67, 99, 69, 66, 66, 68, 100, 101]] ++ List.replicate 13 none,
    MipSize := [10] ++ List.replicate 13 0, FirstMip := 0, NumSlices := 2 }

/-! ## Properties -/

/-! ### The validation loop, the copy loop and the whole call -/

theorem checkSourceTextures_cons_some (tex : UTexture2D) (rest : List (Option UTexture2D))
    (st : SourceCheck) :
    checkSourceTextures (some tex :: rest) st =
      if (st.latch tex.Source).differs tex.Source then
        { st.latch tex.Source with bSourceTexturesAreValid := false }
      else checkSourceTextures rest (st.latch tex.Source) := by
  simp only [checkSourceTextures, SourceCheck.latch, SourceCheck.differs,
    FTextureSource.GetSizeX, FTextureSource.GetSizeY, FTextureSource.GetNumMips,
    FTextureSource.GetFormat]

theorem checkSourceTextures_valid_start (l : List (Option UTexture2D)) (st : SourceCheck)
    (h : (checkSourceTextures l st).bSourceTexturesAreValid = true) :
    st.bSourceTexturesAreValid = true := by
  induction l generalizing st with
  | nil => simpa [checkSourceTextures] using h
  | cons t rest ih =>
    cases t with
    | none => simp [checkSourceTextures] at h
    | some tex =>
      rw [checkSourceTextures_cons_some] at h
      by_cases hd : (st.latch tex.Source).differs tex.Source
      · rw [if_pos hd] at h; simp at h
      · rw [if_neg hd] at h; exact ih (st.latch tex.Source) h

theorem checkSourceTextures_nonnull (l : List (Option UTexture2D)) (st : SourceCheck)
    (h : (checkSourceTextures l st).bSourceTexturesAreValid = true) : AllNonNull l := by
  induction l generalizing st with
  | nil => intro t ht; cases ht
  | cons t rest ih =>
    cases t with
    | none => simp [checkSourceTextures] at h
    | some tex =>
      rw [checkSourceTextures_cons_some] at h
      by_cases hd : (st.latch tex.Source).differs tex.Source
      · rw [if_pos hd] at h; simp at h
      · rw [if_neg hd] at h
        intro t ht
        rcases List.mem_cons.1 ht with rfl | ht
        · simp
        · exact ih _ h t ht

theorem SourceCheck.latch_holds (st : SourceCheck) (ref s : FTextureSource)
    (ht : st.Tracks ref) (hs : SameShape s ref) : (st.latch s).Holds ref := by
  obtain ⟨h1, h2, h3, h4⟩ := ht
  obtain ⟨e1, e2, e3, e4⟩ := hs
  refine ⟨?_, ?_, ?_, ?_⟩
  · show (if st.SizeX = -1 then s.SizeX else st.SizeX) = ref.SizeX
    split <;> simp_all
  · show (if st.SizeY = -1 then s.SizeY else st.SizeY) = ref.SizeY
    split <;> simp_all
  · show (if st.NumMips = -1 then s.NumMips else st.NumMips) = ref.NumMips
    split <;> simp_all
  · show (if st.TextureFormat = .TSF_Invalid then s.Format else st.TextureFormat) = ref.Format
    split <;> simp_all

theorem SourceCheck.Holds.tracks {st : SourceCheck} {ref : FTextureSource} (h : st.Holds ref) :
    st.Tracks ref :=
  ⟨Or.inr h.1, Or.inr h.2.1, Or.inr h.2.2.1, Or.inr h.2.2.2⟩

theorem SourceCheck.Holds.not_differs {st : SourceCheck} {ref s : FTextureSource}
    (h : st.Holds ref) (hs : SameShape s ref) : ¬ st.differs s := by
  obtain ⟨h1, h2, h3, h4⟩ := h
  obtain ⟨e1, e2, e3, e4⟩ := hs
  simp [SourceCheck.differs, h1, h2, h3, h4, e1, e2, e3, e4]

/-- A list of textures that all agree with `ref` passes the first loop, from any
state whose latched values are those of `ref` or still the sentinels. -/
theorem checkSourceTextures_of_match (ref : FTextureSource) (l : List (Option UTexture2D))
    (st : SourceCheck) (hv : st.bSourceTexturesAreValid = true) (ht : st.Tracks ref)
    (hn : AllNonNull l) (hm : AllMatch ref l) :
    (checkSourceTextures l st).bSourceTexturesAreValid = true ∧
      (l ≠ [] → (checkSourceTextures l st).Holds ref) ∧
      (checkSourceTextures l st).Tracks ref := by
  induction l generalizing st with
  | nil => exact ⟨by simpa [checkSourceTextures] using hv, by simp, by simpa [checkSourceTextures] using ht⟩
  | cons t rest ih =>
    cases t with
    | none => exact absurd rfl (hn none (List.mem_cons_self _ _))
    | some tex =>
      have hs : SameShape tex.Source ref := hm (some tex) (List.mem_cons_self _ _) tex rfl
      have hh := st.latch_holds ref tex.Source ht hs
      rw [checkSourceTextures_cons_some, if_neg (hh.not_differs hs)]
      have hn' : AllNonNull rest := fun t h => hn t (List.mem_cons_of_mem _ h)
      have hm' : AllMatch ref rest := fun t h => hm t (List.mem_cons_of_mem _ h)
      obtain ⟨a, b, c⟩ := ih (st.latch tex.Source) hv hh.tracks hn' hm'
      refine ⟨a, fun _ => ?_, c⟩
      by_cases hr : rest = []
      · subst hr; simpa [checkSourceTextures] using hh
      · exact b hr

/-- From a state whose latched values are those of `ref` and none a sentinel, the
first loop passes only lists whose textures all agree with `ref`. -/
theorem checkSourceTextures_match_of_valid (ref : FTextureSource) (l : List (Option UTexture2D))
    (st : SourceCheck) (hh : st.Holds ref)
    (hx : ref.SizeX ≠ -1) (hy : ref.SizeY ≠ -1) (hmips : ref.NumMips ≠ -1)
    (hf : ref.Format ≠ .TSF_Invalid)
    (h : (checkSourceTextures l st).bSourceTexturesAreValid = true) : AllMatch ref l := by
  induction l generalizing st with
  | nil => intro t ht; cases ht
  | cons t rest ih =>
    cases t with
    | none => simp [checkSourceTextures] at h
    | some tex =>
      rw [checkSourceTextures_cons_some] at h
      obtain ⟨h1, h2, h3, h4⟩ := hh
      have hl : st.latch tex.Source = st := by
        cases st
        simp only [SourceCheck.latch] at *
        simp [h1, h2, h3, h4, hx, hy, hmips, hf]
      rw [hl] at h
      by_cases hd : st.differs tex.Source
      · rw [if_pos hd] at h; simp at h
      · rw [if_neg hd] at h
        have hs : SameShape tex.Source ref := by
          simp only [SourceCheck.differs, not_or, not_not] at hd
          exact ⟨hd.1 ▸ h1, hd.2.1 ▸ h2, hd.2.2.1 ▸ h3, hd.2.2.2 ▸ h4⟩
        intro t ht tex' he
        rcases List.mem_cons.1 ht with rfl | ht
        · cases he; exact hs
        · exact ih st ⟨h1, h2, h3, h4⟩ h t ht tex' he

@[simp] theorem garbage_length (Uninit : Nat → Byte) (a n : Nat) :
    (garbage Uninit a n).length = n := by simp [garbage]

theorem garbage_add (Uninit : Nat → Byte) (a n m : Nat) :
    garbage Uninit a (n + m) = garbage Uninit a n ++ garbage Uninit (a + n) m := by
  unfold garbage
  rw [← List.map_append, List.range'_append_1, Nat.add_comm]

theorem Malloc_ok (Uninit : Nat → Byte) (n : Nat) :
    Malloc Uninit (n : Int) = .ok (garbage Uninit 0 n) := by
  have : ¬ ((n : Int) < 0) := by omega
  simp [Malloc, this, garbage, List.range_eq_range']

theorem Memcpy_length {Dest Src Out : List Byte} {DestPos SrcPos Count : Int}
    (h : Memcpy Dest DestPos Src SrcPos Count = .ok Out) : Out.length = Dest.length := by
  unfold Memcpy at h
  split at h
  · cases h
  · split at h
    · cases h
    · rename_i h1 h2
      injection h with h
      subst h
      simp only [List.length_append, List.length_take, List.length_drop]
      omega

theorem sliceOf_length (Uninit : Nat → Byte) (S pos : Nat) (t : Option UTexture2D)
    (h : DataCovers S [t]) : (sliceOf Uninit S pos t).length = S := by
  cases t with
  | none => simp [sliceOf]
  | some tex =>
    simp only [sliceOf]
    cases hd : tex.Source.MipData0 with
    | none => simp [hd]
    | some d =>
      have := h (some tex) (List.mem_singleton.2 rfl) tex rfl d hd
      simp [hd, this]

theorem copySourceTextures_ok (Uninit : Nat → Byte) (S : Nat) (l : List (Option UTexture2D))
    (pre : List Byte) (hn : AllNonNull l) (hc : DataCovers S l) :
    copySourceTextures (S : Int) l (pre ++ garbage Uninit pre.length (l.length * S))
        (pre.length : Int) =
      .ok (pre ++ mergedSlices Uninit S l pre.length, ((pre.length + l.length * S : Nat) : Int)) := by
  induction l generalizing pre with
  | nil => simp [copySourceTextures, mergedSlices, garbage]
  | cons t rest ih =>
    have hn' : AllNonNull rest := fun t h => hn t (List.mem_cons_of_mem _ h)
    have hc' : DataCovers S rest := fun t h => hc t (List.mem_cons_of_mem _ h)
    have hlen : (t :: rest).length * S = S + rest.length * S := by
      simp [Nat.add_mul, Nat.add_comm]
    cases t with
    | none => exact absurd rfl (hn none (List.mem_cons_self _ _))
    | some tex =>
      rw [hlen, garbage_add]
      cases hd : tex.Source.MipData0 with
      | none =>
        simp only [copySourceTextures, hd]
        have := ih (pre ++ garbage Uninit pre.length S) hn' hc'
        simp only [List.length_append, garbage_length, List.append_assoc] at this
        have e : ((pre.length : Int) + (S : Int)) = ((pre.length + S : Nat) : Int) := by push_cast; rfl
        rw [e, this]
        simp [mergedSlices, sliceOf, hd, Nat.add_assoc]
      | some d =>
        have hdl : S ≤ d.length := hc (some tex) (List.mem_cons_self _ _) tex rfl d hd
        simp only [copySourceTextures, hd]
        have hm : Memcpy (pre ++ (garbage Uninit pre.length S ++
              garbage Uninit (pre.length + S) (rest.length * S))) (pre.length : Int) d 0 (S : Int)
            = .ok (pre ++ d.take S ++ garbage Uninit (pre.length + S) (rest.length * S)) := by
          unfold Memcpy
          have c1 : ¬ ((S : Int) < 0 ∨ (0 : Int) < 0 ∨ (d.length : Int) < 0 + (S : Int)) := by omega
          have c2 : ¬ ((pre.length : Int) < 0 ∨
              ((pre ++ (garbage Uninit pre.length S ++
                garbage Uninit (pre.length + S) (rest.length * S))).length : Int)
                < (pre.length : Int) + (S : Int)) := by
            simp only [List.length_append, garbage_length]; push_cast; omega
          rw [if_neg c1, if_neg c2]
          simp [List.take_append_eq_append_take, List.drop_append_eq_append_drop]
        rw [hm]
        have := ih (pre ++ d.take S) hn' hc'
        simp only [List.length_append, List.length_take, Nat.min_eq_left hdl,
          List.append_assoc] at this
        have e : ((pre.length : Int) + (S : Int)) = ((pre.length + S : Nat) : Int) := by push_cast; rfl
        simp only [List.append_assoc]
        rw [e, this]
        simp [mergedSlices, sliceOf, hd, Nat.add_assoc]

theorem copySourceTextures_length (S : Int) (l : List (Option UTexture2D))
    (buf : List Byte) (pos : Int) (out : List Byte) (pos1 : Int)
    (h : copySourceTextures S l buf pos = .ok (out, pos1)) : out.length = buf.length := by
  induction l generalizing buf pos with
  | nil => simp [copySourceTextures] at h; rw [h.1]
  | cons t rest ih =>
    cases t with
    | none => simp [copySourceTextures] at h
    | some tex =>
      cases hd : tex.Source.MipData0 with
      | none =>
        simp only [copySourceTextures, hd] at h
        exact ih _ _ h
      | some d =>
        simp only [copySourceTextures, hd] at h
        cases hm : Memcpy buf pos d 0 S with
        | error f => rw [hm] at h; cases h
        | ok b1 =>
          rw [hm] at h
          rw [ih _ _ h, Memcpy_length hm]

theorem mulInt32_ok {a b : Int} (h : FitsInt32 (a * b)) : mulInt32 a b = .ok (a * b) := by
  unfold mulInt32; exact if_pos h

theorem mulInt32_inv {a b c : Int} (h : mulInt32 a b = .ok c) : c = a * b ∧ FitsInt32 (a * b) := by
  unfold mulInt32 at h
  split at h
  · rename_i hf; injection h with h; exact ⟨h.symm, hf⟩
  · cases h

theorem copySourceTextures_covers (S : Nat) (l : List (Option UTexture2D))
    (buf : List Byte) (pos : Int) (r : List Byte × Int)
    (h : copySourceTextures (S : Int) l buf pos = .ok r) : DataCovers S l := by
  induction l generalizing buf pos with
  | nil => intro t ht; cases ht
  | cons t rest ih =>
    cases t with
    | none => simp [copySourceTextures] at h
    | some tex =>
      cases hd : tex.Source.MipData0 with
      | none =>
        simp only [copySourceTextures, hd] at h
        intro t ht tex' he d hd'
        rcases List.mem_cons.1 ht with rfl | ht
        · cases he; rw [hd] at hd'; cases hd'
        · exact ih _ _ h t ht tex' he d hd'
      | some d =>
        simp only [copySourceTextures, hd] at h
        cases hm : Memcpy buf pos d 0 S with
        | error f => rw [hm] at h; cases h
        | ok b1 =>
          rw [hm] at h
          have hS : S ≤ d.length := by
            unfold Memcpy at hm
            split at hm
            · cases hm
            · rename_i hc; omega
          intro t ht tex' he d' hd'
          rcases List.mem_cons.1 ht with rfl | ht
          · cases he; rw [hd] at hd'; cases hd'; exact hS
          · exact ih _ _ h t ht tex' he d' hd'

theorem mergeSourceTextures_ok (E : Engine) (Uninit : Nat → Byte) (self : UTexture2DArray)
    (chk : SourceCheck) (hn : AllNonNull self.Source2DTextures)
    (hf : MergeFits E chk.SizeX chk.SizeY chk.TextureFormat self.Source2DTextures) :
    mergeSourceTextures E Uninit self self.Source2DTextures.length chk =
      .ok { self with Source := (mergedSource E Uninit chk.SizeX chk.SizeY chk.TextureFormat
              self.Source2DTextures) } := by
  obtain ⟨h1, h2, h3, h4, h5⟩ := hf
  unfold OneTextureSize at h2 h3 h4 h5
  obtain ⟨S, hS⟩ := Int.eq_ofNat_of_zero_le h4
  rw [hS] at h3 h5
  simp only [Int.toNat_ofNat] at h5
  have hal : (S : Int) * (self.Source2DTextures.length : Int)
      = ((self.Source2DTextures.length * S : Nat) : Int) := by push_cast; ring
  have hc := copySourceTextures_ok Uninit S self.Source2DTextures [] hn h5
  simp only [List.length_nil, List.nil_append] at hc
  simp only [mergeSourceTextures, mulInt32_ok h1, mulInt32_ok h2, hS, mulInt32_ok h3, hal,
    Malloc_ok]
  have e0 : ((0 : Nat) : Int) = 0 := rfl
  rw [e0] at hc
  rw [hc]
  simp [mergedSource, OneTextureSize, hS]

theorem mergeSourceTextures_inv (E : Engine) (Uninit : Nat → Byte) (self : UTexture2DArray)
    (chk : SourceCheck) (hne : self.Source2DTextures ≠ []) (out : UTexture2DArray)
    (h : mergeSourceTextures E Uninit self self.Source2DTextures.length chk = .ok out) :
    MergeFits E chk.SizeX chk.SizeY chk.TextureFormat self.Source2DTextures := by
  unfold mergeSourceTextures at h
  simp only at h
  cases h1 : mulInt32 chk.SizeX chk.SizeY with
  | error f => rw [h1] at h; cases h
  | ok XY =>
  rw [h1] at h; simp only at h
  obtain ⟨rfl, f1⟩ := mulInt32_inv h1
  cases h2 : mulInt32 (chk.SizeX * chk.SizeY) (E.BlockBytes chk.TextureFormat) with
  | error f => rw [h2] at h; cases h
  | ok S =>
  rw [h2] at h; simp only at h
  obtain ⟨rfl, f2⟩ := mulInt32_inv h2
  cases h3 : mulInt32 (chk.SizeX * chk.SizeY * E.BlockBytes chk.TextureFormat)
      (self.Source2DTextures.length : Int) with
  | error f => rw [h3] at h; cases h
  | ok A =>
  rw [h3] at h; simp only at h
  obtain ⟨rfl, f3⟩ := mulInt32_inv h3
  cases h4 : Malloc Uninit (chk.SizeX * chk.SizeY * E.BlockBytes chk.TextureFormat *
      (self.Source2DTextures.length : Int)) with
  | error f => rw [h4] at h; cases h
  | ok buf =>
  rw [h4] at h; simp only at h
  have hpos : 0 ≤ chk.SizeX * chk.SizeY * E.BlockBytes chk.TextureFormat := by
    unfold Malloc at h4
    split at h4
    · cases h4
    · rename_i hc
      have hl : 0 < (self.Source2DTextures.length : Int) := by
        have := List.length_pos.2 hne; omega
      by_contra hneg
      have : chk.SizeX * chk.SizeY * E.BlockBytes chk.TextureFormat *
          (self.Source2DTextures.length : Int) < 0 :=
        Int.mul_neg_of_neg_of_pos (by omega) hl
      exact hc this
  cases h5 : copySourceTextures (chk.SizeX * chk.SizeY * E.BlockBytes chk.TextureFormat)
      self.Source2DTextures buf 0 with
  | error f => rw [h5] at h; cases h
  | ok r =>
  obtain ⟨S, hS⟩ := Int.eq_ofNat_of_zero_le hpos
  rw [hS] at h5
  refine ⟨f1, f2, f3, hpos, ?_⟩
  unfold OneTextureSize
  rw [hS]
  exact copySourceTextures_covers S _ _ _ _ h5

theorem mergeSourceTextures_error (E : Engine) (Uninit : Nat → Byte) (self : UTexture2DArray)
    (chk : SourceCheck) (hne : self.Source2DTextures ≠ [])
    (hf : ¬ MergeFits E chk.SizeX chk.SizeY chk.TextureFormat self.Source2DTextures) :
    ∃ f, mergeSourceTextures E Uninit self self.Source2DTextures.length chk = .error f := by
  cases h : mergeSourceTextures E Uninit self self.Source2DTextures.length chk with
  | error f => exact ⟨f, rfl⟩
  | ok out => exact absurd (mergeSourceTextures_inv E Uninit self chk hne out h) hf

theorem Update_of_empty (E : Engine) (Uninit : Nat → Byte) (G : FGuid) (self : UTexture2DArray)
    (h : self.Source2DTextures = []) :
    self.UpdateSourceFromSourceTextures E Uninit G = .ok (false, self.invalidated E) := by
  simp [UTexture2DArray.UpdateSourceFromSourceTextures, h, UTexture2DArray.invalidated]

theorem Update_of_invalid (E : Engine) (Uninit : Nat → Byte) (G : FGuid) (self : UTexture2DArray)
    (h : (checkSourceTextures self.Source2DTextures SourceCheck.start).bSourceTexturesAreValid
      = false) :
    self.UpdateSourceFromSourceTextures E Uninit G = .ok (false, self.invalidated E) := by
  by_cases hl : (self.Source2DTextures.length : Int) > 0
  · simp [UTexture2DArray.UpdateSourceFromSourceTextures, h, hl, UTexture2DArray.invalidated]
  · simp [UTexture2DArray.UpdateSourceFromSourceTextures, hl, UTexture2DArray.invalidated]

theorem Update_of_valid (E : Engine) (Uninit : Nat → Byte) (G : FGuid) (self : UTexture2DArray)
    (hne : self.Source2DTextures ≠ [])
    (h : (checkSourceTextures self.Source2DTextures SourceCheck.start).bSourceTexturesAreValid
      = true)
    (hf : MergeFits E (checkSourceTextures self.Source2DTextures SourceCheck.start).SizeX
      (checkSourceTextures self.Source2DTextures SourceCheck.start).SizeY
      (checkSourceTextures self.Source2DTextures SourceCheck.start).TextureFormat
      self.Source2DTextures) :
    self.UpdateSourceFromSourceTextures E Uninit G =
      .ok (true, self.merged E Uninit G
        (checkSourceTextures self.Source2DTextures SourceCheck.start)) := by
  have hl : (self.Source2DTextures.length : Int) > 0 := by
    have := List.length_pos.2 hne; omega
  have hn := checkSourceTextures_nonnull _ _ h
  simp only [UTexture2DArray.UpdateSourceFromSourceTextures, hl, h, if_true,
    mergeSourceTextures_ok E Uninit self _ hn hf]
  rfl

theorem Update_of_unfit (E : Engine) (Uninit : Nat → Byte) (G : FGuid) (self : UTexture2DArray)
    (hne : self.Source2DTextures ≠ [])
    (h : (checkSourceTextures self.Source2DTextures SourceCheck.start).bSourceTexturesAreValid
      = true)
    (hf : ¬ MergeFits E (checkSourceTextures self.Source2DTextures SourceCheck.start).SizeX
      (checkSourceTextures self.Source2DTextures SourceCheck.start).SizeY
      (checkSourceTextures self.Source2DTextures SourceCheck.start).TextureFormat
      self.Source2DTextures) :
    ∃ f, self.UpdateSourceFromSourceTextures E Uninit G = .error f := by
  have hl : (self.Source2DTextures.length : Int) > 0 := by
    have := List.length_pos.2 hne; omega
  obtain ⟨f, hf'⟩ := mergeSourceTextures_error E Uninit self _ hne hf
  exact ⟨f, by simp only [UTexture2DArray.UpdateSourceFromSourceTextures, hl, h, if_true, hf']⟩

theorem SameShape.symm {a b : FTextureSource} (h : SameShape a b) : SameShape b a :=
  ⟨h.1.symm, h.2.1.symm, h.2.2.1.symm, h.2.2.2.symm⟩

theorem SameShape.trans {a b c : FTextureSource} (h : SameShape a b) (h' : SameShape b c) :
    SameShape a c :=
  ⟨h.1.trans h'.1, h.2.1.trans h'.2.1, h.2.2.1.trans h'.2.2.1, h.2.2.2.trans h'.2.2.2⟩

theorem SameShape.refl (a : FTextureSource) : SameShape a a := ⟨rfl, rfl, rfl, rfl⟩

theorem AllMatch.mutually {ref : FTextureSource} {l : List (Option UTexture2D)}
    (h : AllMatch ref l) : MutuallyMatch l :=
  fun t1 h1 a e1 t2 h2 b e2 => (h t1 h1 a e1).trans (h t2 h2 b e2).symm

theorem MutuallyMatch.allMatch_head {tex : UTexture2D} {rest : List (Option UTexture2D)}
    (h : MutuallyMatch (some tex :: rest)) : AllMatch tex.Source (some tex :: rest) :=
  fun t ht a e => h t ht a e (some tex) (List.mem_cons_self _ _) tex rfl

theorem UpdateMipGenSettings_Source (E : Engine) (self : UTexture2DArray) :
    (self.UpdateMipGenSettings E).Source = self.Source := by
  unfold UTexture2DArray.UpdateMipGenSettings; split <;> rfl

theorem UpdateMipGenSettings_Source2DTextures (E : Engine) (self : UTexture2DArray) :
    (self.UpdateMipGenSettings E).Source2DTextures = self.Source2DTextures := by
  unfold UTexture2DArray.UpdateMipGenSettings; split <;> rfl

theorem invalidated_Source (E : Engine) (self : UTexture2DArray) :
    (self.invalidated E).Source = invalidSource := by
  simp [UTexture2DArray.invalidated, UpdateMipGenSettings_Source, invalidSource]

theorem invalidated_Source2DTextures (E : Engine) (self : UTexture2DArray) :
    (self.invalidated E).Source2DTextures = self.Source2DTextures := by
  simp [UTexture2DArray.invalidated, UpdateMipGenSettings_Source2DTextures]

theorem merged_Source (E : Engine) (U : Nat → Byte) (G : FGuid) (self : UTexture2DArray)
    (chk : SourceCheck) :
    (self.merged E U G chk).Source =
      mergedSource E U chk.SizeX chk.SizeY chk.TextureFormat self.Source2DTextures := by
  simp [UTexture2DArray.merged, UpdateMipGenSettings_Source, UTexture2DArray.SetLightingGuid]

theorem merged_Source2DTextures (E : Engine) (U : Nat → Byte) (G : FGuid)
    (self : UTexture2DArray) (chk : SourceCheck) :
    (self.merged E U G chk).Source2DTextures = self.Source2DTextures := by
  simp [UTexture2DArray.merged, UpdateMipGenSettings_Source2DTextures,
    UTexture2DArray.SetLightingGuid]

theorem mergedSource_ne_invalid (E : Engine) (U : Nat → Byte) (W H : Int)
    (F : ETextureSourceFormat) (l : List (Option UTexture2D)) :
    mergedSource E U W H F l ≠ invalidSource := by
  intro h
  have := congrArg FTextureSource.NumMips h
  simp [mergedSource, invalidSource, FTextureSource.Init] at this

theorem start_tracks (ref : FTextureSource) : SourceCheck.start.Tracks ref :=
  ⟨Or.inl rfl, Or.inl rfl, Or.inl rfl, Or.inl rfl⟩

/-- A non-empty list of textures that all agree with `ref` passes validation, and
the values the first loop latches are those of `ref`. -/
theorem check_of_allMatch (ref : FTextureSource) (l : List (Option UTexture2D))
    (hne : l ≠ []) (hn : AllNonNull l) (hm : AllMatch ref l) :
    (checkSourceTextures l SourceCheck.start).bSourceTexturesAreValid = true ∧
      (checkSourceTextures l SourceCheck.start).SizeX = ref.SizeX ∧
      (checkSourceTextures l SourceCheck.start).SizeY = ref.SizeY ∧
      (checkSourceTextures l SourceCheck.start).TextureFormat = ref.Format := by
  obtain ⟨a, b, _⟩ := checkSourceTextures_of_match ref l SourceCheck.start rfl (start_tracks ref) hn hm
  obtain ⟨h1, h2, _, h4⟩ := b hne
  exact ⟨a, h1, h2, h4⟩

/-- When the first entry carries no sentinel, only lists that agree with it pass. -/
theorem allMatch_of_check (tex : UTexture2D) (rest : List (Option UTexture2D))
    (hs : NoSentinel tex.Source)
    (h : (checkSourceTextures (some tex :: rest) SourceCheck.start).bSourceTexturesAreValid
      = true) : AllMatch tex.Source (some tex :: rest) := by
  rw [checkSourceTextures_cons_some] at h
  have hh : (SourceCheck.start.latch tex.Source).Holds tex.Source :=
    SourceCheck.latch_holds _ _ _ (start_tracks _) (SameShape.refl _)
  rw [if_neg (hh.not_differs (SameShape.refl _))] at h
  have := checkSourceTextures_match_of_valid tex.Source rest _ hh hs.1 hs.2.1 hs.2.2.1 hs.2.2.2 h
  intro t ht a e
  rcases List.mem_cons.1 ht with rfl | ht
  · cases e; exact SameShape.refl _
  · exact this t ht a e

theorem mergedSlices_length (U : Nat → Byte) (S : Nat) (l : List (Option UTexture2D)) (pos : Nat)
    (hc : DataCovers S l) : (mergedSlices U S l pos).length = l.length * S := by
  induction l generalizing pos with
  | nil => simp [mergedSlices]
  | cons t rest ih =>
    have h1 : DataCovers S [t] := fun x hx => by
      rw [List.mem_singleton.1 hx]; exact hc t (List.mem_cons_self _ _)
    have h2 : DataCovers S rest := fun x hx => hc x (List.mem_cons_of_mem _ hx)
    simp only [mergedSlices, List.length_append, sliceOf_length U S pos t h1, ih (pos + S) h2,
      List.length_cons]
    ring

theorem mergedSlices_sliceAt (U : Nat → Byte) (S : Nat) (l : List (Option UTexture2D))
    (pos i : Nat) (hc : DataCovers S l) (t : Option UTexture2D) (hi : l[i]? = some t) :
    sliceAt (mergedSlices U S l pos) S i = sliceOf U S (pos + i * S) t := by
  induction l generalizing pos i with
  | nil => simp at hi
  | cons t0 rest ih =>
    have h1 : DataCovers S [t0] := fun x hx => by
      rw [List.mem_singleton.1 hx]; exact hc t0 (List.mem_cons_self _ _)
    have h2 : DataCovers S rest := fun x hx => hc x (List.mem_cons_of_mem _ hx)
    have hl := sliceOf_length U S pos t0 h1
    cases i with
    | zero =>
      simp only [List.getElem?_cons_zero, Option.some.injEq] at hi
      subst hi
      simp [sliceAt, mergedSlices, List.take_append_of_le_length, hl]
    | succ j =>
      simp only [List.getElem?_cons_succ] at hi
      have := ih (pos + S) j h2 hi
      unfold sliceAt at this ⊢
      have e : (j + 1) * S = (sliceOf U S pos t0).length + j * S := by rw [hl]; ring
      simp only [mergedSlices]
      rw [e, List.drop_append, this]
      congr 1
      rw [hl]; ring

/-! ### Claims about `UpdateSourceFromSourceTextures` -/

/-- C1 (evaluation at the failing input): the first texture reports format
`TSF_Invalid`, the value the loop also uses for "no format latched yet", so the
second texture's different format is latched instead of compared. The call
returns true and installs a two-slice merged source of the second format. -/
theorem C1_invalid_format_first_entry_is_merged :
    (demoAsset [demoTexture 2 1 1 .TSF_Invalid none,
        demoTexture 2 1 1 (.TSF 2) (some [1, 2])]).UpdateSourceFromSourceTextures
      demoEngine (fun _ => 0) 7 =
    .ok (true,
      { demoAsset [demoTexture 2 1 1 .TSF_Invalid none, demoTexture 2 1 1 (.TSF 2) (some [1, 2])]
        with Source := FTextureSource.Init 2 1 2 1 (.TSF 2) (some [0, 0, 1, 2]),
             LightingGuid := 7 }) := by
  rfl

/-- C4: a source list that contains a null entry, at any position, makes the call
return false and leaves the merged source in the empty/invalid state, whose slice
count is 0; nothing is merged from the remaining entries. -/
theorem C4_null_entry_invalidates (E : Engine) (Uninit : Nat → Byte) (NewGuid : FGuid)
    (self : UTexture2DArray) (h : none ∈ self.Source2DTextures) :
    ∃ after, self.UpdateSourceFromSourceTextures E Uninit NewGuid = .ok (false, after) ∧
      after.Source = FTextureSource.Init 0 0 0 0 .TSF_Invalid none ∧
      after.Source.GetNumSlices = 0 ∧ after.Source.MipData0 = none := by
  have hv : (checkSourceTextures self.Source2DTextures SourceCheck.start).bSourceTexturesAreValid
      = false := by
    cases hb : (checkSourceTextures self.Source2DTextures SourceCheck.start).bSourceTexturesAreValid
    · rfl
    · exact absurd rfl (checkSourceTextures_nonnull _ _ hb none h)
  refine ⟨self.invalidated E, Update_of_invalid E Uninit NewGuid self hv, ?_, ?_, ?_⟩
  · exact invalidated_Source E self
  · rw [invalidated_Source]; rfl
  · rw [invalidated_Source]; rfl

theorem C4_null_entry_invalidates_witness :
    none ∈ (demoAsset [demoTexture 2 1 1 (.TSF 2) (some [1, 2]), none,
        demoTexture 2 1 1 (.TSF 2) (some [3, 4])]).Source2DTextures ∧
    ∃ after, (demoAsset [demoTexture 2 1 1 (.TSF 2) (some [1, 2]), none,
        demoTexture 2 1 1 (.TSF 2) (some [3, 4])]).UpdateSourceFromSourceTextures
          demoEngine (fun _ => 0) 7 = .ok (false, after) ∧
      after.Source = FTextureSource.Init 0 0 0 0 .TSF_Invalid none ∧
      after.Source.GetNumSlices = 0 ∧ after.Source.MipData0 = none :=
  ⟨by decide, C4_null_entry_invalidates demoEngine (fun _ => 0) 7 _ (by decide)⟩

/-- C6: on the empty source list the call completes without a fault, returns false
and leaves a merged source with slice count 0, width 0, height 0 and format
`TSF_Invalid`. -/
theorem C6_empty_list (E : Engine) (Uninit : Nat → Byte) (NewGuid : FGuid)
    (self : UTexture2DArray) (h : self.Source2DTextures = []) :
    ∃ after, self.UpdateSourceFromSourceTextures E Uninit NewGuid = .ok (false, after) ∧
      after.Source.GetNumSlices = 0 ∧ after.Source.GetSizeX = 0 ∧ after.Source.GetSizeY = 0 ∧
      after.Source.GetFormat = .TSF_Invalid := by
  refine ⟨self.invalidated E, Update_of_empty E Uninit NewGuid self h, ?_, ?_, ?_, ?_⟩ <;>
    (rw [invalidated_Source]; rfl)

theorem C6_empty_list_witness :
    (demoAsset []).Source2DTextures = [] ∧
    ∃ after, (demoAsset []).UpdateSourceFromSourceTextures demoEngine (fun _ => 0) 7
        = .ok (false, after) ∧
      after.Source.GetNumSlices = 0 ∧ after.Source.GetSizeX = 0 ∧ after.Source.GetSizeY = 0 ∧
      after.Source.GetFormat = .TSF_Invalid :=
  ⟨rfl, C6_empty_list demoEngine (fun _ => 0) 7 (demoAsset []) rfl⟩

/-- C8: for a non-empty list of non-null textures that all have width `W`, height
`H` and format `F` (those of `ref`), the call succeeds whenever the merge runs
without a fault, and every successful call installs a merged source of width `W`,
height `H`, slice count `N`, format `F` and a buffer of exactly
`W * H * BlockBytes(F) * N` bytes. -/
theorem C8_success_dimensions_and_size (E : Engine) (Uninit : Nat → Byte) (NewGuid : FGuid)
    (self : UTexture2DArray) (ref : FTextureSource)
    (hne : self.Source2DTextures ≠ []) (hn : AllNonNull self.Source2DTextures)
    (hm : AllMatch ref self.Source2DTextures) :
    (MergeFits E ref.SizeX ref.SizeY ref.Format self.Source2DTextures →
      ∃ after, self.UpdateSourceFromSourceTextures E Uninit NewGuid = .ok (true, after)) ∧
    (∀ after, self.UpdateSourceFromSourceTextures E Uninit NewGuid = .ok (true, after) →
      after.Source.GetSizeX = ref.SizeX ∧ after.Source.GetSizeY = ref.SizeY ∧
      after.Source.GetNumSlices = self.Source2DTextures.length ∧
      after.Source.GetFormat = ref.Format ∧
      ∃ buf, after.Source.MipData0 = some buf ∧
        (buf.length : Int) =
          ref.SizeX * ref.SizeY * E.BlockBytes ref.Format * self.Source2DTextures.length) := by
  obtain ⟨hv, hx, hy, hf⟩ := check_of_allMatch ref _ hne hn hm
  constructor
  · intro hfit
    rw [← hx, ← hy, ← hf] at hfit
    exact ⟨_, Update_of_valid E Uninit NewGuid self hne hv hfit⟩
  · intro after hok
    by_cases hfit : MergeFits E (checkSourceTextures self.Source2DTextures SourceCheck.start).SizeX
        (checkSourceTextures self.Source2DTextures SourceCheck.start).SizeY
        (checkSourceTextures self.Source2DTextures SourceCheck.start).TextureFormat
        self.Source2DTextures
    · rw [Update_of_valid E Uninit NewGuid self hne hv hfit] at hok
      injection hok with hok
      injection hok with _ hok
      subst hok
      rw [merged_Source, hx, hy, hf]
      rw [hx, hy, hf] at hfit
      refine ⟨rfl, rfl, rfl, rfl, _, rfl, ?_⟩
      obtain ⟨_, _, _, h0, hc⟩ := hfit
      rw [mergedSlices_length _ _ _ _ hc]
      unfold OneTextureSize at h0 ⊢
      push_cast
      rw [Int.toNat_of_nonneg h0]
      ring
    · obtain ⟨f, hf'⟩ := Update_of_unfit E Uninit NewGuid self hne hv hfit
      rw [hf'] at hok; cases hok

theorem C8_success_dimensions_and_size_witness :
    (demoAsset [demoTexture 2 1 1 (.TSF 2) (some [1, 2]),
      demoTexture 2 1 1 (.TSF 2) (some [3, 4])]).Source2DTextures ≠ [] ∧
    (∃ after, (demoAsset [demoTexture 2 1 1 (.TSF 2) (some [1, 2]),
        demoTexture 2 1 1 (.TSF 2) (some [3, 4])]).UpdateSourceFromSourceTextures
          demoEngine (fun _ => 0) 7 = .ok (true, after)) :=
  ⟨by decide,
   (C8_success_dimensions_and_size demoEngine (fun _ => 0) 7
      (demoAsset [demoTexture 2 1 1 (.TSF 2) (some [1, 2]),
        demoTexture 2 1 1 (.TSF 2) (some [3, 4])])
      { SizeX := 2, SizeY := 1, NumSlices := 1, NumMips := 1, Format := .TSF 2, MipData0 := none }
      (by decide) (by decide) (by decide)).1 (by decide)⟩

/-- C5 (counterexample): in the empty list every entry is non-null and all entries
mutually match, yet the call returns false and the merged source is the
empty/invalid state. -/
theorem C5_counterexample_empty_list :
    AllNonNull (demoAsset []).Source2DTextures ∧ MutuallyMatch (demoAsset []).Source2DTextures ∧
    ∃ after, (demoAsset []).UpdateSourceFromSourceTextures demoEngine (fun _ => 0) 7
        = .ok (false, after) ∧ after.Source = invalidSource :=
  ⟨by decide, by decide, _, rfl, rfl⟩

/-- C5 (amended): when the first entry carries none of the loop's sentinel values
and the merge of a matching list runs without a fault, the call returns true if
and only if the list is non-empty and all its entries are non-null and mutually
match; the merged source differs from the empty/invalid state exactly when the
call returned true. -/
theorem C5_valid_iff_nonempty_nonnull_matching (E : Engine) (Uninit : Nat → Byte)
    (NewGuid : FGuid) (self : UTexture2DArray)
    (hs : FirstNoSentinel self.Source2DTextures)
    (hfit : MergeFitsWhenMatching E self.Source2DTextures) :
    ∃ ret after, self.UpdateSourceFromSourceTextures E Uninit NewGuid = .ok (ret, after) ∧
      (ret = true ↔ self.Source2DTextures ≠ [] ∧ AllNonNull self.Source2DTextures ∧
        MutuallyMatch self.Source2DTextures) ∧
      (after.Source ≠ invalidSource ↔ ret = true) := by
  cases hl : self.Source2DTextures with
  | nil =>
    refine ⟨false, self.invalidated E, Update_of_empty E Uninit NewGuid self hl, ?_, ?_⟩
    · simp
    · simp [invalidated_Source]
  | cons t rest =>
    cases t with
    | none =>
      have hv : (checkSourceTextures self.Source2DTextures
          SourceCheck.start).bSourceTexturesAreValid = false := by
        rw [hl]; rfl
      refine ⟨false, self.invalidated E, Update_of_invalid E Uninit NewGuid self hv, ?_, ?_⟩
      · simp [AllNonNull]
      · simp [invalidated_Source]
    | some tex =>
      have hs' : NoSentinel tex.Source := by rw [hl] at hs; exact hs
      have hfit0 : AllNonNull self.Source2DTextures → AllMatch tex.Source self.Source2DTextures →
          MergeFits E tex.Source.SizeX tex.Source.SizeY tex.Source.Format
            self.Source2DTextures := by
        rw [hl] at hfit ⊢; exact hfit
      have hne : self.Source2DTextures ≠ [] := by rw [hl]; simp
      cases hv : (checkSourceTextures self.Source2DTextures
          SourceCheck.start).bSourceTexturesAreValid with
      | false =>
        refine ⟨false, self.invalidated E, Update_of_invalid E Uninit NewGuid self hv, ?_, ?_⟩
        · constructor
          · intro h; cases h
          · rintro ⟨_, hn, hm⟩
            rw [← hl] at hn hm
            have hm' : AllMatch tex.Source self.Source2DTextures := by
              rw [hl]; rw [hl] at hm; exact hm.allMatch_head
            have := (check_of_allMatch tex.Source _ hne hn hm').1
            rw [hv] at this; cases this
        · simp [invalidated_Source]
      | true =>
        have hn := checkSourceTextures_nonnull _ _ hv
        have hm : AllMatch tex.Source self.Source2DTextures := by
          rw [hl]; rw [hl] at hv; exact allMatch_of_check tex rest hs' hv
        obtain ⟨_, hx, hy, hf⟩ := check_of_allMatch tex.Source _ hne hn hm
        have hfit' := hfit0 hn hm
        rw [← hx, ← hy, ← hf] at hfit'
        refine ⟨true, _, Update_of_valid E Uninit NewGuid self hne hv hfit', ?_, ?_⟩
        · rw [← hl]; simp only [true_iff]; exact ⟨hne, hn, hm.mutually⟩
        · simp only [iff_true, merged_Source]; exact mergedSource_ne_invalid _ _ _ _ _ _

theorem C5_valid_iff_nonempty_nonnull_matching_witness :
    FirstNoSentinel (demoAsset [demoTexture 2 1 1 (.TSF 2) (some [1, 2]),
        demoTexture 2 1 1 (.TSF 2) (some [3, 4])]).Source2DTextures ∧
    ∃ ret after, (demoAsset [demoTexture 2 1 1 (.TSF 2) (some [1, 2]),
        demoTexture 2 1 1 (.TSF 2) (some [3, 4])]).UpdateSourceFromSourceTextures
          demoEngine (fun _ => 0) 7 = .ok (ret, after) ∧
      (ret = true ↔ (demoAsset [demoTexture 2 1 1 (.TSF 2) (some [1, 2]),
          demoTexture 2 1 1 (.TSF 2) (some [3, 4])]).Source2DTextures ≠ [] ∧
        AllNonNull (demoAsset [demoTexture 2 1 1 (.TSF 2) (some [1, 2]),
          demoTexture 2 1 1 (.TSF 2) (some [3, 4])]).Source2DTextures ∧
        MutuallyMatch (demoAsset [demoTexture 2 1 1 (.TSF 2) (some [1, 2]),
          demoTexture 2 1 1 (.TSF 2) (some [3, 4])]).Source2DTextures) ∧
      (after.Source ≠ invalidSource ↔ ret = true) :=
  ⟨by decide,
   C5_valid_iff_nonempty_nonnull_matching demoEngine (fun _ => 0) 7
    (demoAsset [demoTexture 2 1 1 (.TSF 2) (some [1, 2]),
      demoTexture 2 1 1 (.TSF 2) (some [3, 4])])
    (by decide) (by decide)⟩

theorem mergedSlices_indep (U1 U2 : Nat → Byte) (S : Nat) (l : List (Option UTexture2D))
    (pos : Nat) (hn : AllNonNull l) (hd : AllHaveData l) :
    mergedSlices U1 S l pos = mergedSlices U2 S l pos := by
  induction l generalizing pos with
  | nil => rfl
  | cons t rest ih =>
    have hn' : AllNonNull rest := fun t h => hn t (List.mem_cons_of_mem _ h)
    have hd' : AllHaveData rest := fun t h => hd t (List.mem_cons_of_mem _ h)
    cases t with
    | none => exact absurd rfl (hn none (List.mem_cons_self _ _))
    | some tex =>
      cases hm : tex.Source.MipData0 with
      | none => exact absurd hm (hd (some tex) (List.mem_cons_self _ _) tex rfl)
      | some d => simp only [mergedSlices, sliceOf, hm, ih (pos + S) hn' hd']

/-- What a call that merges a matching list returns and installs. -/
theorem Update_of_allMatch (E : Engine) (Uninit : Nat → Byte) (NewGuid : FGuid)
    (self : UTexture2DArray) (ref : FTextureSource)
    (hne : self.Source2DTextures ≠ []) (hn : AllNonNull self.Source2DTextures)
    (hm : AllMatch ref self.Source2DTextures)
    (hfit : MergeFits E ref.SizeX ref.SizeY ref.Format self.Source2DTextures) :
    ∃ after, self.UpdateSourceFromSourceTextures E Uninit NewGuid = .ok (true, after) ∧
      after.Source = mergedSource E Uninit ref.SizeX ref.SizeY ref.Format
        self.Source2DTextures := by
  obtain ⟨hv, hx, hy, hf⟩ := check_of_allMatch ref _ hne hn hm
  have hfit' := hfit
  rw [← hx, ← hy, ← hf] at hfit'
  refine ⟨_, Update_of_valid E Uninit NewGuid self hne hv hfit', ?_⟩
  rw [merged_Source, hx, hy, hf]

/-- C2 (counterexample): two matching non-null textures, the second of which yields
no mip-0 data. The call succeeds, and slice 1 of the merged buffer holds what the
allocation held, which is not the (empty) mip-0 data of texture 1. -/
theorem C2_counterexample_slice_without_data :
    AllNonNull [demoTexture 2 1 1 (.TSF 2) (some [7, 8]), demoTexture 2 1 1 (.TSF 2) none] ∧
    MutuallyMatch [demoTexture 2 1 1 (.TSF 2) (some [7, 8]), demoTexture 2 1 1 (.TSF 2) none] ∧
    ∃ after buf,
      (demoAsset [demoTexture 2 1 1 (.TSF 2) (some [7, 8]),
        demoTexture 2 1 1 (.TSF 2) none]).UpdateSourceFromSourceTextures
          demoEngine (fun _ => 99) 7 = .ok (true, after) ∧
      after.Source.MipData0 = some buf ∧ sliceAt buf 2 1 = [99, 99] ∧
      sliceAt buf 2 1 ≠
        Ref2DData { Source := { SizeX := 2, SizeY := 1, NumSlices := 1, NumMips := 1,
                                Format := .TSF 2, MipData0 := none } } :=
  ⟨by decide, by decide, _, _, rfl, rfl, by decide, by decide⟩

/-- C2 (amended): for a non-empty list of non-null matching textures whose merge
runs without a fault, the call succeeds and slice `i` of the merged buffer (bytes
`[i*S, (i+1)*S)`, `S = width * height * BlockBytes`) is byte-for-byte the mip-0
data of texture `i`, for every `i` whose texture yields exactly `S` bytes. -/
theorem C2_slice_is_mip_data (E : Engine) (Uninit : Nat → Byte) (NewGuid : FGuid)
    (self : UTexture2DArray) (ref : FTextureSource)
    (hne : self.Source2DTextures ≠ []) (hn : AllNonNull self.Source2DTextures)
    (hm : AllMatch ref self.Source2DTextures)
    (hfit : MergeFits E ref.SizeX ref.SizeY ref.Format self.Source2DTextures) :
    ∃ after buf, self.UpdateSourceFromSourceTextures E Uninit NewGuid = .ok (true, after) ∧
      after.Source.MipData0 = some buf ∧
      ∀ i tex d, self.Source2DTextures[i]? = some (some tex) → tex.Source.MipData0 = some d →
        d.length = (OneTextureSize E ref.SizeX ref.SizeY ref.Format).toNat →
        sliceAt buf (OneTextureSize E ref.SizeX ref.SizeY ref.Format).toNat i = d := by
  obtain ⟨after, hok, hsrc⟩ := Update_of_allMatch E Uninit NewGuid self ref hne hn hm hfit
  refine ⟨after, _, hok, by rw [hsrc]; rfl, ?_⟩
  intro i tex d hi hd hlen
  rw [mergedSlices_sliceAt Uninit _ _ 0 i hfit.2.2.2.2 (some tex) hi]
  simp [sliceOf, hd, hlen]

theorem C2_slice_is_mip_data_witness :
    ∃ after buf,
      (demoAsset [demoTexture 2 1 1 (.TSF 2) (some [7, 8]),
        demoTexture 2 1 1 (.TSF 2) (some [5, 6])]).UpdateSourceFromSourceTextures
          demoEngine (fun _ => 99) 7 = .ok (true, after) ∧
      after.Source.MipData0 = some buf ∧
      ∀ i tex d, (demoAsset [demoTexture 2 1 1 (.TSF 2) (some [7, 8]),
          demoTexture 2 1 1 (.TSF 2) (some [5, 6])]).Source2DTextures[i]? = some (some tex) →
        tex.Source.MipData0 = some d →
        d.length = (OneTextureSize demoEngine 2 1 (.TSF 2)).toNat →
        sliceAt buf (OneTextureSize demoEngine 2 1 (.TSF 2)).toNat i = d :=
  C2_slice_is_mip_data demoEngine (fun _ => 99) 7
    (demoAsset [demoTexture 2 1 1 (.TSF 2) (some [7, 8]), demoTexture 2 1 1 (.TSF 2) (some [5, 6])])
    { SizeX := 2, SizeY := 1, NumSlices := 1, NumMips := 1, Format := .TSF 2, MipData0 := none }
    (by decide) (by decide) (by decide) (by decide)

/-- C7 (counterexample): a single texture that yields no mip-0 data. The call
returns true and installs a one-slice merged source whose only byte is what the
allocation held; the empty/invalid state is not produced. -/
theorem C7_counterexample_no_validation_failure :
    (demoAsset [demoTexture 1 1 1 (.TSF 2) none]).UpdateSourceFromSourceTextures
        demoEngine (fun _ => 99) 7 =
      .ok (true, { demoAsset [demoTexture 1 1 1 (.TSF 2) none] with
        Source := FTextureSource.Init 1 1 1 1 (.TSF 2) (some [99]), LightingGuid := 7 }) ∧
    FTextureSource.Init 1 1 1 1 (.TSF 2) (some [99]) ≠ invalidSource :=
  ⟨rfl, by decide⟩

/-- C7 (amended): for a non-empty list of non-null matching textures whose merge runs
without a fault, a texture that yields no mip-0 data does not fail the call: it
returns true and installs a merged source of `N` slices, in which the slice of
that texture is left as the allocation held it (not copied, not zero-filled). -/
theorem C7_missing_data_leaves_slice_unfilled (E : Engine) (Uninit : Nat → Byte)
    (NewGuid : FGuid) (self : UTexture2DArray) (ref : FTextureSource)
    (hne : self.Source2DTextures ≠ []) (hn : AllNonNull self.Source2DTextures)
    (hm : AllMatch ref self.Source2DTextures)
    (hfit : MergeFits E ref.SizeX ref.SizeY ref.Format self.Source2DTextures)
    (i : Nat) (tex : UTexture2D) (hi : self.Source2DTextures[i]? = some (some tex))
    (hd : tex.Source.MipData0 = none) :
    ∃ after buf, self.UpdateSourceFromSourceTextures E Uninit NewGuid = .ok (true, after) ∧
      after.Source.GetNumSlices = self.Source2DTextures.length ∧
      after.Source.MipData0 = some buf ∧
      sliceAt buf (OneTextureSize E ref.SizeX ref.SizeY ref.Format).toNat i =
        garbage Uninit (i * (OneTextureSize E ref.SizeX ref.SizeY ref.Format).toNat)
          (OneTextureSize E ref.SizeX ref.SizeY ref.Format).toNat := by
  obtain ⟨after, hok, hsrc⟩ := Update_of_allMatch E Uninit NewGuid self ref hne hn hm hfit
  refine ⟨after, _, hok, by rw [hsrc]; rfl, by rw [hsrc]; rfl, ?_⟩
  rw [mergedSlices_sliceAt Uninit _ _ 0 i hfit.2.2.2.2 (some tex) hi]
  simp [sliceOf, hd]

theorem C7_missing_data_leaves_slice_unfilled_witness :
    ∃ after buf,
      (demoAsset [demoTexture 2 1 1 (.TSF 2) (some [7, 8]),
        demoTexture 2 1 1 (.TSF 2) none]).UpdateSourceFromSourceTextures
          demoEngine (fun n => 40 + n) 7 = .ok (true, after) ∧
      after.Source.GetNumSlices = 2 ∧ after.Source.MipData0 = some buf ∧
      sliceAt buf 2 1 = [42, 43] :=
  C7_missing_data_leaves_slice_unfilled demoEngine (fun n => 40 + n) 7
    (demoAsset [demoTexture 2 1 1 (.TSF 2) (some [7, 8]), demoTexture 2 1 1 (.TSF 2) none])
    { SizeX := 2, SizeY := 1, NumSlices := 1, NumMips := 1, Format := .TSF 2, MipData0 := none }
    (by decide) (by decide) (by decide) (by decide) 1
    { Source := { SizeX := 2, SizeY := 1, NumSlices := 1, NumMips := 1, Format := .TSF 2,
                  MipData0 := none } } rfl rfl

/-- C9 (counterexample): a texture that yields no mip-0 data leaves its slice as the
allocation held it, so two calls in a row that are handed different memory
install different merged data. -/
theorem C9_counterexample_unfilled_slice_differs :
    ∃ first second,
      (demoAsset [demoTexture 1 1 1 (.TSF 2) none]).UpdateSourceFromSourceTextures
        demoEngine (fun _ => 0) 7 = .ok (true, first) ∧
      first.Source2DTextures = [demoTexture 1 1 1 (.TSF 2) none] ∧
      first.UpdateSourceFromSourceTextures demoEngine (fun _ => 1) 7 = .ok (true, second) ∧
      first.Source.MipData0 = some [0] ∧ second.Source.MipData0 = some [1] ∧
      second.Source ≠ first.Source :=
  ⟨_, _, rfl, rfl, rfl, rfl, rfl, by decide⟩

/-- C9 (amended): a second call right after a completed first call, with the source
list unchanged, completes with the same return value and installs a merged source
of the same width, height, slice count, mip count and format; the merged source
is bit-identical, data included, when the first call returned false or every
texture yields mip-0 data. -/
theorem C9_second_call_repeats_first (E : Engine) (Uninit1 Uninit2 : Nat → Byte)
    (Guid1 Guid2 : FGuid) (self first : UTexture2DArray) (ret : Bool)
    (h1 : self.UpdateSourceFromSourceTextures E Uninit1 Guid1 = .ok (ret, first)) :
    ∃ second, first.UpdateSourceFromSourceTextures E Uninit2 Guid2 = .ok (ret, second) ∧
      second.Source.GetSizeX = first.Source.GetSizeX ∧
      second.Source.GetSizeY = first.Source.GetSizeY ∧
      second.Source.GetNumSlices = first.Source.GetNumSlices ∧
      second.Source.GetNumMips = first.Source.GetNumMips ∧
      second.Source.GetFormat = first.Source.GetFormat ∧
      (ret = false ∨ AllHaveData self.Source2DTextures → second.Source = first.Source) := by
  by_cases hv : self.Source2DTextures ≠ [] ∧
      (checkSourceTextures self.Source2DTextures SourceCheck.start).bSourceTexturesAreValid = true
  · obtain ⟨hne, hv⟩ := hv
    by_cases hfit : MergeFits E (checkSourceTextures self.Source2DTextures SourceCheck.start).SizeX
        (checkSourceTextures self.Source2DTextures SourceCheck.start).SizeY
        (checkSourceTextures self.Source2DTextures SourceCheck.start).TextureFormat
        self.Source2DTextures
    · rw [Update_of_valid E Uninit1 Guid1 self hne hv hfit] at h1
      injection h1 with h1
      injection h1 with hr ha
      subst hr; subst ha
      have hl := merged_Source2DTextures E Uninit1 Guid1 self
        (checkSourceTextures self.Source2DTextures SourceCheck.start)
      have h2 := Update_of_valid E Uninit2 Guid2 (self.merged E Uninit1 Guid1
        (checkSourceTextures self.Source2DTextures SourceCheck.start))
        (by rw [hl]; exact hne) (by rw [hl]; exact hv) (by rw [hl]; exact hfit)
      refine ⟨_, h2, ?_⟩
      simp only [merged_Source, hl]
      refine ⟨rfl, rfl, rfl, rfl, rfl, ?_⟩
      intro h
      rcases h with h | h
      · cases h
      · unfold mergedSource
        rw [mergedSlices_indep Uninit2 Uninit1 _ _ 0 (checkSourceTextures_nonnull _ _ hv) h]
    · obtain ⟨f, hf'⟩ := Update_of_unfit E Uninit1 Guid1 self hne hv hfit
      rw [hf'] at h1; cases h1
  · have hinv : ∀ (U : Nat → Byte) (G : FGuid) (a : UTexture2DArray),
        a.Source2DTextures = self.Source2DTextures →
        a.UpdateSourceFromSourceTextures E U G = .ok (false, a.invalidated E) := by
      intro U G a ha
      by_cases hne : self.Source2DTextures = []
      · exact Update_of_empty E U G a (ha.trans hne)
      · apply Update_of_invalid E U G a
        rw [ha]
        cases hb : (checkSourceTextures self.Source2DTextures
            SourceCheck.start).bSourceTexturesAreValid
        · rfl
        · exact absurd ⟨hne, hb⟩ hv
    rw [hinv Uninit1 Guid1 self rfl] at h1
    injection h1 with h1
    injection h1 with hr ha
    subst hr; subst ha
    refine ⟨_, hinv Uninit2 Guid2 _ (invalidated_Source2DTextures E self), ?_⟩
    rw [invalidated_Source, invalidated_Source]
    exact ⟨rfl, rfl, rfl, rfl, rfl, fun _ => rfl⟩

theorem C9_second_call_repeats_first_witness :
    ∃ second,
      ({ demoAsset [demoTexture 2 1 1 (.TSF 2) (some [7, 8]),
            demoTexture 2 1 1 (.TSF 2) (some [5, 6])] with
          Source := FTextureSource.Init 2 1 2 1 (.TSF 2) (some [7, 8, 5, 6]),
          LightingGuid := 7 } : UTexture2DArray).UpdateSourceFromSourceTextures
        demoEngine (fun _ => 1) 9 = .ok (true, second) ∧
      second.Source.GetSizeX = 2 ∧ second.Source.GetSizeY = 1 ∧
      second.Source.GetNumSlices = 2 ∧ second.Source.GetNumMips = 1 ∧
      second.Source.GetFormat = .TSF 2 ∧
      (true = false ∨ AllHaveData [demoTexture 2 1 1 (.TSF 2) (some [7, 8]),
          demoTexture 2 1 1 (.TSF 2) (some [5, 6])] →
        second.Source = FTextureSource.Init 2 1 2 1 (.TSF 2) (some [7, 8, 5, 6])) :=
  C9_second_call_repeats_first demoEngine (fun _ => 0) (fun _ => 1) 7 9
    (demoAsset [demoTexture 2 1 1 (.TSF 2) (some [7, 8]), demoTexture 2 1 1 (.TSF 2) (some [5, 6])])
    _ true rfl

/-! ### `MergeMips` -/

theorem overwrite_length (buf : List Byte) (pos : Nat) (w : List Byte)
    (h : pos + w.length ≤ buf.length) : (overwrite buf pos w).length = buf.length := by
  simp only [overwrite, List.length_append, List.length_take, List.length_drop]
  omega

theorem overwrite_nil (buf : List Byte) (pos : Nat) : overwrite buf pos [] = buf := by
  simp [overwrite]

theorem overwrite_overwrite (buf : List Byte) (pos : Nat) (w1 w2 : List Byte)
    (h : pos + w1.length + w2.length ≤ buf.length) :
    overwrite (overwrite buf pos w1) (pos + w1.length) w2 = overwrite buf pos (w1 ++ w2) := by
  have h1 : (buf.take pos).length = pos := by simp; omega
  have h2 : (buf.take pos ++ w1).length = pos + w1.length := by simp [h1]
  unfold overwrite
  have e1 : List.take (pos + w1.length) (buf.take pos ++ w1 ++ buf.drop (pos + w1.length))
      = buf.take pos ++ w1 := by
    rw [← h2, List.take_left']
    rfl
  have e2 : List.drop (pos + w1.length + w2.length)
      (buf.take pos ++ w1 ++ buf.drop (pos + w1.length))
      = buf.drop (pos + (w1 ++ w2).length) := by
    have : pos + w1.length + w2.length = (buf.take pos ++ w1).length + w2.length := by rw [h2]
    rw [this, List.drop_append, List.drop_drop, List.length_append]
    congr 1; omega
  rw [e1, e2]
  simp

theorem overwrite_all (buf w : List Byte) (h : w.length = buf.length) :
    overwrite buf 0 w = w := by
  simp [overwrite, h]

theorem sliceAt_length (d : List Byte) (sl s N : Nat) (hs : s < N) (hd : d.length = N * sl) :
    (sliceAt d sl s).length = sl := by
  unfold sliceAt
  simp only [List.length_take, List.length_drop, hd]
  have : (s + 1) * sl ≤ N * sl := Nat.mul_le_mul_right _ hs
  have e : (s + 1) * sl = s * sl + sl := by ring
  omega

theorem sliceAt_succ (d : List Byte) (sl s : Nat) :
    sliceAt d sl (s + 1) = sliceAt (d.drop sl) sl s := by
  unfold sliceAt
  rw [List.drop_drop]
  congr 2
  ring

/-- Cutting a buffer of `N * sl` bytes in `N` slices of `sl` bytes and joining the
slices in order gives the buffer back. -/
theorem flatMap_sliceAt (N sl : Nat) (d : List Byte) (hd : d.length = N * sl) :
    (List.range N).flatMap (fun s => sliceAt d sl s) = d := by
  induction N generalizing d with
  | zero =>
    simp at hd
    simp [hd]
  | succ n ih =>
    rw [List.range_succ_eq_map, List.flatMap_cons, List.flatMap_map]
    have hd' : (d.drop sl).length = n * sl := by
      simp only [List.length_drop, hd]
      have : (n + 1) * sl = n * sl + sl := by ring
      omega
    have := ih (d.drop sl) hd'
    simp only [Function.comp_def, sliceAt_succ]
    rw [this]
    simp [sliceAt]

theorem flatMap_swap_perm {α β γ : Type} (l1 : List α) (l2 : List β) (f : α → β → List γ) :
    (l1.flatMap fun a => l2.flatMap fun b => f a b).Perm
      (l2.flatMap fun b => l1.flatMap fun a => f a b) := by
  induction l1 with
  | nil => simp
  | cons a l1 ih =>
    simp only [List.flatMap_cons]
    exact (List.Perm.append_left _ ih).trans (List.flatMap_append_perm l2 _ _)

/-- The slice-major layout is a permutation of the mip-major input. -/
theorem sliceMajor_perm (N : Nat) (chain : List (List Byte)) (hdiv : ∀ d ∈ chain, N ∣ d.length) :
    (sliceMajor N chain).Perm chain.flatten := by
  unfold sliceMajor
  refine (flatMap_swap_perm _ _ _).trans ?_
  have : (chain.flatMap fun d => (List.range N).flatMap fun s => sliceAt d (d.length / N) s)
      = chain.flatMap fun d => d := by
    apply List.flatMap_congr
    intro d hd
    exact flatMap_sliceAt N _ d (Nat.mul_div_cancel' (hdiv d hd)).symm
  rw [this]
  have e : (chain.flatMap fun d => d) = chain.flatten := by
    show (chain.map fun d => d).flatten = chain.flatten
    rw [List.map_id']
  rw [e]

theorem toInt32_of_small (x : Nat) (h : x < 2147483648) : toInt32 (x : Int) = (x : Int) := by
  unfold toInt32; omega

theorem toUInt32_of_small (x : Nat) (h : x < 4294967296) : toUInt32 (x : Int) = x := by
  unfold toUInt32; omega

theorem readAt_ofNat {α : Type} (xs : List α) (i : Nat) (x : α) (h : xs[i]? = some x) :
    readAt xs (i : Int) = .ok x := by
  unfold readAt
  have : ¬ ((i : Int) < 0) := by omega
  simp [this, h]

theorem loopRange_ofNat (F K : Nat) :
    loopRange (F : Int) ((F : Int) + (K : Int)) =
      (List.range K).map fun (k : Nat) => (F : Int) + (k : Int) := by
  unfold loopRange
  have : ((F : Int) + (K : Int) - (F : Int)).toNat = K := by omega
  rw [this]

theorem chainAt_of_take_drop (B : FTexture2DArray2BulkData) (F : Nat) (chain : List (List Byte))
    (hD : (B.MipData.drop F).take chain.length = chain.map some)
    (hZ : (B.MipSize.drop F).take chain.length = chain.map List.length) :
    ChainAt B ((List.range chain.length).map fun (k : Nat) => (F : Int) + (k : Int)) chain := by
  induction chain generalizing F with
  | nil => exact List.Forall₂.nil
  | cons d rest ih =>
    have hD0 : B.MipData[F]? = some (some d) := by
      have := congrArg (fun l => l[0]?) hD
      simpa [List.getElem?_take, List.getElem?_drop] using this
    have hZ0 : B.MipSize[F]? = some d.length := by
      have := congrArg (fun l => l[0]?) hZ
      simpa [List.getElem?_take, List.getElem?_drop] using this
    have hD1 : (B.MipData.drop (F + 1)).take rest.length = rest.map some := by
      rw [← List.tail_drop]
      cases h : B.MipData.drop F with
      | nil => rw [h] at hD; simp at hD
      | cons x tl => rw [h] at hD; simp at hD; simpa using hD.2
    have hZ1 : (B.MipSize.drop (F + 1)).take rest.length = rest.map List.length := by
      rw [← List.tail_drop]
      cases h : B.MipSize.drop F with
      | nil => rw [h] at hZ; simp at hZ
      | cons x tl => rw [h] at hZ; simp at hZ; simpa using hZ.2
    have := ih (F + 1) hD1 hZ1
    unfold ChainAt at this ⊢
    rw [List.length_cons, List.range_succ_eq_map, List.map_cons, List.map_map]
    refine List.Forall₂.cons ⟨?_, ?_⟩ ?_
    · simpa using readAt_ofNat _ F _ hZ0
    · simpa using readAt_ofNat _ F _ hD0
    · have e : ((fun k : Nat => (F : Int) + (k : Int)) ∘ Nat.succ)
          = fun k : Nat => ((F + 1 : Nat) : Int) + (k : Int) := by
        funext k; simp only [Function.comp]; push_cast; omega
      rw [e]; exact this

theorem sumMipSizes_ok (B : FTexture2DArray2BulkData) (idxs : List Int)
    (chain : List (List Byte)) (hc : ChainAt B idxs chain) (acc : Nat)
    (h : acc + (chain.map List.length).sum < 18446744073709551616) :
    sumMipSizes B.MipSize idxs acc = .ok (acc + (chain.map List.length).sum) := by
  unfold ChainAt at hc
  induction hc generalizing acc with
  | nil => simp [sumMipSizes]
  | @cons m d idxs' chain' hd _ ih =>
    simp only [List.map_cons, List.sum_cons] at h ⊢
    simp only [sumMipSizes, hd.1]
    have e : (acc + d.length) % 18446744073709551616 = acc + d.length := by omega
    rw [e, ih (acc + d.length) (by omega), Nat.add_assoc]

/-- The bytes one slice takes in the merged buffer: the sum of the per-mip slice sizes. -/
theorem sliceRow_length (N s : Nat) (chain : List (List Byte)) (hs : s < N)
    (hdiv : ∀ d ∈ chain, N ∣ d.length) :
    (chain.flatMap fun d => sliceAt d (d.length / N) s).length
      = (chain.map fun d => d.length / N).sum := by
  induction chain with
  | nil => simp
  | cons d rest ih =>
    have h1 := ih (fun x hx => hdiv x (List.mem_cons_of_mem _ hx))
    have h2 : d.length = N * (d.length / N) :=
      (Nat.mul_div_cancel' (hdiv d (List.mem_cons_self _ _))).symm
    have h3 := sliceAt_length d (d.length / N) s N hs h2
    simp only [List.flatMap_cons, List.length_append, List.map_cons, List.sum_cons, h1, h3]

theorem Memcpy_overwrite (buf d : List Byte) (pos sl s N : Nat) (hs : s < N)
    (hd : d.length = N * sl) (hfit : pos + sl ≤ buf.length) :
    Memcpy buf (pos : Int) d ((s : Int) * (sl : Int)) (sl : Int)
      = .ok (overwrite buf pos (sliceAt d sl s)) := by
  have hle : (s + 1) * sl ≤ N * sl := Nat.mul_le_mul_right _ hs
  have e : (s + 1) * sl = s * sl + sl := by ring
  have hcast : (s : Int) * (sl : Int) = ((s * sl : Nat) : Int) := by push_cast; rfl
  unfold Memcpy
  rw [hcast]
  have c1 : ¬ ((sl : Int) < 0 ∨ ((s * sl : Nat) : Int) < 0 ∨
      (d.length : Int) < ((s * sl : Nat) : Int) + (sl : Int)) := by omega
  have c2 : ¬ ((pos : Int) < 0 ∨ (buf.length : Int) < (pos : Int) + (sl : Int)) := by omega
  rw [if_neg c1, if_neg c2]
  simp only [Int.toNat_ofNat, overwrite, sliceAt]
  have hl : (List.take sl (List.drop (s * sl) d)).length = sl := sliceAt_length d sl s N hs hd
  rw [hl]

theorem mergeMipsOfSlice_ok (B : FTexture2DArray2BulkData) (N s : Nat) (idxs : List Int)
    (chain : List (List Byte)) (hc : ChainAt B idxs chain) (hN : B.NumSlices = (N : Int))
    (hN32 : N < 4294967296) (hs : s < N) (hdiv : ∀ d ∈ chain, N ∣ d.length)
    (hsmall : ∀ d ∈ chain, d.length < 2147483648) (buf : List Byte) (pos : Nat)
    (hfit : pos + (chain.map fun d => d.length / N).sum ≤ buf.length) :
    mergeMipsOfSlice B (s : Int) idxs buf (pos : Int) =
      .ok (overwrite buf pos (chain.flatMap fun d => sliceAt d (d.length / N) s),
        ((pos + (chain.map fun d => d.length / N).sum : Nat) : Int)) := by
  unfold ChainAt at hc
  induction hc generalizing buf pos with
  | nil => simp [mergeMipsOfSlice, overwrite_nil]
  | @cons m d idxs' chain' hd _ ih =>
    have hdv : N ∣ d.length := hdiv d (List.mem_cons_self _ _)
    have hdl : d.length = N * (d.length / N) := (Nat.mul_div_cancel' hdv).symm
    have hsm : d.length < 2147483648 := hsmall d (List.mem_cons_self _ _)
    have hq : d.length / N < 2147483648 := lt_of_le_of_lt (Nat.div_le_self _ _) hsm
    have hu : toUInt32 B.NumSlices = N := by rw [hN]; exact toUInt32_of_small N hN32
    have hN0 : N ≠ 0 := by omega
    have hmul : mulInt32 (s : Int) ((d.length / N : Nat) : Int)
        = .ok ((s : Int) * ((d.length / N : Nat) : Int)) := by
      apply mulInt32_ok
      have h1 : s * (d.length / N) ≤ N * (d.length / N) := Nat.mul_le_mul_right _ (le_of_lt hs)
      have h2 : ((s : Int) * ((d.length / N : Nat) : Int)) = ((s * (d.length / N) : Nat) : Int) := by
        push_cast; rfl
      rw [h2]
      unfold FitsInt32 INT32_MIN INT32_MAX
      omega
    simp only [List.map_cons, List.sum_cons] at hfit
    have hfit1 : pos + d.length / N ≤ buf.length := by omega
    have hstep : mergeMipSlice B (s : Int) m buf (pos : Int)
        = .ok (overwrite buf pos (sliceAt d (d.length / N) s),
            (pos : Int) + ((d.length / N : Nat) : Int)) := by
      unfold mergeMipSlice
      rw [hd.1]
      dsimp only
      rw [hu, if_neg hN0, toInt32_of_small _ hq, hmul]
      dsimp only
      rw [hd.2]
      dsimp only
      rw [Memcpy_overwrite buf d pos (d.length / N) s N hs hdl hfit1]
    have hl1 : (sliceAt d (d.length / N) s).length = d.length / N :=
      sliceAt_length d _ s N hs hdl
    have e : ((pos : Int) + ((d.length / N : Nat) : Int)) = ((pos + d.length / N : Nat) : Int) := by
      push_cast; rfl
    simp only [mergeMipsOfSlice, hstep]
    rw [e, ih (fun x hx => hdiv x (List.mem_cons_of_mem _ hx))
      (fun x hx => hsmall x (List.mem_cons_of_mem _ hx)) _ (pos + d.length / N)
      (by rw [overwrite_length _ _ _ (by rw [hl1]; exact hfit1)]; omega)]
    have hrow := sliceRow_length N s chain' hs (fun x hx => hdiv x (List.mem_cons_of_mem _ hx))
    have hoo := overwrite_overwrite buf pos (sliceAt d (d.length / N) s)
      (chain'.flatMap fun d => sliceAt d (d.length / N) s) (by rw [hl1, hrow]; omega)
    rw [hl1] at hoo
    simp only [List.flatMap_cons, List.map_cons, List.sum_cons, hoo, Nat.add_assoc]

theorem mergeSlices_ok (B : FTexture2DArray2BulkData) (N : Nat) (idxs : List Int)
    (chain : List (List Byte)) (hc : ChainAt B idxs chain) (hN : B.NumSlices = (N : Int))
    (hN32 : N < 4294967296) (hdiv : ∀ d ∈ chain, N ∣ d.length)
    (hsmall : ∀ d ∈ chain, d.length < 2147483648) (ss : List Nat) (hss : ∀ s ∈ ss, s < N)
    (buf : List Byte) (pos : Nat)
    (hfit : pos + ss.length * (chain.map fun d => d.length / N).sum ≤ buf.length) :
    mergeSlices B idxs (ss.map fun (k : Nat) => (0 : Int) + (k : Int)) buf (pos : Int) =
      .ok (overwrite buf pos
          (ss.flatMap fun s => chain.flatMap fun d => sliceAt d (d.length / N) s),
        ((pos + ss.length * (chain.map fun d => d.length / N).sum : Nat) : Int)) := by
  induction ss generalizing buf pos with
  | nil => simp [mergeSlices, overwrite_nil]
  | cons s rest ih =>
    have hs : s < N := hss s (List.mem_cons_self _ _)
    have hrow := sliceRow_length N s chain hs hdiv
    simp only [List.length_cons, Nat.add_mul, Nat.one_mul] at hfit
    have hfit1 : pos + (chain.map fun d => d.length / N).sum ≤ buf.length := by omega
    simp only [List.map_cons, mergeSlices, Int.zero_add,
      mergeMipsOfSlice_ok B N s idxs chain hc hN hN32 hs hdiv hsmall buf pos hfit1]
    have := ih (fun x hx => hss x (List.mem_cons_of_mem _ hx))
      (overwrite buf pos (chain.flatMap fun d => sliceAt d (d.length / N) s))
      (pos + (chain.map fun d => d.length / N).sum)
      (by rw [overwrite_length _ _ _ (by rw [hrow]; exact hfit1)]; omega)
    simp only [Int.zero_add] at this
    rw [this]
    have hrest : ∀ t ∈ rest, (chain.flatMap fun d => sliceAt d (d.length / N) t).length
        = (chain.map fun d => d.length / N).sum :=
      fun t ht => sliceRow_length N t chain (hss t (List.mem_cons_of_mem _ ht)) hdiv
    have hlen : (rest.flatMap fun s => chain.flatMap fun d => sliceAt d (d.length / N) s).length
        = rest.length * (chain.map fun d => d.length / N).sum := by
      clear ih this hss hfit
      induction rest with
      | nil => simp
      | cons t r ihr =>
        simp only [List.flatMap_cons, List.length_append, List.length_cons, Nat.add_mul,
          Nat.one_mul]
        rw [hrest t (List.mem_cons_self _ _), ihr (fun x hx => hrest x (List.mem_cons_of_mem _ hx))]
        omega
    have hoo := overwrite_overwrite buf pos (chain.flatMap fun d => sliceAt d (d.length / N) s)
      (rest.flatMap fun s => chain.flatMap fun d => sliceAt d (d.length / N) s)
      (by rw [hrow, hlen]; omega)
    rw [hrow] at hoo
    simp only [List.flatMap_cons, hoo, List.length_cons, Nat.add_mul, Nat.one_mul]
    congr 2
    omega

theorem sum_slice_sizes (N : Nat) (chain : List (List Byte)) (hdiv : ∀ d ∈ chain, N ∣ d.length) :
    N * (chain.map fun d => d.length / N).sum = (chain.map List.length).sum := by
  induction chain with
  | nil => simp
  | cons d rest ih =>
    simp only [List.map_cons, List.sum_cons, Nat.mul_add]
    rw [ih (fun x hx => hdiv x (List.mem_cons_of_mem _ hx)),
      Nat.mul_div_cancel' (hdiv d (List.mem_cons_self _ _))]

theorem length_le_sum (chain : List (List Byte)) (d : List Byte) (hd : d ∈ chain) :
    d.length ≤ (chain.map List.length).sum := by
  induction chain with
  | nil => cases hd
  | cons x rest ih =>
    simp only [List.map_cons, List.sum_cons]
    rcases List.mem_cons.1 hd with rfl | h
    · omega
    · have := ih h; omega

theorem sliceMajor_length (N : Nat) (chain : List (List Byte))
    (hdiv : ∀ d ∈ chain, N ∣ d.length) :
    (sliceMajor N chain).length = (chain.map List.length).sum := by
  rw [(sliceMajor_perm N chain hdiv).length_eq, List.length_flatten]

/-- When every mip after the first is empty, the slice-major layout is the first mip. -/
theorem sliceMajor_single (N : Nat) (d0 : List Byte) (rest : List (List Byte))
    (h0 : N ∣ d0.length) (hrest : ∀ d ∈ rest, d = []) : sliceMajor N (d0 :: rest) = d0 := by
  unfold sliceMajor
  have hr : ∀ s, (rest.flatMap fun d => sliceAt d (d.length / N) s) = [] := by
    intro s
    induction rest with
    | nil => rfl
    | cons x r ih =>
      rw [List.flatMap_cons, ih (fun d hd => hrest d (List.mem_cons_of_mem _ hd)),
        hrest x (List.mem_cons_self _ _)]
      simp [sliceAt]
  simp only [List.flatMap_cons, hr, List.append_nil]
  exact flatMap_sliceAt N _ d0 (Nat.mul_div_cancel' h0).symm

theorem sum_zero_of_le_head (d0 : List Byte) (rest : List (List Byte))
    (h : ((d0 :: rest).map List.length).sum ≤ d0.length) : ∀ d ∈ rest, d = [] := by
  intro d hd
  have := length_le_sum rest d hd
  simp only [List.map_cons, List.sum_cons] at h
  exact List.length_eq_zero.1 (by omega)

/-- C3: a mip-major chain of `K >= 1` resident mips (`FirstMip .. NumMips-1`), each
holding `N` slice regions of equal size (the bulk data holds buffer `chain[k]`
with its exact size at mip `FirstMip + k`, `N` divides each size, the sizes add up
to less than `2^31` and `NumMips` passes the `check`), is merged without a fault
into the buffer `sliceMajor N chain`: for slice 0 the slice-0 region of every mip
from `FirstMip` to `NumMips-1` in order, then the same for slice 1, and so on.
That buffer is what `GetResourceBulkData` returns, its size is the sum of the mip
sizes, and it is a permutation of the input bytes. -/
theorem C3_MergeMips_slice_major (E : Engine) (Uninit : Nat → Byte)
    (B : FTexture2DArray2BulkData) (NumMips : Int) (N : Nat) (chain : List (List Byte))
    (hcheck : NumMips < (E.MAX_TEXTURE_MIP_COUNT : Int)) (hF : 0 ≤ B.FirstMip)
    (hK : chain ≠ []) (hNm : NumMips = B.FirstMip + (chain.length : Int))
    (hS : B.NumSlices = (N : Int))
    (hD : (B.MipData.drop B.FirstMip.toNat).take chain.length = chain.map some)
    (hZ : (B.MipSize.drop B.FirstMip.toNat).take chain.length = chain.map List.length)
    (hdiv : ∀ d ∈ chain, N ∣ d.length)
    (hsmall : (chain.map List.length).sum < 2147483648) :
    ∃ B', B.MergeMips E Uninit NumMips = .ok B' ∧
      B'.GetResourceBulkData = .ok (some (sliceMajor N chain)) ∧
      B'.GetResourceBulkDataSize = .ok (chain.map List.length).sum ∧
      (sliceMajor N chain).Perm chain.flatten := by
  obtain ⟨F, hFe⟩ := Int.eq_ofNat_of_zero_le hF
  have hFn : B.FirstMip.toNat = F := by rw [hFe]; rfl
  rw [hFn] at hD hZ
  have hca := chainAt_of_take_drop B F chain hD hZ
  have hrange : loopRange B.FirstMip NumMips
      = (List.range chain.length).map fun (k : Nat) => (F : Int) + (k : Int) := by
    rw [hNm, hFe]; exact loopRange_ofNat F chain.length
  have hsum := sumMipSizes_ok B _ chain hca 0 (by omega)
  simp only [Nat.zero_add] at hsum
  have hperm := sliceMajor_perm N chain hdiv
  cases hch : chain with
  | nil => exact absurd hch hK
  | cons d0 rest =>
  have hD0 : B.MipData[F]? = some (some d0) := by
    have := congrArg (fun l => l[0]?) hD
    rw [hch] at this
    simpa [List.getElem?_take, List.getElem?_drop] using this
  have hZ0 : B.MipSize[F]? = some d0.length := by
    have := congrArg (fun l => l[0]?) hZ
    rw [hch] at this
    simpa [List.getElem?_take, List.getElem?_drop] using this
  have hrd : readAt B.MipSize B.FirstMip = .ok d0.length := by
    rw [hFe]; exact readAt_ofNat _ F _ hZ0
  have hrdD : readAt B.MipData B.FirstMip = .ok (some d0) := by
    rw [hFe]; exact readAt_ofNat _ F _ hD0
  have hc1 : ¬ ¬ NumMips < (E.MAX_TEXTURE_MIP_COUNT : Int) := not_not.2 hcheck
  rw [← hch]
  by_cases hgt : (chain.map List.length).sum > d0.length
  · -- the copy branch
    have hNpos : 0 < N := by
      rcases Nat.eq_zero_or_pos N with h0 | h0
      · exfalso
        have hall : ∀ d ∈ chain, d.length = 0 := fun d hd => by
          have := hdiv d hd; rw [h0] at this; exact Nat.eq_zero_of_zero_dvd this
        have : (chain.map List.length).sum = 0 := by
          apply List.sum_eq_zero
          intro x hx
          obtain ⟨d, hd, rfl⟩ := List.mem_map.1 hx
          exact hall d hd
        omega
      · exact h0
    have hsm : ∀ d ∈ chain, d.length < 2147483648 := fun d hd =>
      lt_of_le_of_lt (length_le_sum chain d hd) hsmall
    have hN32 : N < 4294967296 := by
      by_contra hbig
      have hall : ∀ d ∈ chain, d.length = 0 := fun d hd => by
        rcases Nat.eq_zero_or_pos d.length with h | h
        · exact h
        · have := Nat.le_of_dvd h (hdiv d hd)
          have := hsm d hd
          omega
      have : (chain.map List.length).sum = 0 := by
        apply List.sum_eq_zero
        intro x hx
        obtain ⟨d, hd, rfl⟩ := List.mem_map.1 hx
        exact hall d hd
      omega
    have hslices : loopRange 0 B.NumSlices
        = (List.range N).map fun (k : Nat) => (0 : Int) + (k : Int) := by
      rw [hS]
      have := loopRange_ofNat 0 N
      simpa using this
    have hNL := sum_slice_sizes N chain hdiv
    have hms := mergeSlices_ok B N _ chain hca hS hN32 hdiv hsm (List.range N)
      (fun s hs => List.mem_range.1 hs) (garbage Uninit 0 (chain.map List.length).sum) 0
      (by simp only [List.length_range, garbage_length, hNL]; omega)
    have how : overwrite (garbage Uninit 0 (chain.map List.length).sum) 0
        ((List.range N).flatMap fun s => chain.flatMap fun d => sliceAt d (d.length / N) s)
        = sliceMajor N chain := by
      apply overwrite_all
      rw [garbage_length]
      exact sliceMajor_length N chain hdiv
    rw [how] at hms
    have hFlt : F < B.MipData.length := by
      have := (List.getElem?_eq_some_iff.1 hD0).1; exact this
    have hFlt' : F < B.MipSize.length := by
      have := (List.getElem?_eq_some_iff.1 hZ0).1; exact this
    have hw1 : writeAt (B.Discard).MipData (B.Discard).FirstMip (some (sliceMajor N chain))
        = .ok ((B.MipData.map fun _ => none).set F (some (sliceMajor N chain))) := by
      unfold writeAt FTexture2DArray2BulkData.Discard
      simp only [List.length_map, hFe]
      rw [if_neg (by omega)]
      rfl
    have hw2 : writeAt (B.Discard).MipSize (B.Discard).FirstMip
          ((chain.map List.length).sum % 4294967296)
        = .ok ((B.MipSize.map fun _ => 0).set F (chain.map List.length).sum) := by
      unfold writeAt FTexture2DArray2BulkData.Discard
      simp only [List.length_map, hFe]
      rw [if_neg (by omega)]
      have : (chain.map List.length).sum % 4294967296 = (chain.map List.length).sum := by omega
      rw [this]
      rfl
    refine ⟨{ B.Discard with
        MipData := (B.MipData.map fun _ => none).set F (some (sliceMajor N chain)),
        MipSize := (B.MipSize.map fun _ => 0).set F (chain.map List.length).sum }, ?_, ?_, ?_, hperm⟩
    · unfold FTexture2DArray2BulkData.MergeMips
      rw [if_neg hc1, hrange, hsum]
      simp only [hrd]
      rw [if_pos hgt, Malloc_ok, hslices]
      have e0 : ((0 : Nat) : Int) = 0 := rfl
      rw [e0] at hms
      simp only [hms, hw1, hw2]
    · unfold FTexture2DArray2BulkData.GetResourceBulkData FTexture2DArray2BulkData.Discard
      simp only [hFe]
      apply readAt_ofNat
      rw [List.getElem?_set_self (by simpa using hFlt)]
    · unfold FTexture2DArray2BulkData.GetResourceBulkDataSize FTexture2DArray2BulkData.Discard
      simp only [hFe]
      apply readAt_ofNat
      rw [List.getElem?_set_self (by simpa using hFlt')]
  · -- nothing to merge: the first mip is the whole chain
    have hle : (chain.map List.length).sum ≤ d0.length := by omega
    have hrest : ∀ d ∈ rest, d = [] := by
      apply sum_zero_of_le_head d0 rest
      rw [← hch]; exact hle
    have hd0 : N ∣ d0.length := hdiv d0 (by rw [hch]; exact List.mem_cons_self _ _)
    have hsingle : sliceMajor N chain = d0 := by
      rw [hch]; exact sliceMajor_single N d0 rest hd0 hrest
    have hge : d0.length ≤ (chain.map List.length).sum :=
      length_le_sum chain d0 (by rw [hch]; exact List.mem_cons_self _ _)
    refine ⟨B, ?_, ?_, ?_, hperm⟩
    · unfold FTexture2DArray2BulkData.MergeMips
      rw [if_neg hc1, hrange, hsum]
      simp only [hrd]
      rw [if_neg hgt]
    · rw [hsingle]; exact hrdD
    · have : (chain.map List.length).sum = d0.length := by omega
      rw [this]; exact hrd

theorem C3_MergeMips_slice_major_witness :
    ∃ B', demoBulkData.MergeMips demoEngine (fun _ => 0) 3 = .ok B' ∧
      B'.GetResourceBulkData = .ok (some [65, 65, 67, 99, 69, 66, 66, 68, 100, 101]) ∧
      B'.GetResourceBulkDataSize = .ok 10 ∧
      List.Perm [65, 65, 67, 99, 69, 66, 66, 68, 100, 101]
        [65, 65, 66, 66, 67, 99, 68, 100, 69, 101] :=
  C3_MergeMips_slice_major demoEngine (fun _ => 0) demoBulkData 3 2
    [[65, 65, 66, 66], [67, 99, 68, 100], [69, 101]]
    (by decide) (by decide) (by decide) (by decide) (by decide) (by decide) (by decide)
    (by decide) (by decide)

/-! ### The render resource -/

theorem shiftRightU32_inv {x : Nat} {n : Int} {y : Nat} (h : shiftRightU32 x n = .ok y) :
    0 ≤ n ∧ n < 32 ∧ y = x >>> n.toNat := by
  unfold shiftRightU32 at h
  split at h
  · cases h
  · rename_i hc
    injection h with h
    exact ⟨by omega, by omega, h.symm⟩

/-- What a completed `InitRHI` did: the merge and the two shifts succeeded, and the
resource and the counters are as the body of `InitRHI` builds them. -/
theorem InitRHI_inv (E : Engine) (Uninit : Nat → Byte) (r r1 : FTexture2DArray2Resource)
    (s s1 : FStats) (h : r.InitRHI E Uninit s = .ok (r1, s1)) :
    ∃ B1 X Y, r.InitialData.MergeMips E Uninit r.NumMips = .ok B1 ∧
      shiftRightU32 r.SizeX r.InitialData.FirstMip = .ok X ∧
      shiftRightU32 r.SizeY r.InitialData.FirstMip = .ok Y ∧
      r1.CurrentFirstMip = r.InitialData.FirstMip ∧ r1.NumMips = r.NumMips ∧
      r1.SizeX = r.SizeX ∧ r1.SizeY = r.SizeY ∧ r1.SizeZ = r.SizeZ ∧
      r1.TextureSize = r.TextureSize ∧ r1.LODGroupStatName = r.LODGroupStatName ∧
      r1.Texture2DArrayRHI = some
        { SizeX := max X 1, SizeY := max Y 1, SizeZ := r.SizeZ, Format := r.PixelFormat,
          NumMips := toUInt32 (r.NumMips - r.InitialData.FirstMip), Flags := r.CreationFlags,
          BulkData := B1 } ∧
      s1.STAT_TextureMemory = s.STAT_TextureMemory + r.TextureSize ∧
      ∀ g, s1.LODGroupStat g =
        if g = r.LODGroupStatName then s.LODGroupStat g + r.TextureSize else s.LODGroupStat g := by
  unfold FTexture2DArray2Resource.InitRHI at h
  simp only [FTexture2DArray2BulkData.GetFirstMip] at h
  cases hm : r.InitialData.MergeMips E Uninit r.NumMips with
  | error f => rw [hm] at h; cases h
  | ok B1 =>
    rw [hm] at h
    dsimp only at h
    cases hx : shiftRightU32 r.SizeX r.InitialData.FirstMip with
    | error f => rw [hx] at h; cases h
    | ok X =>
      rw [hx] at h
      dsimp only at h
      cases hy : shiftRightU32 r.SizeY r.InitialData.FirstMip with
      | error f => rw [hy] at h; cases h
      | ok Y =>
        rw [hy] at h
        dsimp only at h
        injection h with h
        injection h with h1 h2
        subst h1; subst h2
        exact ⟨B1, X, Y, rfl, rfl, rfl, rfl, rfl, rfl, rfl, rfl, rfl, rfl, rfl, rfl, fun _ => rfl⟩

/-- What the constructor guarantees when it completes: both `check`s held, and the
members are initialised from the asset and the bias. -/
theorem new_inv (E : Engine) (Filter : ESamplerFilter) (A : UTexture2DArray) (MipBias : Int)
    (r : FTexture2DArray2Resource) (h : FTexture2DArray2Resource.new E Filter A MipBias = .ok r) :
    (0 < A.GetNumMips ∧ A.GetNumMips ≤ (E.MAX_TEXTURE_MIP_COUNT : Int)) ∧
    (0 ≤ MipBias ∧ MipBias < A.GetNumMips) ∧
    r.NumMips = A.GetNumMips ∧ r.InitialData.FirstMip = MipBias ∧
    r.InitialData.NumSlices = A.GetSizeZ ∧
    r.SizeX = toUInt32 A.GetSizeX ∧ r.SizeY = toUInt32 A.GetSizeY ∧
    r.SizeZ = toUInt32 A.GetSizeZ ∧ r.PixelFormat = A.GetPixelFormat ∧
    r.TextureSize = 0 ∧ r.CurrentFirstMip = INDEX_NONE := by
  unfold FTexture2DArray2Resource.new at h
  dsimp only at h
  by_cases c1 : 0 < A.GetNumMips ∧ A.GetNumMips ≤ (E.MAX_TEXTURE_MIP_COUNT : Int)
  · by_cases c2 : 0 ≤ MipBias ∧ MipBias < A.GetNumMips
    · rw [if_neg (not_not.2 c1), if_neg (not_not.2 c2)] at h
      refine ⟨c1, c2, ?_⟩
      cases hp : A.PlatformData with
      | none =>
        rw [hp] at h
        dsimp only at h
        injection h with h
        subst h
        exact ⟨rfl, rfl, rfl, rfl, rfl, rfl, rfl, rfl, rfl⟩
      | some pd =>
        rw [hp] at h
        dsimp only at h
        cases ht : pd.TryLoadMips MipBias
            (FTexture2DArray2BulkData.new E MipBias A.GetSizeZ).MipData MipBias with
        | mk ok MipData1 =>
          rw [ht] at h
          cases ok with
          | false =>
            dsimp only at h
            injection h with h
            subst h
            exact ⟨rfl, rfl, rfl, rfl, rfl, rfl, rfl, rfl, rfl⟩
          | true =>
            dsimp only at h
            cases hs : storeMipSizes E pd.Mips (toUInt32 A.GetSizeX) (toUInt32 A.GetSizeY)
                (toUInt32 A.GetSizeZ) A.GetPixelFormat (loopRange MipBias A.GetNumMips)
                (FTexture2DArray2BulkData.new E MipBias A.GetSizeZ).MipSize with
            | error f => rw [hs] at h; cases h
            | ok MipSize1 =>
              rw [hs] at h
              dsimp only at h
              injection h with h
              subst h
              exact ⟨rfl, rfl, rfl, rfl, rfl, rfl, rfl, rfl, rfl⟩
    · rw [if_neg (not_not.2 c1), if_pos c2] at h
      cases h
  · rw [if_pos c1] at h
    cases h

theorem writeAt_ofNat {α : Type} (xs : List α) (i : Nat) (v : α) (h : i < xs.length) :
    writeAt xs (i : Int) v = .ok (xs.set i v) := by
  unfold writeAt
  rw [if_neg (by omega)]
  rfl

theorem storeMipSizes_ok (E : Engine) (Mips : List FTexture2DMipMap) (X Y Z : Nat)
    (PF : EPixelFormat) (ks : List Nat) (MipSize : List Nat)
    (hk : ∀ k ∈ ks, k < Mips.length ∧ k < MipSize.length) :
    ∃ out, storeMipSizes E Mips X Y Z PF (ks.map fun (k : Nat) => (k : Int)) MipSize = .ok out ∧
      out.length = MipSize.length ∧
      (∀ m, m ∉ ks → out[m]? = MipSize[m]?) ∧
      (∀ m ∈ ks, ∀ Mip, Mips[m]? = some Mip → out[m]? = some (recordedMipSize E X Y Z PF m Mip)) := by
  induction ks generalizing MipSize with
  | nil => exact ⟨MipSize, rfl, rfl, fun _ _ => rfl, fun m hm => by cases hm⟩
  | cons k rest ih =>
    obtain ⟨hk1, hk2⟩ := hk k (List.mem_cons_self _ _)
    obtain ⟨Mip0, hMip0⟩ : ∃ Mip0, Mips[k]? = some Mip0 :=
      ⟨Mips[k], List.getElem?_eq_getElem hk1⟩
    have hrest : ∀ j ∈ rest, j < Mips.length ∧
        j < (MipSize.set k (recordedMipSize E X Y Z PF k Mip0)).length := by
      intro j hj
      rw [List.length_set]
      exact hk j (List.mem_cons_of_mem _ hj)
    obtain ⟨out, ho, hlen, hkeep, hval⟩ := ih _ hrest
    refine ⟨out, ?_, ?_, ?_, ?_⟩
    · simp only [List.map_cons, storeMipSizes, readAt_ofNat Mips k Mip0 hMip0, Int.toNat_ofNat]
      have := writeAt_ofNat MipSize k (recordedMipSize E X Y Z PF k Mip0) hk2
      unfold recordedMipSize at this
      rw [this]
      exact ho
    · rw [hlen, List.length_set]
    · intro m hm
      have hmk : m ≠ k := fun e => hm (e ▸ List.mem_cons_self _ _)
      have hmr : m ∉ rest := fun e => hm (List.mem_cons_of_mem _ e)
      rw [hkeep m hmr, List.getElem?_set_ne (Ne.symm hmk)]
    · intro m hm Mip hMip
      by_cases hmr : m ∈ rest
      · exact hval m hmr Mip hMip
      · have hmk : m = k := by
          rcases List.mem_cons.1 hm with h | h
          · exact h
          · exact absurd h hmr
        subst hmk
        rw [hMip0] at hMip
        injection hMip with hMip
        subst hMip
        rw [hkeep m hmr, List.getElem?_set_self hk2]

theorem loopRange_cast (F K : Nat) :
    loopRange (F : Int) ((F : Int) + (K : Int)) =
      ((List.range K).map fun k => F + k).map fun (k : Nat) => (k : Int) := by
  rw [loopRange_ofNat, List.map_map]
  apply List.map_congr_left
  intro k _
  simp

theorem GetNumMips_of_some (A : UTexture2DArray) (pd : FTexturePlatformData)
    (hp : A.PlatformData = some pd) : A.GetNumMips = (pd.Mips.length : Int) := by
  unfold UTexture2DArray.GetNumMips; rw [hp]

theorem GetNumMips_of_none (A : UTexture2DArray) (hp : A.PlatformData = none) :
    A.GetNumMips = 0 := by
  unfold UTexture2DArray.GetNumMips; rw [hp]

/-- The sizes the constructor's loop records when both `check`s hold. -/
theorem storeMipSizes_of_checks (E : Engine) (A : UTexture2DArray) (pd : FTexturePlatformData)
    (hp : A.PlatformData = some pd) (MipBias : Int) (X Y Z : Nat) (PF : EPixelFormat)
    (c1 : 0 < A.GetNumMips ∧ A.GetNumMips ≤ (E.MAX_TEXTURE_MIP_COUNT : Int))
    (c2 : 0 ≤ MipBias ∧ MipBias < A.GetNumMips) :
    ∃ out, storeMipSizes E pd.Mips X Y Z PF (loopRange MipBias A.GetNumMips)
        (FTexture2DArray2BulkData.new E MipBias A.GetSizeZ).MipSize = .ok out ∧
      ∀ m : Nat, MipBias ≤ (m : Int) → (m : Int) < A.GetNumMips → ∀ Mip, pd.Mips[m]? = some Mip →
        out[m]? = some (recordedMipSize E X Y Z PF m Mip) := by
  rw [GetNumMips_of_some A pd hp] at c1 c2 ⊢
  obtain ⟨F, hF⟩ := Int.eq_ofNat_of_zero_le c2.1
  subst hF
  obtain ⟨K, hK⟩ : ∃ K : Nat, pd.Mips.length = F + K := ⟨pd.Mips.length - F, by omega⟩
  have hr : loopRange (F : Int) (pd.Mips.length : Int)
      = ((List.range K).map fun k => F + k).map fun (k : Nat) => (k : Int) := by
    rw [hK]; push_cast; exact loopRange_cast F K
  rw [hr]
  have hks : ∀ k ∈ (List.range K).map (fun k => F + k), k < pd.Mips.length ∧
      k < (FTexture2DArray2BulkData.new E (F : Int) A.GetSizeZ).MipSize.length := by
    intro k hk
    obtain ⟨j, hj, rfl⟩ := List.mem_map.1 hk
    have := List.mem_range.1 hj
    simp only [FTexture2DArray2BulkData.new, List.length_replicate]
    omega
  obtain ⟨out, ho, _, _, hval⟩ := storeMipSizes_ok E pd.Mips X Y Z PF _ _ hks
  refine ⟨out, ho, ?_⟩
  intro m h1 h2 Mip hMip
  apply hval m _ Mip hMip
  apply List.mem_map.2
  refine ⟨m - F, List.mem_range.2 (by omega), by omega⟩

/-- The constructor completes whenever its two `check`s hold. -/
theorem new_ok (E : Engine) (Filter : ESamplerFilter) (A : UTexture2DArray) (MipBias : Int)
    (c1 : 0 < A.GetNumMips ∧ A.GetNumMips ≤ (E.MAX_TEXTURE_MIP_COUNT : Int))
    (c2 : 0 ≤ MipBias ∧ MipBias < A.GetNumMips) :
    ∃ r, FTexture2DArray2Resource.new E Filter A MipBias = .ok r := by
  unfold FTexture2DArray2Resource.new
  dsimp only
  rw [if_neg (not_not.2 c1), if_neg (not_not.2 c2)]
  cases hp : A.PlatformData with
  | none => exact ⟨_, rfl⟩
  | some pd =>
    dsimp only
    cases ht : pd.TryLoadMips MipBias
        (FTexture2DArray2BulkData.new E MipBias A.GetSizeZ).MipData MipBias with
    | mk ok MipData1 =>
      cases ok with
      | false => exact ⟨_, rfl⟩
      | true =>
        dsimp only
        obtain ⟨out, ho, _⟩ := storeMipSizes_of_checks E A pd hp MipBias (toUInt32 A.GetSizeX)
          (toUInt32 A.GetSizeY) (toUInt32 A.GetSizeZ) A.GetPixelFormat c1 c2
        rw [ho]
        exact ⟨_, rfl⟩

/-- When the mips load, the sizes recorded in a constructed resource are those of
`recordedMipSize`. -/
theorem new_MipSize (E : Engine) (Filter : ESamplerFilter) (A : UTexture2DArray)
    (MipBias : Int) (r : FTexture2DArray2Resource) (pd : FTexturePlatformData)
    (hp : A.PlatformData = some pd) (hload : MipsLoad pd MipBias)
    (h : FTexture2DArray2Resource.new E Filter A MipBias = .ok r) (m : Nat)
    (h1 : MipBias ≤ (m : Int)) (h2 : (m : Int) < A.GetNumMips) (Mip : FTexture2DMipMap)
    (hMip : pd.Mips[m]? = some Mip) :
    r.InitialData.MipSize[m]? =
      some (recordedMipSize E r.SizeX r.SizeY r.SizeZ r.PixelFormat m Mip) := by
  obtain ⟨c1, c2, _, _, _, hx, hy, hz, hpf, _⟩ := new_inv E Filter A MipBias r h
  obtain ⟨out, ho, hval⟩ := storeMipSizes_of_checks E A pd hp MipBias (toUInt32 A.GetSizeX)
    (toUInt32 A.GetSizeY) (toUInt32 A.GetSizeZ) A.GetPixelFormat c1 c2
  have ht : pd.TryLoadMips MipBias (FTexture2DArray2BulkData.new E MipBias A.GetSizeZ).MipData
      MipBias = (true, storeLoadedMips (pd.Mips.drop MipBias.toNat) MipBias.toNat
        (FTexture2DArray2BulkData.new E MipBias A.GetSizeZ).MipData) := by
    unfold FTexturePlatformData.TryLoadMips
    unfold MipsLoad at hload
    rw [if_pos hload]
  unfold FTexture2DArray2Resource.new at h
  dsimp only at h
  rw [if_neg (not_not.2 c1), if_neg (not_not.2 c2), hp] at h
  dsimp only at h
  rw [ht] at h
  dsimp only at h
  rw [ho] at h
  dsimp only at h
  injection h with h
  subst h
  exact hval m h1 h2 Mip hMip

/-- C10: a mip bias outside `[0, NumMips)` fails a `check` of the constructor; and
for every resource that is constructed and then initialised, the first resident mip
is the construction bias, the resident mip count `NumMips - CurrentFirstMip` is at
least 1 and is the mip count passed to texture creation, and first resident mip
plus resident mip count does not exceed the asset's mip count. -/
theorem C10_mip_bias_invariant (E : Engine) (Filter : ESamplerFilter) (A : UTexture2DArray)
    (MipBias : Int) :
    (¬ (0 ≤ MipBias ∧ MipBias < A.GetNumMips) →
      FTexture2DArray2Resource.new E Filter A MipBias = .error .CheckFailed) ∧
    (∀ r Uninit s r1 s1, FTexture2DArray2Resource.new E Filter A MipBias = .ok r →
      r.InitRHI E Uninit s = .ok (r1, s1) →
      r1.CurrentFirstMip = MipBias ∧ 1 ≤ r1.NumMips - r1.CurrentFirstMip ∧
      r1.CurrentFirstMip + (r1.NumMips - r1.CurrentFirstMip) ≤ A.GetNumMips ∧
      ∃ c, r1.Texture2DArrayRHI = some c ∧
        c.NumMips = toUInt32 (r1.NumMips - r1.CurrentFirstMip) ∧
        (E.MAX_TEXTURE_MIP_COUNT < 4294967296 →
          (c.NumMips : Int) = r1.NumMips - r1.CurrentFirstMip)) := by
  constructor
  · intro hb
    unfold FTexture2DArray2Resource.new
    dsimp only
    by_cases c1 : 0 < A.GetNumMips ∧ A.GetNumMips ≤ (E.MAX_TEXTURE_MIP_COUNT : Int)
    · rw [if_neg (not_not.2 c1), if_pos hb]
    · rw [if_pos c1]
  · intro r Uninit s r1 s1 hnew hinit
    obtain ⟨c1, c2, hn, hf, _⟩ := new_inv E Filter A MipBias r hnew
    obtain ⟨B1, X, Y, _, _, _, hcf, hnm, _, _, _, _, _, hc, _⟩ :=
      InitRHI_inv E Uninit r r1 s s1 hinit
    have e1 : r1.CurrentFirstMip = MipBias := by rw [hcf, hf]
    have e2 : r1.NumMips = A.GetNumMips := by rw [hnm, hn]
    refine ⟨e1, by omega, by omega, _, hc, ?_, ?_⟩
    · show toUInt32 (r.NumMips - r.InitialData.FirstMip) = _
      rw [e1, e2, hn, hf]
    · intro hmax
      show ((toUInt32 (r.NumMips - r.InitialData.FirstMip) : Nat) : Int) = _
      rw [e1, e2, hn, hf]
      unfold toUInt32
      omega

theorem C10_mip_bias_invariant_witness :
    FTexture2DArray2Resource.new demoEngine 0 demoCookedAsset 3 = .error .CheckFailed ∧
    FTexture2DArray2Resource.new demoEngine 0 demoCookedAsset 1 = .ok demoResource ∧
    demoResource.InitRHI demoEngine (fun _ => 0) demoStats
      = .ok (demoResourceInitialised, demoStatsAfterInit demoStats) ∧
    demoResourceInitialised.CurrentFirstMip = 1 ∧
    1 ≤ demoResourceInitialised.NumMips - demoResourceInitialised.CurrentFirstMip ∧
    demoResourceInitialised.CurrentFirstMip +
      (demoResourceInitialised.NumMips - demoResourceInitialised.CurrentFirstMip)
        ≤ demoCookedAsset.GetNumMips :=
  ⟨(C10_mip_bias_invariant demoEngine 0 demoCookedAsset 3).1 (by decide), rfl, rfl,
   ((C10_mip_bias_invariant demoEngine 0 demoCookedAsset 1).2 demoResource (fun _ => 0)
      demoStats demoResourceInitialised (demoStatsAfterInit demoStats) rfl rfl).1,
   ((C10_mip_bias_invariant demoEngine 0 demoCookedAsset 1).2 demoResource (fun _ => 0)
      demoStats demoResourceInitialised (demoStatsAfterInit demoStats) rfl rfl).2.1,
   ((C10_mip_bias_invariant demoEngine 0 demoCookedAsset 1).2 demoResource (fun _ => 0)
      demoStats demoResourceInitialised (demoStatsAfterInit demoStats) rfl rfl).2.2.1⟩

/-- C15: `InitRHI` followed by `ReleaseRHI` on the same resource leaves the texture
memory counter and every LOD group counter where they were: the amount taken off
on release is the amount added on initialisation. -/
theorem C15_init_release_net_zero (E : Engine) (Uninit : Nat → Byte)
    (r r1 : FTexture2DArray2Resource) (s s1 : FStats)
    (h : r.InitRHI E Uninit s = .ok (r1, s1)) :
    (r1.ReleaseRHI s1).2.STAT_TextureMemory = s.STAT_TextureMemory ∧
    (∀ g, (r1.ReleaseRHI s1).2.LODGroupStat g = s.LODGroupStat g) ∧
    s1.STAT_TextureMemory - s.STAT_TextureMemory =
      s1.STAT_TextureMemory - (r1.ReleaseRHI s1).2.STAT_TextureMemory := by
  obtain ⟨B1, X, Y, _, _, _, _, _, _, _, _, hts, hlg, _, hmem, hgrp⟩ :=
    InitRHI_inv E Uninit r r1 s s1 h
  have e1 : (r1.ReleaseRHI s1).2.STAT_TextureMemory = s.STAT_TextureMemory := by
    show s1.STAT_TextureMemory - r1.TextureSize = s.STAT_TextureMemory
    rw [hmem, hts]; omega
  refine ⟨e1, ?_, by rw [e1]⟩
  intro g
  show (if g = r1.LODGroupStatName then s1.LODGroupStat g - r1.TextureSize
    else s1.LODGroupStat g) = s.LODGroupStat g
  rw [hgrp g, hlg, hts]
  split <;> omega

theorem C15_init_release_net_zero_witness :
    demoResource.InitRHI demoEngine (fun _ => 0)
        { STAT_TextureMemory := 1000, LODGroupStat := fun _ => 7 }
      = .ok (demoResourceInitialised,
          demoStatsAfterInit { STAT_TextureMemory := 1000, LODGroupStat := fun _ => 7 }) ∧
    (demoResourceInitialised.ReleaseRHI
      (demoStatsAfterInit { STAT_TextureMemory := 1000, LODGroupStat := fun _ => 7 })
      ).2.STAT_TextureMemory = 1000 ∧
    (∀ g, (demoResourceInitialised.ReleaseRHI
      (demoStatsAfterInit { STAT_TextureMemory := 1000, LODGroupStat := fun _ => 7 })
      ).2.LODGroupStat g = 7) :=
  ⟨rfl,
   (C15_init_release_net_zero demoEngine (fun _ => 0) demoResource demoResourceInitialised
      { STAT_TextureMemory := 1000, LODGroupStat := fun _ => 7 } _ rfl).1,
   (C15_init_release_net_zero demoEngine (fun _ => 0) demoResource demoResourceInitialised
      { STAT_TextureMemory := 1000, LODGroupStat := fun _ => 7 } _ rfl).2.1⟩

/-- C16 (evaluation at the failing input): a resource built from 48 bytes of mip data
has `TextureSize` 0, the value of the member initialiser that nothing later
replaces, and `InitRHI` leaves the texture memory counter where it was although
the bulk data it hands to texture creation holds 48 bytes. -/
theorem C16_texture_size_is_never_computed :
    ∃ r r1 s1, FTexture2DArray2Resource.new demoEngine 0 demoCookedAsset 0 = .ok r ∧
      r.TextureSize = 0 ∧
      r.InitRHI demoEngine (fun _ => 0) demoStats = .ok (r1, s1) ∧
      r1.InitialData.GetResourceBulkDataSize = .ok 48 ∧
      s1.STAT_TextureMemory = demoStats.STAT_TextureMemory ∧
      s1.LODGroupStat r1.LODGroupStatName = demoStats.LODGroupStat r1.LODGroupStatName :=
  ⟨_, _, _, rfl, rfl, rfl, rfl, rfl, rfl⟩

/-- C17: for every initialised resource, `GetSizeX()` is `max(SizeX >> b, 1)` and
`GetSizeY()` is `max(SizeY >> b, 1)` for the first resident mip `b`; both are at
least 1 and are the width and height `InitRHI` passed to texture creation. -/
theorem C17_effective_size (E : Engine) (Uninit : Nat → Byte)
    (r r1 : FTexture2DArray2Resource) (s s1 : FStats)
    (h : r.InitRHI E Uninit s = .ok (r1, s1)) :
    r1.GetSizeX = .ok (max (r1.SizeX >>> r1.CurrentFirstMip.toNat) 1) ∧
    r1.GetSizeY = .ok (max (r1.SizeY >>> r1.CurrentFirstMip.toNat) 1) ∧
    1 ≤ max (r1.SizeX >>> r1.CurrentFirstMip.toNat) 1 ∧
    1 ≤ max (r1.SizeY >>> r1.CurrentFirstMip.toNat) 1 ∧
    ∃ c, r1.Texture2DArrayRHI = some c ∧
      c.SizeX = max (r1.SizeX >>> r1.CurrentFirstMip.toNat) 1 ∧
      c.SizeY = max (r1.SizeY >>> r1.CurrentFirstMip.toNat) 1 := by
  obtain ⟨B1, X, Y, _, hx, hy, hcf, _, hsx, hsy, _, _, _, hc, _⟩ :=
    InitRHI_inv E Uninit r r1 s s1 h
  obtain ⟨_, _, eX⟩ := shiftRightU32_inv hx
  obtain ⟨_, _, eY⟩ := shiftRightU32_inv hy
  rw [← hcf, ← hsx] at eX hx
  rw [← hcf, ← hsy] at eY hy
  refine ⟨?_, ?_, le_max_right _ _, le_max_right _ _, _, hc, by rw [eX], by rw [eY]⟩
  · unfold FTexture2DArray2Resource.GetSizeX; rw [hx, eX]
  · unfold FTexture2DArray2Resource.GetSizeY; rw [hy, eY]

theorem C17_effective_size_witness :
    demoResource.InitRHI demoEngine (fun _ => 0) demoStats
      = .ok (demoResourceInitialised, demoStatsAfterInit demoStats) ∧
    demoResourceInitialised.GetSizeX = .ok 1 ∧ demoResourceInitialised.GetSizeY = .ok 1 :=
  ⟨rfl,
   (C17_effective_size demoEngine (fun _ => 0) demoResource demoResourceInitialised demoStats
      (demoStatsAfterInit demoStats) rfl).1,
   (C17_effective_size demoEngine (fun _ => 0) demoResource demoResourceInitialised demoStats
      (demoStatsAfterInit demoStats) rfl).2.1⟩

/-- C18: for every resource constructed from an asset with mip bias `b` and then
initialised, `InitRHI` requests texture-array creation with width
`max(SizeX >> b, 1)`, height `max(SizeY >> b, 1)`, the asset's slice count and
pixel format, and mip count `NumMips - b`. -/
theorem C18_creation_request (E : Engine) (Filter : ESamplerFilter) (A : UTexture2DArray)
    (MipBias : Int) (Uninit : Nat → Byte) (r r1 : FTexture2DArray2Resource) (s s1 : FStats)
    (hnew : FTexture2DArray2Resource.new E Filter A MipBias = .ok r)
    (h : r.InitRHI E Uninit s = .ok (r1, s1)) :
    ∃ c, r1.Texture2DArrayRHI = some c ∧
      c.SizeX = max (toUInt32 A.GetSizeX >>> MipBias.toNat) 1 ∧
      c.SizeY = max (toUInt32 A.GetSizeY >>> MipBias.toNat) 1 ∧
      c.SizeZ = toUInt32 A.GetSizeZ ∧ c.Format = A.GetPixelFormat ∧
      c.NumMips = toUInt32 (A.GetNumMips - MipBias) := by
  obtain ⟨_, _, hn, hf, _, hsx, hsy, hsz, hpf, _⟩ := new_inv E Filter A MipBias r hnew
  obtain ⟨B1, X, Y, _, hx, hy, _, _, _, _, _, _, _, hc, _⟩ := InitRHI_inv E Uninit r r1 s s1 h
  obtain ⟨_, _, eX⟩ := shiftRightU32_inv hx
  obtain ⟨_, _, eY⟩ := shiftRightU32_inv hy
  rw [hf, hsx] at eX
  rw [hf, hsy] at eY
  refine ⟨_, hc, ?_, ?_, hsz, hpf, ?_⟩
  · show max X 1 = _; rw [eX]
  · show max Y 1 = _; rw [eY]
  · show toUInt32 (r.NumMips - r.InitialData.FirstMip) = _; rw [hn, hf]

theorem C18_creation_request_witness :
    ∃ c, demoResourceInitialised.Texture2DArrayRHI = some c ∧
      c.SizeX = max (toUInt32 demoCookedAsset.GetSizeX >>> (1 : Int).toNat) 1 ∧
      c.SizeY = max (toUInt32 demoCookedAsset.GetSizeY >>> (1 : Int).toNat) 1 ∧
      c.SizeZ = toUInt32 demoCookedAsset.GetSizeZ ∧ c.Format = demoCookedAsset.GetPixelFormat ∧
      c.NumMips = toUInt32 (demoCookedAsset.GetNumMips - 1) :=
  C18_creation_request demoEngine 0 demoCookedAsset 1 (fun _ => 0) demoResource
    demoResourceInitialised demoStats (demoStatsAfterInit demoStats) rfl rfl

theorem recordedMipSize_eq_max (E : Engine) (X Y Z : Nat) (PF : EPixelFormat) (m : Nat)
    (Mip : FTexture2DMipMap) (hb : 0 ≤ Mip.BulkDataSize ∧ Mip.BulkDataSize ≤ INT32_MAX)
    (hc : ((E.CalcTextureMipMapSize X Y PF m * Z : Nat) : Int) ≤ INT32_MAX) :
    ((recordedMipSize E X Y Z PF m Mip : Nat) : Int) =
      max Mip.BulkDataSize ((E.CalcTextureMipMapSize X Y PF m * Z : Nat) : Int) := by
  unfold recordedMipSize toUInt32 toInt32
  unfold INT32_MAX at hb hc
  have h0 : 0 ≤ ((E.CalcTextureMipMapSize X Y PF m * Z : Nat) : Int) := Int.natCast_nonneg _
  generalize ((E.CalcTextureMipMapSize X Y PF m * Z : Nat) : Int) = c at hc h0 ⊢
  have e1 : (c + 2147483648) % 4294967296 - 2147483648 = c := by omega
  rw [e1]
  rcases max_cases Mip.BulkDataSize c with ⟨e, _⟩ | ⟨e, _⟩ <;> rw [e] <;> omega

/-- C19: for a resource constructed with successfully loaded platform mips and every
mip level `m` with `MipBias <= m < NumMips`, the recorded size `MipSize[m]` is the
larger of the declared bulk size of mip `m` and
`CalcTextureMipMapSize(SizeX, SizeY, format, m) * SizeZ` (both `int32` values), so
it is smaller than neither. -/
theorem C19_recorded_mip_size (E : Engine) (Filter : ESamplerFilter) (A : UTexture2DArray)
    (MipBias : Int) (r : FTexture2DArray2Resource) (pd : FTexturePlatformData)
    (hp : A.PlatformData = some pd) (hload : MipsLoad pd MipBias)
    (hnew : FTexture2DArray2Resource.new E Filter A MipBias = .ok r) (m : Nat)
    (h1 : MipBias ≤ (m : Int)) (h2 : (m : Int) < A.GetNumMips) (Mip : FTexture2DMipMap)
    (hMip : pd.Mips[m]? = some Mip)
    (hb : 0 ≤ Mip.BulkDataSize ∧ Mip.BulkDataSize ≤ INT32_MAX)
    (hc : ((E.CalcTextureMipMapSize r.SizeX r.SizeY r.PixelFormat m * r.SizeZ : Nat) : Int)
      ≤ INT32_MAX) :
    ∃ sz : Nat, r.InitialData.MipSize[m]? = some sz ∧
      (sz : Int) = max Mip.BulkDataSize
        ((E.CalcTextureMipMapSize r.SizeX r.SizeY r.PixelFormat m * r.SizeZ : Nat) : Int) ∧
      Mip.BulkDataSize ≤ (sz : Int) ∧
      E.CalcTextureMipMapSize r.SizeX r.SizeY r.PixelFormat m * r.SizeZ ≤ sz := by
  have hsz := new_MipSize E Filter A MipBias r pd hp hload hnew m h1 h2 Mip hMip
  have he := recordedMipSize_eq_max E r.SizeX r.SizeY r.SizeZ r.PixelFormat m Mip hb hc
  refine ⟨_, hsz, he, ?_, ?_⟩
  · rw [he]; exact le_max_left _ _
  · have : ((E.CalcTextureMipMapSize r.SizeX r.SizeY r.PixelFormat m * r.SizeZ : Nat) : Int)
        ≤ ((recordedMipSize E r.SizeX r.SizeY r.SizeZ r.PixelFormat m Mip : Nat) : Int) := by
      rw [he]; exact le_max_right _ _
    exact_mod_cast this

theorem C19_recorded_mip_size_witness :
    ∃ sz : Nat, demoResource.InitialData.MipSize[1]? = some sz ∧
      (sz : Int) = max (8 : Int)
        ((demoEngine.CalcTextureMipMapSize demoResource.SizeX demoResource.SizeY
          demoResource.PixelFormat 1 * demoResource.SizeZ : Nat) : Int) ∧
      (8 : Int) ≤ (sz : Int) ∧
      demoEngine.CalcTextureMipMapSize demoResource.SizeX demoResource.SizeY
        demoResource.PixelFormat 1 * demoResource.SizeZ ≤ sz :=
  C19_recorded_mip_size demoEngine 0 demoCookedAsset 1 demoResource demoPlatformData rfl
    (by decide) rfl 1 (by decide) (by decide)
    { BulkDataSize := 8, Loaded := some (List.replicate 8 2) } rfl (by decide) (by decide)

/-- C23 (evaluation at the failing input): an asset with `MAX_TEXTURE_MIP_COUNT` mips
and mip bias 0 satisfies both `check`s of the constructor, which completes; the
`check(NumMips < MAX_TEXTURE_MIP_COUNT)` of `MergeMips` then fails in `InitRHI`. -/
theorem C23_full_chain_fails_merge_check :
    (0 < demoFullChainAsset.GetNumMips ∧
      demoFullChainAsset.GetNumMips ≤ (demoEngine.MAX_TEXTURE_MIP_COUNT : Int)) ∧
    (0 ≤ (0 : Int) ∧ (0 : Int) < demoFullChainAsset.GetNumMips) ∧
    ∃ r, FTexture2DArray2Resource.new demoEngine 0 demoFullChainAsset 0 = .ok r ∧
      r.InitRHI demoEngine (fun _ => 0) demoStats = .error .CheckFailed :=
  ⟨by decide, by decide, _, rfl, rfl⟩

/-! ### `CreateResource` -/

theorem bFormatIsSupported_iff (G : FRHIGlobals) (A : UTexture2DArray) :
    A.bFormatIsSupported G = true ↔
      (G.GPixelFormats A.GetPixelFormat).Supported = true ∧
      ((G.GPixelFormats A.GetPixelFormat).BlockSizeX ≤ 1 ∨
        ShaderPlatformSupportsCompression G.GMaxRHIShaderPlatform = true) := by
  unfold UTexture2DArray.bFormatIsSupported
  simp only [Bool.and_eq_true, Bool.or_eq_true, Bool.not_eq_true', decide_eq_false_iff_not,
    gt_iff_lt, not_lt]

theorem CreateResource_of_condition (E : Engine) (G : FRHIGlobals) (A : UTexture2DArray)
    (h : ResourceCondition G A) :
    A.CreateResource E G =
      match FTexture2DArray2Resource.new E G.SamplerFilter A A.GetCachedLODBias with
      | .error f => .error f
      | .ok Resource => .ok (A, some Resource, []) := by
  have hc : A.GetNumMips > 0 ∧ G.GSupportsTexture2DArray = true ∧ A.bFormatIsSupported G = true :=
    ⟨h.1, h.2.1, (bFormatIsSupported_iff G A).2 h.2.2⟩
  unfold UTexture2DArray.CreateResource
  refine (if_pos hc).trans ?_
  cases FTexture2DArray2Resource.new E G.SamplerFilter A A.GetCachedLODBias <;> rfl

theorem CreateResource_of_not_condition (E : Engine) (G : FRHIGlobals) (A : UTexture2DArray)
    (h : ¬ ResourceCondition G A) : ∃ logs, A.CreateResource E G = .ok (A, none, logs) := by
  have hc : ¬ (A.GetNumMips > 0 ∧ G.GSupportsTexture2DArray = true ∧
      A.bFormatIsSupported G = true) := by
    rintro ⟨a, b, c⟩
    exact h ⟨a, b, (bFormatIsSupported_iff G A).1 c⟩
  unfold UTexture2DArray.CreateResource
  rw [if_neg hc]
  split
  · exact ⟨_, rfl⟩
  · split
    · exact ⟨_, rfl⟩
    · split
      · exact ⟨_, rfl⟩
      · exact ⟨_, rfl⟩

/-- C11: `CreateResource` returns a resource if and only if the mip count is greater
than zero, the platform reports texture-2D-array support and the pixel format is
supported; under that condition it returns the resource the constructor builds
(and one is built whenever the constructor's `check`s hold), and in every other
case it returns no resource. -/
theorem C11_resource_iff_condition (E : Engine) (G : FRHIGlobals) (A : UTexture2DArray) :
    (∀ a res logs, A.CreateResource E G = .ok (a, res, logs) →
      (res.isSome = true ↔ ResourceCondition G A)) ∧
    (¬ ResourceCondition G A → ∃ logs, A.CreateResource E G = .ok (A, none, logs)) ∧
    (ResourceCondition G A → A.GetNumMips ≤ (E.MAX_TEXTURE_MIP_COUNT : Int) →
      0 ≤ A.GetCachedLODBias ∧ A.GetCachedLODBias < A.GetNumMips →
      ∃ r, FTexture2DArray2Resource.new E G.SamplerFilter A A.GetCachedLODBias = .ok r ∧
        A.CreateResource E G = .ok (A, some r, [])) := by
  refine ⟨?_, CreateResource_of_not_condition E G A, ?_⟩
  · intro a res logs h
    by_cases hc : ResourceCondition G A
    · rw [CreateResource_of_condition E G A hc] at h
      cases hn : FTexture2DArray2Resource.new E G.SamplerFilter A A.GetCachedLODBias with
      | error f => rw [hn] at h; cases h
      | ok r =>
        rw [hn] at h
        injection h with h
        injection h with _ h
        injection h with h _
        subst h
        simp [hc]
    · obtain ⟨logs1, h1⟩ := CreateResource_of_not_condition E G A hc
      rw [h1] at h
      injection h with h
      injection h with _ h
      injection h with h _
      subst h
      simp [hc]
  · intro hc hmax hbias
    obtain ⟨r, hr⟩ := new_ok E G.SamplerFilter A A.GetCachedLODBias ⟨hc.1, hmax⟩ hbias
    refine ⟨r, hr, ?_⟩
    rw [CreateResource_of_condition E G A hc, hr]

theorem C11_resource_iff_condition_witness :
    (∃ logs, demoCookedAsset.CreateResource demoEngine
        { demoGlobals with GSupportsTexture2DArray := false } = .ok (demoCookedAsset, none, logs)) ∧
    (∃ r, FTexture2DArray2Resource.new demoEngine demoGlobals.SamplerFilter demoCookedAsset
        demoCookedAsset.GetCachedLODBias = .ok r ∧
      demoCookedAsset.CreateResource demoEngine demoGlobals = .ok (demoCookedAsset, some r, [])) :=
  ⟨(C11_resource_iff_condition demoEngine { demoGlobals with GSupportsTexture2DArray := false }
      demoCookedAsset).2.1 (by decide),
   (C11_resource_iff_condition demoEngine demoGlobals demoCookedAsset).2.2 (by decide)
      (by decide) (by decide)⟩

/-- C12 (evaluation at the failing input): mips are present and the format is
supported, but `GSupportsTexture2DArray` is false while `GSupportsTexture3D` is
true. `CreateResource` returns no resource and logs nothing: the branch that
should report the missing array support tests `GSupportsTexture3D`. -/
theorem C12_no_warning_without_array_support :
    demoCookedAsset.GetNumMips = 3 ∧
    demoCookedAsset.bFormatIsSupported
      { demoGlobals with GSupportsTexture2DArray := false, GSupportsTexture3D := true } = true ∧
    demoCookedAsset.CreateResource demoEngine
      { demoGlobals with GSupportsTexture2DArray := false, GSupportsTexture3D := true }
      = .ok (demoCookedAsset, none, []) :=
  ⟨rfl, rfl, rfl⟩

/-- C13: for an asset whose pixel format is not supported on the active shader
platform, `CreateResource` returns no resource and leaves the asset's merged
source and source texture list unchanged. -/
theorem C13_unsupported_format_no_resource (E : Engine) (G : FRHIGlobals) (A : UTexture2DArray)
    (h : A.bFormatIsSupported G = false) :
    ∃ a logs, A.CreateResource E G = .ok (a, none, logs) ∧
      a.Source = A.Source ∧ a.Source2DTextures = A.Source2DTextures := by
  have hc : ¬ ResourceCondition G A := by
    intro hc
    have := (bFormatIsSupported_iff G A).2 hc.2.2
    rw [h] at this; cases this
  obtain ⟨logs, hl⟩ := CreateResource_of_not_condition E G A hc
  exact ⟨A, logs, hl, rfl, rfl⟩

theorem C13_unsupported_format_no_resource_witness :
    ∃ a logs, demoCookedAsset.CreateResource demoEngine
        { demoGlobals with GPixelFormats := fun _ => { Supported := false, BlockSizeX := 1 } }
        = .ok (a, none, logs) ∧
      a.Source = demoCookedAsset.Source ∧
      a.Source2DTextures = demoCookedAsset.Source2DTextures :=
  C13_unsupported_format_no_resource demoEngine
    { demoGlobals with GPixelFormats := fun _ => { Supported := false, BlockSizeX := 1 } }
    demoCookedAsset rfl

/-- C14 (counterexample): an asset whose platform data has one mip and slice count 0.
`GetSizeZ` is 0, yet `CreateResource` constructs a resource, whose `SizeZ` is 0. -/
theorem C14_counterexample_resource_without_slices :
    demoSlicelessAsset.GetSizeZ = 0 ∧
    ∃ r, demoSlicelessAsset.CreateResource demoEngine demoGlobals
        = .ok (demoSlicelessAsset, some r, []) ∧ r.SizeZ = 0 :=
  ⟨rfl, _, rfl, rfl⟩

/-- C14 (amended): an asset without platform data, whose slice count and mip count
are therefore 0, gets no resource. The slice count is no part of the decision: an
asset that has mips, array support and a supported format, and whose mip count and
LOD bias pass the constructor's `check`s, gets a resource whatever its slice count;
and the `SizeZ` of every resource `CreateResource` constructs is `GetSizeZ()`
converted to `uint32`, at least 1 when the slice count is an `int32` value of at
least 1 and 0 when the slice count is 0. -/
theorem C14_no_resource_without_platform_data (E : Engine) (G : FRHIGlobals)
    (A : UTexture2DArray) :
    (A.PlatformData = none →
      A.GetSizeZ = 0 ∧ ∃ logs, A.CreateResource E G = .ok (A, none, logs)) ∧
    (ResourceCondition G A → A.GetNumMips ≤ (E.MAX_TEXTURE_MIP_COUNT : Int) →
      0 ≤ A.GetCachedLODBias ∧ A.GetCachedLODBias < A.GetNumMips →
      ∃ r, A.CreateResource E G = .ok (A, some r, []) ∧ r.SizeZ = toUInt32 A.GetSizeZ) ∧
    (∀ a r logs, A.CreateResource E G = .ok (a, some r, logs) →
      r.SizeZ = toUInt32 A.GetSizeZ ∧
      (1 ≤ A.GetSizeZ → A.GetSizeZ ≤ INT32_MAX → 1 ≤ r.SizeZ) ∧
      (A.GetSizeZ = 0 → r.SizeZ = 0)) := by
  refine ⟨?_, ?_, ?_⟩
  · intro hp
    refine ⟨by unfold UTexture2DArray.GetSizeZ; rw [hp], ?_⟩
    apply CreateResource_of_not_condition
    intro hc
    have := hc.1
    rw [GetNumMips_of_none A hp] at this
    omega
  · intro hc hmax hbias
    obtain ⟨r, hr⟩ := new_ok E G.SamplerFilter A A.GetCachedLODBias ⟨hc.1, hmax⟩ hbias
    obtain ⟨_, _, _, _, _, _, _, hz, _⟩ := new_inv E G.SamplerFilter A _ r hr
    refine ⟨r, ?_, hz⟩
    rw [CreateResource_of_condition E G A hc, hr]
  · intro a r logs h
    by_cases hc : ResourceCondition G A
    · rw [CreateResource_of_condition E G A hc] at h
      cases hn : FTexture2DArray2Resource.new E G.SamplerFilter A A.GetCachedLODBias with
      | error f => rw [hn] at h; cases h
      | ok r0 =>
        rw [hn] at h
        injection h with h
        injection h with _ h
        injection h with h _
        injection h with h
        subst h
        obtain ⟨_, _, _, _, _, _, _, hz, _⟩ := new_inv E G.SamplerFilter A _ r0 hn
        refine ⟨hz, ?_, ?_⟩
        · intro h1 h2
          rw [hz]
          unfold toUInt32
          unfold INT32_MAX at h2
          omega
        · intro h0
          rw [hz, h0]
          rfl
    · obtain ⟨logs1, h1⟩ := CreateResource_of_not_condition E G A hc
      rw [h1] at h
      injection h with h
      injection h with _ h
      injection h with h _
      cases h

theorem C14_no_resource_without_platform_data_witness :
    ((demoAsset []).GetSizeZ = 0 ∧
      ∃ logs, (demoAsset []).CreateResource demoEngine demoGlobals
        = .ok (demoAsset [], none, logs)) ∧
    (∃ r, demoSlicelessAsset.CreateResource demoEngine demoGlobals
        = .ok (demoSlicelessAsset, some r, []) ∧
      r.SizeZ = toUInt32 demoSlicelessAsset.GetSizeZ) ∧
    (∃ r, demoCookedAsset.CreateResource demoEngine demoGlobals
        = .ok (demoCookedAsset, some r, []) ∧
      r.SizeZ = toUInt32 demoCookedAsset.GetSizeZ) :=
  ⟨(C14_no_resource_without_platform_data demoEngine demoGlobals (demoAsset [])).1 rfl,
   (C14_no_resource_without_platform_data demoEngine demoGlobals demoSlicelessAsset).2.1
      (by decide) (by decide) (by decide),
   (C14_no_resource_without_platform_data demoEngine demoGlobals demoCookedAsset).2.1
      (by decide) (by decide) (by decide)⟩

/-! ### Editor and material claims -/

theorem Clamp_of_le (X Max : Int) (h : 0 ≤ Max) :
    0 ≤ Clamp X 0 Max ∧ Clamp X 0 Max ≤ Max ∧ (0 ≤ X → X ≤ Max → Clamp X 0 Max = X) ∧
    (X < 0 → Clamp X 0 Max = 0) ∧ (Max < X → Clamp X 0 Max = Max) := by
  unfold Clamp
  refine ⟨?_, ?_, ?_, ?_, ?_⟩
  · split
    · exact le_refl _
    · split <;> omega
  · split
    · exact h
    · split <;> omega
  · intro h0 h1
    rw [if_neg (by omega)]
    split <;> omega
  · intro h0
    rw [if_pos h0]
  · intro h1
    rw [if_neg (by omega), if_neg (by omega)]

/-- C20 (counterexample): the texture is an array whose slice count is 0, so
`GetMaxTextureSlice()` is -1, below the lower bound 0 of the clamp; the handler,
called with 5 (or 0), stores -1, a negative index. In that state the entry box is
disabled (`GetUseSpecifiedSlice()` is false). -/
theorem C20_counterexample_empty_array_stores_negative_slice :
    (demoAsset []).GetSizeZ = 0 ∧
    (demoEmptyToolkit.HandleTextureSliceEntryBoxChanged 5).SpecifiedTextureSlice = -1 ∧
    (demoEmptyToolkit.HandleTextureSliceEntryBoxChanged 0).SpecifiedTextureSlice = -1 ∧
    demoEmptyToolkit.GetUseSpecifiedSlice = false :=
  ⟨rfl, by decide, by decide, by decide⟩

/-- C20 (amended): while the slice entry box is enabled (`GetUseSpecifiedSlice()`,
which needs `GetMaxTextureSlice() > 0`: a texture array of at least 2 slices),
`HandleTextureSliceEntryBoxChanged(n)` stores a valid zero-based index for every
integer `n`: `0 <= SpecifiedTextureSlice < sliceCount`, equal to `n` when `n` is in
range, 0 when `n` is negative and `sliceCount - 1` when `n` is too large. The entry
box, the only binding of the handler, passes the value on exactly while it is
enabled; while it is disabled the stored index stays as it is. -/
theorem C20_enabled_entry_box_clamps (T : FTextureEditorToolkit) (n : Int) :
    (T.GetUseSpecifiedSlice = true →
      ∃ A, T.Texture = .Texture2DArray A ∧ 2 ≤ A.GetSizeZ ∧
        T.TextureSliceEntryBoxValueChanged n = T.HandleTextureSliceEntryBoxChanged n ∧
        0 ≤ (T.HandleTextureSliceEntryBoxChanged n).SpecifiedTextureSlice ∧
        (T.HandleTextureSliceEntryBoxChanged n).SpecifiedTextureSlice < A.GetSizeZ ∧
        (0 ≤ n → n < A.GetSizeZ →
          (T.HandleTextureSliceEntryBoxChanged n).SpecifiedTextureSlice = n) ∧
        (n < 0 → (T.HandleTextureSliceEntryBoxChanged n).SpecifiedTextureSlice = 0) ∧
        (A.GetSizeZ ≤ n →
          (T.HandleTextureSliceEntryBoxChanged n).SpecifiedTextureSlice = A.GetSizeZ - 1)) ∧
    (T.GetUseSpecifiedSlice = false → T.TextureSliceEntryBoxValueChanged n = T) := by
  constructor
  · intro h
    have hev : T.TextureSliceEntryBoxValueChanged n = T.HandleTextureSliceEntryBoxChanged n := by
      unfold FTextureEditorToolkit.TextureSliceEntryBoxValueChanged
      rw [if_pos h]
    cases hT : T.Texture with
    | Other =>
      exfalso
      unfold FTextureEditorToolkit.GetUseSpecifiedSlice
        FTextureEditorToolkit.GetMaxTextureSlice at h
      rw [hT] at h
      simp at h
    | Texture2DArray A =>
      have hmax : T.GetMaxTextureSlice.getD 0 = A.GetSizeZ - 1 := by
        unfold FTextureEditorToolkit.GetMaxTextureSlice
        rw [hT]
        rfl
      have hpos : 0 < A.GetSizeZ - 1 := by
        unfold FTextureEditorToolkit.GetUseSpecifiedSlice at h
        rw [hmax] at h
        by_contra hn
        rw [if_neg hn] at h
        cases h
      have hst : (T.HandleTextureSliceEntryBoxChanged n).SpecifiedTextureSlice
          = Clamp n 0 (A.GetSizeZ - 1) := by
        unfold FTextureEditorToolkit.HandleTextureSliceEntryBoxChanged
        rw [hmax]
      obtain ⟨c1, c2, c3, c4, c5⟩ := Clamp_of_le n (A.GetSizeZ - 1) (by omega)
      refine ⟨A, rfl, by omega, hev, ?_, ?_, ?_, ?_, ?_⟩
      · rw [hst]; exact c1
      · rw [hst]; omega
      · intro h0 h1; rw [hst]; exact c3 h0 (by omega)
      · intro h0; rw [hst]; exact c4 h0
      · intro h1; rw [hst]; exact c5 (by omega)
  · intro h
    unfold FTextureEditorToolkit.TextureSliceEntryBoxValueChanged
    rw [h]
    rfl

theorem C20_enabled_entry_box_clamps_witness :
    demoToolkit.GetUseSpecifiedSlice = true ∧
    demoToolkit.TextureSliceEntryBoxValueChanged 5
      = demoToolkit.HandleTextureSliceEntryBoxChanged 5 ∧
    (demoToolkit.HandleTextureSliceEntryBoxChanged 5).SpecifiedTextureSlice = 1 ∧
    (demoToolkit.HandleTextureSliceEntryBoxChanged (-3)).SpecifiedTextureSlice = 0 := by
  obtain ⟨A, hA, _, hev, _, _, _, _, h5⟩ :=
    (C20_enabled_entry_box_clamps demoToolkit 5).1 (by decide)
  obtain ⟨B, hB, _, _, _, _, _, hneg, _⟩ :=
    (C20_enabled_entry_box_clamps demoToolkit (-3)).1 (by decide)
  have hA1 : A = demoCookedAsset := by
    have : UTexture.Texture2DArray demoCookedAsset = UTexture.Texture2DArray A := hA
    injection this with this
    exact this.symm
  subst hA1
  exact ⟨by decide, hev, h5 (by decide), hneg (by decide)⟩

theorem addPaletteItems_eq (l : List UTexture2D) (n : Nat)
    (Items : List FTextureArrayPaletteItemModel) :
    addPaletteItems (l.map some) (n : Int) Items =
      .ok (Items ++ (l.enumFrom n).map fun p => { Texture2D := p.2, TextureId := (p.1 : Int) }) := by
  induction l generalizing n Items with
  | nil => simp [addPaletteItems]
  | cons t rest ih =>
    have e : ((n : Int) + 1) = ((n + 1 : Nat) : Int) := by push_cast; rfl
    simp only [List.map_cons, addPaletteItems, FTextureArrayPaletteItemModel.new, e, ih,
      List.enumFrom_cons, List.append_assoc, List.singleton_append]

/-- C21 (counterexample): two non-null source textures of different sizes.
Aggregation fails and the merged source has slice count 0, yet the palette built
for that asset lists two items, one per source texture. -/
theorem C21_counterexample_palette_lists_sources :
    ∃ after items,
      (demoAsset [demoTexture 2 1 1 (.TSF 2) (some [1, 2]),
        demoTexture 4 4 1 (.TSF 2) none]).UpdateSourceFromSourceTextures demoEngine (fun _ => 0) 7
        = .ok (false, after) ∧
      after.Source.GetNumSlices = 0 ∧
      RefreshTextureArrayPalette (some after) [] = .ok items ∧
      items.length = 2 :=
  ⟨_, _, rfl, rfl, rfl, rfl⟩

/-- C21 (amended): for a texture array whose source texture entries are all non-null
(`Textures`), the palette lists one item per entry of `Source2DTextures`, in list
order and numbered from 0, whatever the merged source is; it is empty exactly when
the source texture list is empty. The array is the one of the paint settings,
else the first one used by a selected component; when there is none the palette
is empty. -/
theorem C21_palette_lists_source_textures (Components : SelectedComponents)
    (A : UTexture2DArray) (Textures : List UTexture2D)
    (h : A.Source2DTextures = Textures.map some) :
    RefreshTextureArrayPalette (some A) Components =
      .ok (Textures.enum.map fun p => { Texture2D := p.2, TextureId := (p.1 : Int) }) ∧
    (Textures.enum.map fun p =>
      ({ Texture2D := p.2, TextureId := (p.1 : Int) } : FTextureArrayPaletteItemModel)).length
      = A.Source2DTextures.length ∧
    ((Textures.enum.map fun p =>
      ({ Texture2D := p.2, TextureId := (p.1 : Int) } : FTextureArrayPaletteItemModel)) = [] ↔
      A.Source2DTextures = []) ∧
    (findInComponents Components = some A →
      RefreshTextureArrayPalette none Components = RefreshTextureArrayPalette (some A) []) ∧
    (findInComponents Components = none →
      RefreshTextureArrayPalette none Components = .ok []) := by
  refine ⟨?_, ?_, ?_, ?_, ?_⟩
  · have := addPaletteItems_eq Textures 0 []
    rw [show ((0 : Nat) : Int) = 0 from rfl, List.nil_append] at this
    show addPaletteItems A.Source2DTextures 0 [] = _
    rw [h, this]
    rfl
  · rw [h]
    simp [List.enum]
  · rw [h]
    simp [List.enum]
  · intro hf
    show (match (findInComponents Components) with
      | some t2da => addPaletteItems t2da.Source2DTextures 0 []
      | none => .ok []) = addPaletteItems A.Source2DTextures 0 []
    rw [hf]
  · intro hf
    show (match (findInComponents Components) with
      | some t2da => addPaletteItems t2da.Source2DTextures 0 []
      | none => .ok []) = .ok []
    rw [hf]

theorem C21_palette_lists_source_textures_witness :
    RefreshTextureArrayPalette (some (demoAsset [demoTexture 2 1 1 (.TSF 2) (some [1, 2]),
      demoTexture 4 4 1 (.TSF 2) none])) [] =
      .ok [{ Texture2D := UTexture2D.mk (FTextureSource.mk 2 1 1 1 (.TSF 2) (some [1, 2])),
             TextureId := 0 },
           { Texture2D := UTexture2D.mk (FTextureSource.mk 4 4 1 1 (.TSF 2) none),
             TextureId := 1 }] :=
  (C21_palette_lists_source_textures []
    (demoAsset [demoTexture 2 1 1 (.TSF 2) (some [1, 2]), demoTexture 4 4 1 (.TSF 2) none])
    [UTexture2D.mk (FTextureSource.mk 2 1 1 1 (.TSF 2) (some [1, 2])),
     UTexture2D.mk (FTextureSource.mk 4 4 1 1 (.TSF 2) none)] rfl).1

/-- C22 (evaluation at the failing input): 513 equal source textures are merged into a
source of 513 slices; the call returns true. `MAX_TEXTURE_2D_ARRAY_SLICES` (512)
is compared with nothing. -/
theorem C22_more_slices_than_the_ceiling :
    ∃ after, (demoAsset demoManyTextures).UpdateSourceFromSourceTextures demoEngine
        (fun _ => 0) 7 = .ok (true, after) ∧
      after.Source.GetNumSlices = 513 ∧
      MAX_TEXTURE_2D_ARRAY_SLICES < after.Source.GetNumSlices := by
  have hmem : ∀ t ∈ demoManyTextures, t = demoTexture 1 1 1 (.TSF 2) (some [9]) :=
    fun t ht => (List.mem_replicate.1 ht).2
  have hne : (demoAsset demoManyTextures).Source2DTextures ≠ [] := by
    show demoManyTextures ≠ []
    intro h
    have := congrArg List.length h
    simp only [demoManyTextures, List.length_replicate, List.length_nil] at this
    omega
  have hn : AllNonNull (demoAsset demoManyTextures).Source2DTextures := by
    intro t ht
    rw [hmem t ht]
    simp [demoTexture]
  have hm : AllMatch (FTextureSource.mk 1 1 1 1 (.TSF 2) none)
      (demoAsset demoManyTextures).Source2DTextures := by
    intro t ht tex he
    rw [hmem t ht] at he
    simp only [demoTexture, Option.some.injEq] at he
    subst he
    exact ⟨rfl, rfl, rfl, rfl⟩
  have hfit : MergeFits demoEngine 1 1 (.TSF 2) (demoAsset demoManyTextures).Source2DTextures := by
    refine ⟨by decide, by decide, ?_, by decide, ?_⟩
    · show FitsInt32 (OneTextureSize demoEngine 1 1 (.TSF 2) * (demoManyTextures.length : Int))
      have : demoManyTextures.length = 513 := by
        simp only [demoManyTextures, List.length_replicate]
      rw [this]
      decide
    · intro t ht tex he d hd
      rw [hmem t ht] at he
      simp only [demoTexture, Option.some.injEq] at he
      subst he
      simp only [Option.some.injEq] at hd
      subst hd
      decide
  obtain ⟨after, hok, hsrc⟩ := Update_of_allMatch demoEngine (fun _ => 0) 7
    (demoAsset demoManyTextures) _ hne hn hm hfit
  have hslices : after.Source.GetNumSlices = 513 := by
    rw [hsrc]
    show ((demoManyTextures.length : Nat) : Int) = 513
    simp only [demoManyTextures, List.length_replicate]
    rfl
  refine ⟨after, hok, hslices, ?_⟩
  rw [hslices]
  decide

theorem UpdateMipGenSettings_of_forced (E : Engine) (A : UTexture2DArray)
    (h : ForcesNoMipmaps E A) :
    A.UpdateMipGenSettings E = { A with MipGenSettings := .TMGS_NoMipmaps, NeverStream := true } := by
  unfold UTexture2DArray.UpdateMipGenSettings
  rw [if_pos]
  refine ⟨h.1, ?_⟩
  unfold FTextureSource.IsPowerOfTwo
  rcases h.2 with h | h | h <;> simp [h]

theorem UpdateMipGenSettings_of_not_forced (E : Engine) (A : UTexture2DArray)
    (h : ¬ ForcesNoMipmaps E A) : A.UpdateMipGenSettings E = A := by
  unfold UTexture2DArray.UpdateMipGenSettings
  rw [if_neg]
  rintro ⟨h1, h2⟩
  apply h
  refine ⟨h1, ?_⟩
  unfold FTextureSource.IsPowerOfTwo at h2
  cases hx : E.IsPowerOfTwo A.Source.SizeX <;> cases hy : E.IsPowerOfTwo A.Source.SizeY <;>
    cases hz : E.IsPowerOfTwo A.Source.NumSlices <;> simp_all

theorem UpdateMipGenSettings_idem (E : Engine) (A : UTexture2DArray) :
    (A.UpdateMipGenSettings E).UpdateMipGenSettings E = A.UpdateMipGenSettings E := by
  by_cases h : ForcesNoMipmaps E A
  · rw [UpdateMipGenSettings_of_forced E A h]
    exact UpdateMipGenSettings_of_forced E _ h
  · rw [UpdateMipGenSettings_of_not_forced E A h]
    exact UpdateMipGenSettings_of_not_forced E _ h

/-- The asset a completed call returns is as `UpdateMipGenSettings` leaves it. -/
theorem Update_result_settled (E : Engine) (Uninit : Nat → Byte) (G : FGuid)
    (A after : UTexture2DArray) (ret : Bool)
    (h : A.UpdateSourceFromSourceTextures E Uninit G = .ok (ret, after)) :
    after.UpdateMipGenSettings E = after := by
  by_cases hv : A.Source2DTextures ≠ [] ∧
      (checkSourceTextures A.Source2DTextures SourceCheck.start).bSourceTexturesAreValid = true
  · obtain ⟨hne, hv⟩ := hv
    by_cases hfit : MergeFits E (checkSourceTextures A.Source2DTextures SourceCheck.start).SizeX
        (checkSourceTextures A.Source2DTextures SourceCheck.start).SizeY
        (checkSourceTextures A.Source2DTextures SourceCheck.start).TextureFormat
        A.Source2DTextures
    · rw [Update_of_valid E Uninit G A hne hv hfit] at h
      injection h with h
      injection h with _ h
      subst h
      exact UpdateMipGenSettings_idem E _
    · obtain ⟨f, hf⟩ := Update_of_unfit E Uninit G A hne hv hfit
      rw [hf] at h; cases h
  · have hinv : A.UpdateSourceFromSourceTextures E Uninit G = .ok (false, A.invalidated E) := by
      by_cases hne : A.Source2DTextures = []
      · exact Update_of_empty E Uninit G A hne
      · apply Update_of_invalid
        cases hb : (checkSourceTextures A.Source2DTextures
            SourceCheck.start).bSourceTexturesAreValid
        · rfl
        · exact absurd ⟨hne, hb⟩ hv
    rw [hinv] at h
    injection h with h
    injection h with _ h
    subst h
    exact UpdateMipGenSettings_idem E _

/-- C27: for an asset with `PowerOfTwoMode = None` whose merged source width or height
is not a power of two, `UpdateMipGenSettings` sets `MipGenSettings = TMGS_NoMipmaps`
and `NeverStream = true`; the asset a completed `UpdateSourceFromSourceTextures`
returns, which runs it last, therefore has both settings. -/
theorem C27_non_power_of_two_forces_no_mipmaps (E : Engine) (A : UTexture2DArray)
    (hmode : A.PowerOfTwoMode = ETexturePowerOfTwoSetting.None)
    (hnpt : E.IsPowerOfTwo A.Source.SizeX = false ∨ E.IsPowerOfTwo A.Source.SizeY = false) :
    ((A.UpdateMipGenSettings E).MipGenSettings = .TMGS_NoMipmaps ∧
      (A.UpdateMipGenSettings E).NeverStream = true) ∧
    (∀ (Uninit : Nat → Byte) (G : FGuid) (before : UTexture2DArray) (ret : Bool),
      before.UpdateSourceFromSourceTextures E Uninit G = .ok (ret, A) →
      A.MipGenSettings = .TMGS_NoMipmaps ∧ A.NeverStream = true) := by
  have hf : ForcesNoMipmaps E A := by
    refine ⟨hmode, ?_⟩
    rcases hnpt with h | h
    · exact Or.inl h
    · exact Or.inr (Or.inl h)
  have h1 : (A.UpdateMipGenSettings E).MipGenSettings = .TMGS_NoMipmaps ∧
      (A.UpdateMipGenSettings E).NeverStream = true := by
    rw [UpdateMipGenSettings_of_forced E A hf]
    exact ⟨rfl, rfl⟩
  refine ⟨h1, ?_⟩
  intro Uninit G before ret h
  rw [Update_result_settled E Uninit G before A ret h] at h1
  exact h1

theorem C27_non_power_of_two_forces_no_mipmaps_witness :
    ((({ demoAsset [] with Source := FTextureSource.Init 3 4 1 1 (.TSF 2) none } :
        UTexture2DArray).UpdateMipGenSettings demoEngine).MipGenSettings = .TMGS_NoMipmaps ∧
      (({ demoAsset [] with Source := FTextureSource.Init 3 4 1 1 (.TSF 2) none } :
        UTexture2DArray).UpdateMipGenSettings demoEngine).NeverStream = true) :=
  (C27_non_power_of_two_forces_no_mipmaps demoEngine
    { demoAsset [] with Source := FTextureSource.Init 3 4 1 1 (.TSF 2) none } rfl
    (Or.inl (by decide))).1

/-- C28: `UpdateMipGenSettings` writes `MipGenSettings` and `NeverStream` exactly when
`PowerOfTwoMode` is `None` and the source dimensions or the slice count are not a
power of two; so a source with power-of-two width and height and a slice count
that is not a power of two is forced to `TMGS_NoMipmaps`/`NeverStream` too, and
in every other case the asset is left as it was. -/
theorem C28_settings_written_exactly_when_forced (E : Engine) (A : UTexture2DArray) :
    (ForcesNoMipmaps E A →
      A.UpdateMipGenSettings E =
        { A with MipGenSettings := .TMGS_NoMipmaps, NeverStream := true }) ∧
    (¬ ForcesNoMipmaps E A → A.UpdateMipGenSettings E = A) ∧
    (A.PowerOfTwoMode = ETexturePowerOfTwoSetting.None → E.IsPowerOfTwo A.Source.SizeX = true →
      E.IsPowerOfTwo A.Source.SizeY = true → E.IsPowerOfTwo A.Source.NumSlices = false →
      (A.UpdateMipGenSettings E).MipGenSettings = .TMGS_NoMipmaps ∧
      (A.UpdateMipGenSettings E).NeverStream = true) := by
  refine ⟨UpdateMipGenSettings_of_forced E A, UpdateMipGenSettings_of_not_forced E A, ?_⟩
  intro hmode _ _ hz
  rw [UpdateMipGenSettings_of_forced E A ⟨hmode, Or.inr (Or.inr hz)⟩]
  exact ⟨rfl, rfl⟩

theorem C28_settings_written_exactly_when_forced_witness :
    ((({ demoAsset [] with Source := FTextureSource.Init 4 4 3 1 (.TSF 2) none } :
        UTexture2DArray).UpdateMipGenSettings demoEngine).MipGenSettings = .TMGS_NoMipmaps ∧
      (({ demoAsset [] with Source := FTextureSource.Init 4 4 3 1 (.TSF 2) none } :
        UTexture2DArray).UpdateMipGenSettings demoEngine).NeverStream = true) ∧
    ({ demoAsset [] with Source := FTextureSource.Init 4 4 2 1 (.TSF 2) none } :
        UTexture2DArray).UpdateMipGenSettings demoEngine =
      { demoAsset [] with Source := FTextureSource.Init 4 4 2 1 (.TSF 2) none } :=
  ⟨(C28_settings_written_exactly_when_forced demoEngine
      { demoAsset [] with Source := FTextureSource.Init 4 4 3 1 (.TSF 2) none }).2.2
      rfl (by decide) (by decide) (by decide),
   (C28_settings_written_exactly_when_forced demoEngine
      { demoAsset [] with Source := FTextureSource.Init 4 4 2 1 (.TSF 2) none }).2.1
      (by decide)⟩

/-- C30 (evaluation on every input): the array `TextureExpressions` has four entries
of which only three are initialised; the loop over `ARRAY_COUNT(TextureExpressions)`
dereferences the fourth, a null pointer, for every material resource. -/
theorem C30_fourth_table_is_null (Resource : FMaterialResource) (Values : List Nat) :
    (TextureExpressions Resource).length = 4 ∧
    (TextureExpressions Resource)[3]? = some none ∧
    CopyMaterialUniformParameters_Textures Resource Values = .error .NullDeref := by
  refine ⟨rfl, rfl, ?_⟩
  simp [CopyMaterialUniformParameters_Textures, TextureExpressions, copyTextureParameters]

/-! ### `MergeMips`: branches, bounds and repetition -/

theorem MergeMips_eq (E : Engine) (Uninit : Nat → Byte) (B : FTexture2DArray2BulkData)
    (NumMips : Int) :
    B.MergeMips E Uninit NumMips =
      if ¬ NumMips < (E.MAX_TEXTURE_MIP_COUNT : Int) then .error .CheckFailed else
      match sumMipSizes B.MipSize (loopRange B.FirstMip NumMips) 0 with
      | .error f => .error f
      | .ok MergedSize =>
      match readAt B.MipSize B.FirstMip with
      | .error f => .error f
      | .ok FirstSize =>
      if MergedSize > FirstSize then B.mergeCopy Uninit NumMips MergedSize else .ok B := by
  unfold FTexture2DArray2BulkData.MergeMips FTexture2DArray2BulkData.mergeCopy
  rfl

theorem MergeMips_of (E : Engine) (Uninit : Nat → Byte) (B : FTexture2DArray2BulkData)
    (NumMips : Int) (M z : Nat) (hcheck : NumMips < (E.MAX_TEXTURE_MIP_COUNT : Int))
    (hsum : sumMipSizes B.MipSize (loopRange B.FirstMip NumMips) 0 = .ok M)
    (hz : readAt B.MipSize B.FirstMip = .ok z) :
    B.MergeMips E Uninit NumMips =
      if M > z then B.mergeCopy Uninit NumMips M else .ok B := by
  rw [MergeMips_eq, if_neg (not_not.2 hcheck), hsum]
  dsimp only
  rw [hz]

theorem MergeMips_inv (E : Engine) (Uninit : Nat → Byte) (B B1 : FTexture2DArray2BulkData)
    (NumMips : Int) (h : B.MergeMips E Uninit NumMips = .ok B1) :
    NumMips < (E.MAX_TEXTURE_MIP_COUNT : Int) ∧
    ∃ M z, sumMipSizes B.MipSize (loopRange B.FirstMip NumMips) 0 = .ok M ∧
      readAt B.MipSize B.FirstMip = .ok z ∧
      ((¬ M > z ∧ B1 = B) ∨ (M > z ∧ B.mergeCopy Uninit NumMips M = .ok B1)) := by
  rw [MergeMips_eq] at h
  by_cases hc : NumMips < (E.MAX_TEXTURE_MIP_COUNT : Int)
  · rw [if_neg (not_not.2 hc)] at h
    refine ⟨hc, ?_⟩
    cases hs : sumMipSizes B.MipSize (loopRange B.FirstMip NumMips) 0 with
    | error f => rw [hs] at h; cases h
    | ok M =>
      rw [hs] at h
      dsimp only at h
      cases hz : readAt B.MipSize B.FirstMip with
      | error f => rw [hz] at h; cases h
      | ok z =>
        rw [hz] at h
        dsimp only at h
        refine ⟨M, z, rfl, rfl, ?_⟩
        by_cases hgt : M > z
        · rw [if_pos hgt] at h
          exact Or.inr ⟨hgt, h⟩
        · rw [if_neg hgt] at h
          injection h with h
          exact Or.inl ⟨hgt, h.symm⟩
  · rw [if_pos hc] at h; cases h

theorem readAt_inv {α : Type} {xs : List α} {i : Int} {x : α} (h : readAt xs i = .ok x) :
    0 ≤ i ∧ i.toNat < xs.length ∧ xs[i.toNat]? = some x := by
  unfold readAt at h
  by_cases hi : i < 0
  · rw [if_pos hi] at h; cases h
  · rw [if_neg hi] at h
    cases hx : xs[i.toNat]? with
    | none => rw [hx] at h; cases h
    | some y =>
      rw [hx] at h
      injection h with h
      subst h
      exact ⟨by omega, (List.getElem?_eq_some_iff.1 hx).1, rfl⟩

theorem readAt_of_getElem? {α : Type} (xs : List α) (i : Int) (x : α) (hi : 0 ≤ i)
    (h : xs[i.toNat]? = some x) : readAt xs i = .ok x := by
  unfold readAt
  rw [if_neg (by omega), h]

theorem writeAt_inv {α : Type} {xs ys : List α} {i : Int} {v : α}
    (h : writeAt xs i v = .ok ys) : 0 ≤ i ∧ i.toNat < xs.length ∧ ys = xs.set i.toNat v := by
  unfold writeAt at h
  by_cases hi : i < 0 ∨ (xs.length : Int) ≤ i
  · rw [if_pos hi] at h; cases h
  · rw [if_neg hi] at h
    injection h with h
    exact ⟨by omega, by omega, h.symm⟩

theorem writeAt_ok {α : Type} (xs : List α) (i : Int) (v : α) (h0 : 0 ≤ i)
    (h1 : i.toNat < xs.length) : writeAt xs i v = .ok (xs.set i.toNat v) := by
  unfold writeAt
  rw [if_neg (by omega)]

theorem readAt_MipSize (B : FTexture2DArray2BulkData) (m : Int) (h0 : 0 ≤ m)
    (h1 : m.toNat < B.MipSize.length) : readAt B.MipSize m = .ok (B.sizeOfMip m) := by
  apply readAt_of_getElem? _ _ _ h0
  unfold FTexture2DArray2BulkData.sizeOfMip
  rw [List.getD_eq_getElem _ _ h1, List.getElem?_eq_getElem h1]

theorem sumMipSizes_inv (xs : List Nat) (idxs : List Int) (acc M : Nat)
    (h : sumMipSizes xs idxs acc = .ok M) : ∀ m ∈ idxs, 0 ≤ m ∧ m.toNat < xs.length := by
  induction idxs generalizing acc with
  | nil => intro m hm; cases hm
  | cons a rest ih =>
    cases hr : readAt xs a with
    | error f => simp only [sumMipSizes, hr] at h; cases h
    | ok sz =>
      simp only [sumMipSizes, hr] at h
      intro m hm
      rcases List.mem_cons.1 hm with rfl | hm
      · exact ⟨(readAt_inv hr).1, (readAt_inv hr).2.1⟩
      · exact ih _ h m hm

theorem sumMipSizes_valid (B : FTexture2DArray2BulkData) (idxs : List Int) (acc : Nat)
    (hv : ∀ m ∈ idxs, 0 ≤ m ∧ m.toNat < B.MipSize.length)
    (hb : acc + (idxs.map B.sizeOfMip).sum < 18446744073709551616) :
    sumMipSizes B.MipSize idxs acc = .ok (acc + (idxs.map B.sizeOfMip).sum) := by
  induction idxs generalizing acc with
  | nil => simp [sumMipSizes]
  | cons a rest ih =>
    simp only [List.map_cons, List.sum_cons] at hb ⊢
    have ha := hv a (List.mem_cons_self _ _)
    simp only [sumMipSizes, readAt_MipSize B a ha.1 ha.2]
    have e : (acc + B.sizeOfMip a) % 18446744073709551616 = acc + B.sizeOfMip a := by omega
    rw [e, ih (acc + B.sizeOfMip a) (fun m hm => hv m (List.mem_cons_of_mem _ hm)) (by omega),
      Nat.add_assoc]

theorem mem_loopRange {F L m : Int} (h : m ∈ loopRange F L) : F ≤ m ∧ m < L := by
  unfold loopRange at h
  obtain ⟨k, hk, rfl⟩ := List.mem_map.1 h
  have := List.mem_range.1 hk
  omega

theorem loopRange_cons (F L : Int) (h : F < L) :
    ∃ rest, loopRange F L = F :: rest ∧ ∀ m ∈ rest, F < m ∧ m < L := by
  obtain ⟨K, hK⟩ : ∃ K : Nat, (L - F).toNat = K + 1 := ⟨(L - F).toNat - 1, by omega⟩
  refine ⟨(List.range K).map fun (k : Nat) => F + ((k + 1 : Nat) : Int), ?_, ?_⟩
  · unfold loopRange
    rw [hK, List.range_succ_eq_map, List.map_cons, List.map_map]
    simp only [Nat.cast_zero, Int.add_zero, List.cons.injEq, true_and]
    rfl
  · intro m hm
    obtain ⟨k, hk, rfl⟩ := List.mem_map.1 hm
    have := List.mem_range.1 hk
    push_cast
    omega

theorem mergeCopy_inv (Uninit : Nat → Byte) (B B1 : FTexture2DArray2BulkData) (NumMips : Int)
    (M : Nat) (h : B.mergeCopy Uninit NumMips M = .ok B1) :
    ∃ buf pos, mergeSlices B (loopRange B.FirstMip NumMips) (loopRange 0 B.NumSlices)
        (garbage Uninit 0 M) 0 = .ok (buf, pos) ∧
      0 ≤ B.FirstMip ∧ B.FirstMip.toNat < B.MipData.length ∧
      B.FirstMip.toNat < B.MipSize.length ∧
      B1 = { B with
        MipData := (B.MipData.map fun _ => none).set B.FirstMip.toNat (some buf),
        MipSize := (B.MipSize.map fun _ => 0).set B.FirstMip.toNat (M % 4294967296) } := by
  unfold FTexture2DArray2BulkData.mergeCopy at h
  rw [Malloc_ok] at h
  dsimp only at h
  cases hm : mergeSlices B (loopRange B.FirstMip NumMips) (loopRange 0 B.NumSlices)
      (garbage Uninit 0 M) 0 with
  | error f => rw [hm] at h; cases h
  | ok r =>
    obtain ⟨buf, pos⟩ := r
    rw [hm] at h
    dsimp only at h
    cases hw1 : writeAt B.Discard.MipData B.Discard.FirstMip (some buf) with
    | error f => rw [hw1] at h; cases h
    | ok D1 =>
      rw [hw1] at h
      dsimp only at h
      cases hw2 : writeAt B.Discard.MipSize B.Discard.FirstMip (M % 4294967296) with
      | error f => rw [hw2] at h; cases h
      | ok S1 =>
        rw [hw2] at h
        dsimp only at h
        injection h with h
        obtain ⟨h0, h1, e1⟩ := writeAt_inv hw1
        obtain ⟨_, h2, e2⟩ := writeAt_inv hw2
        refine ⟨buf, pos, rfl, h0, ?_, ?_, ?_⟩
        · simpa [FTexture2DArray2BulkData.Discard] using h1
        · simpa [FTexture2DArray2BulkData.Discard] using h2
        · rw [← h, e1, e2]
          rfl

theorem mergeCopy_entries (Uninit : Nat → Byte) (B B1 : FTexture2DArray2BulkData)
    (NumMips : Int) (M : Nat) (h : B.mergeCopy Uninit NumMips M = .ok B1) :
    B1.FirstMip = B.FirstMip ∧ B1.NumSlices = B.NumSlices ∧
    B1.MipData.length = B.MipData.length ∧ B1.MipSize.length = B.MipSize.length ∧
    (∀ i : Nat, (i : Int) ≠ B.FirstMip → i < B.MipData.length → B1.MipData[i]? = some none) ∧
    (∀ i : Nat, (i : Int) ≠ B.FirstMip → i < B.MipSize.length → B1.MipSize[i]? = some 0) ∧
    readAt B1.MipSize B1.FirstMip = .ok (M % 4294967296) ∧
    ∃ buf pos, mergeSlices B (loopRange B.FirstMip NumMips) (loopRange 0 B.NumSlices)
        (garbage Uninit 0 M) 0 = .ok (buf, pos) ∧
      readAt B1.MipData B1.FirstMip = .ok (some buf) := by
  obtain ⟨buf, pos, hm, h0, h1, h2, rfl⟩ := mergeCopy_inv Uninit B B1 NumMips M h
  refine ⟨rfl, rfl, by simp, by simp, ?_, ?_, ?_, buf, pos, hm, ?_⟩
  · intro i hi hl
    have hne : B.FirstMip.toNat ≠ i := by omega
    show ((B.MipData.map fun _ => none).set B.FirstMip.toNat (some buf))[i]? = some none
    rw [List.getElem?_set_ne hne, List.getElem?_map, List.getElem?_eq_getElem hl]
    rfl
  · intro i hi hl
    have hne : B.FirstMip.toNat ≠ i := by omega
    show ((B.MipSize.map fun _ => 0).set B.FirstMip.toNat (M % 4294967296))[i]? = some 0
    rw [List.getElem?_set_ne hne, List.getElem?_map, List.getElem?_eq_getElem hl]
    rfl
  · apply readAt_of_getElem? _ _ _ h0
    show ((B.MipSize.map fun _ => 0).set B.FirstMip.toNat (M % 4294967296))[B.FirstMip.toNat]?
      = some (M % 4294967296)
    rw [List.getElem?_set_self (by simpa using h2)]
  · apply readAt_of_getElem? _ _ _ h0
    show ((B.MipData.map fun _ => none).set B.FirstMip.toNat (some buf))[B.FirstMip.toNat]?
      = some (some buf)
    rw [List.getElem?_set_self (by simpa using h1)]

/-- The first loop of `MergeMips` on a completed call: the plain sum of the sizes in
the range, when that sum is a `uint64` value. -/
theorem sumMipSizes_of_ok (B : FTexture2DArray2BulkData) (NumMips : Int) (M : Nat)
    (h : sumMipSizes B.MipSize (loopRange B.FirstMip NumMips) 0 = .ok M)
    (hb : (B.sizesInRange NumMips).sum < 18446744073709551616) :
    M = (B.sizesInRange NumMips).sum := by
  have hv := sumMipSizes_inv _ _ _ _ h
  have := sumMipSizes_valid B (loopRange B.FirstMip NumMips) 0 hv
    (by rw [Nat.zero_add]; exact hb)
  rw [h, Nat.zero_add] at this
  injection this

/-- C26: after `MergeMips` took the copy branch (the sum of the sizes
`MipSize[m]`, `m` in `[FirstMip, NumMips)`, exceeds `MipSize[FirstMip]`; the sum is a
`uint32` value), every entry other than `FirstMip` has `MipData` null and `MipSize`
0, `MipData[FirstMip]` is the buffer the copy loops filled, and
`GetResourceBulkDataSize()` is the sum of the sizes before the call. -/
theorem C26_copy_branch_single_buffer (E : Engine) (Uninit : Nat → Byte)
    (B B1 : FTexture2DArray2BulkData) (NumMips : Int) (z : Nat)
    (h : B.MergeMips E Uninit NumMips = .ok B1)
    (hz : readAt B.MipSize B.FirstMip = .ok z)
    (hgt : z < (B.sizesInRange NumMips).sum)
    (h32 : (B.sizesInRange NumMips).sum < 4294967296) :
    (∀ i : Nat, (i : Int) ≠ B.FirstMip → i < B.MipData.length → B1.MipData[i]? = some none) ∧
    (∀ i : Nat, (i : Int) ≠ B.FirstMip → i < B.MipSize.length → B1.MipSize[i]? = some 0) ∧
    B1.MipData.length = B.MipData.length ∧ B1.MipSize.length = B.MipSize.length ∧
    (∃ buf pos, mergeSlices B (loopRange B.FirstMip NumMips) (loopRange 0 B.NumSlices)
        (garbage Uninit 0 (B.sizesInRange NumMips).sum) 0 = .ok (buf, pos) ∧
      B1.GetResourceBulkData = .ok (some buf)) ∧
    B1.GetResourceBulkDataSize = .ok (B.sizesInRange NumMips).sum := by
  obtain ⟨_, M, z1, hsum, hz1, hcase⟩ := MergeMips_inv E Uninit B B1 NumMips h
  have hM := sumMipSizes_of_ok B NumMips M hsum (by omega)
  rw [hz] at hz1
  injection hz1 with hz1
  subst hz1
  rcases hcase with ⟨hle, _⟩ | ⟨_, hcopy⟩
  · omega
  · rw [hM] at hcopy
    obtain ⟨_, _, hl1, hl2, hD, hS, hsz, buf, pos, hm, hbuf⟩ :=
      mergeCopy_entries Uninit B B1 NumMips _ hcopy
    refine ⟨hD, hS, hl1, hl2, ⟨buf, pos, hm, hbuf⟩, ?_⟩
    rw [Nat.mod_eq_of_lt h32] at hsz
    exact hsz

theorem C26_copy_branch_single_buffer_witness :
    (∀ i : Nat, (i : Int) ≠ demoBulkData.FirstMip → i < demoBulkData.MipData.length →
      demoBulkDataMerged.MipData[i]? = some none) ∧
    (∀ i : Nat, (i : Int) ≠ demoBulkData.FirstMip → i < demoBulkData.MipSize.length →
      demoBulkDataMerged.MipSize[i]? = some 0) ∧
    demoBulkDataMerged.GetResourceBulkDataSize = .ok 10 :=
  ⟨(C26_copy_branch_single_buffer demoEngine (fun _ => 0) demoBulkData demoBulkDataMerged 3 4
      rfl rfl (by decide) (by decide)).1,
   (C26_copy_branch_single_buffer demoEngine (fun _ => 0) demoBulkData demoBulkDataMerged 3 4
      rfl rfl (by decide) (by decide)).2.1,
   (C26_copy_branch_single_buffer demoEngine (fun _ => 0) demoBulkData demoBulkDataMerged 3 4
      rfl rfl (by decide) (by decide)).2.2.2.2.2⟩

theorem sumMipSizes_zeros (xs : List Nat) (idxs : List Int) (acc : Nat)
    (h : ∀ m ∈ idxs, readAt xs m = .ok 0) (hacc : acc < 18446744073709551616) :
    sumMipSizes xs idxs acc = .ok acc := by
  induction idxs with
  | nil => rfl
  | cons a rest ih =>
    simp only [sumMipSizes, h a (List.mem_cons_self _ _), Nat.add_zero,
      Nat.mod_eq_of_lt hacc]
    exact ih (fun m hm => h m (List.mem_cons_of_mem _ hm))

/-- C29: a second `MergeMips(NumMips)` right after a completed first one completes and
leaves the bulk data, `MipData` and `MipSize` included, exactly as the first call
left it: the second call takes the skip branch. -/
theorem C29_MergeMips_idempotent (E : Engine) (Uninit Uninit2 : Nat → Byte)
    (B B1 : FTexture2DArray2BulkData) (NumMips : Int)
    (h : B.MergeMips E Uninit NumMips = .ok B1) :
    B1.MergeMips E Uninit2 NumMips = .ok B1 ∧
    ∃ M z, sumMipSizes B1.MipSize (loopRange B1.FirstMip NumMips) 0 = .ok M ∧
      readAt B1.MipSize B1.FirstMip = .ok z ∧ ¬ M > z := by
  obtain ⟨hcheck, M, z, hsum, hz, hcase⟩ := MergeMips_inv E Uninit B B1 NumMips h
  rcases hcase with ⟨hle, rfl⟩ | ⟨hgt, hcopy⟩
  · refine ⟨?_, M, z, hsum, hz, hle⟩
    rw [MergeMips_of E Uninit2 _ NumMips M z hcheck hsum hz, if_neg hle]
  · obtain ⟨hF, _, _, hl2, _, hS, hsz, _⟩ := mergeCopy_entries Uninit B B1 NumMips M hcopy
    have hv := sumMipSizes_inv _ _ _ _ hsum
    have hFL : B.FirstMip < NumMips := by
      by_contra hn
      have he : loopRange B.FirstMip NumMips = [] := by
        unfold loopRange
        have : (NumMips - B.FirstMip).toNat = 0 := by omega
        rw [this]; rfl
      rw [he] at hsum
      simp only [sumMipSizes] at hsum
      injection hsum with hsum
      omega
    obtain ⟨rest, hr, hrest⟩ := loopRange_cons B.FirstMip NumMips hFL
    have hsum1 : sumMipSizes B1.MipSize (loopRange B1.FirstMip NumMips) 0
        = .ok (M % 4294967296) := by
      rw [hF, hr]
      rw [hF] at hsz
      simp only [sumMipSizes, hsz, Nat.zero_add]
      have hlt : M % 4294967296 < 18446744073709551616 :=
        lt_trans (Nat.mod_lt _ (by decide)) (by decide)
      rw [Nat.mod_eq_of_lt hlt]
      apply sumMipSizes_zeros _ _ _ _ hlt
      intro m hm
      have hm1 := hrest m hm
      have hm2 := hv m (by rw [hr]; exact List.mem_cons_of_mem _ hm)
      apply readAt_of_getElem? _ _ _ hm2.1
      have := hS m.toNat (by omega) hm2.2
      exact this
    refine ⟨?_, _, _, hsum1, hsz, lt_irrefl _⟩
    rw [MergeMips_of E Uninit2 B1 NumMips _ _ hcheck hsum1 hsz, if_neg (lt_irrefl _)]

theorem C29_MergeMips_idempotent_witness :
    demoBulkDataMerged.MergeMips demoEngine (fun _ => 1) 3 = .ok demoBulkDataMerged :=
  (C29_MergeMips_idempotent demoEngine (fun _ => 0) (fun _ => 1) demoBulkData
    demoBulkDataMerged 3 rfl).1

/-- What the copy loops need of mip `m`: an index inside both arrays, a size that is
an `int32` value, and a buffer, when there is one, that holds that many bytes. -/
theorem mip_facts (B : FTexture2DArray2BulkData) (m : Int) (h0 : 0 ≤ m)
    (h1 : m.toNat < B.MipSize.length) (hlen : B.MipData.length = B.MipSize.length)
    (hsz : ∀ sz ∈ B.MipSize, sz < 2147483648)
    (hbuf : ∀ p ∈ B.MipSize.zip B.MipData, ∀ d, p.2 = some d → p.1 ≤ d.length) :
    readAt B.MipSize m = .ok (B.sizeOfMip m) ∧ B.sizeOfMip m < 2147483648 ∧
    ∃ dm, readAt B.MipData m = .ok dm ∧ ∀ d, dm = some d → B.sizeOfMip m ≤ d.length := by
  have h2 : m.toNat < B.MipData.length := by omega
  have e : B.sizeOfMip m = B.MipSize[m.toNat] := by
    unfold FTexture2DArray2BulkData.sizeOfMip
    exact List.getD_eq_getElem _ _ h1
  refine ⟨readAt_MipSize B m h0 h1, ?_, B.MipData[m.toNat], ?_, ?_⟩
  · rw [e]; exact hsz _ (List.getElem_mem _)
  · exact readAt_of_getElem? _ _ _ h0 (List.getElem?_eq_getElem h2)
  · intro d hd
    have hz : m.toNat < (B.MipSize.zip B.MipData).length := by
      rw [List.length_zip]; omega
    have hmem : (B.MipSize.zip B.MipData)[m.toNat] ∈ B.MipSize.zip B.MipData :=
      List.getElem_mem _
    have := hbuf _ hmem d (by rw [List.getElem_zip]; exact hd)
    rw [List.getElem_zip] at this
    rw [e]; exact this

theorem Memcpy_safe (Dest Src : List Byte) (DestPos SrcPos Count : Int) (hc : 0 ≤ Count)
    (hs : 0 ≤ SrcPos) (hsl : SrcPos + Count ≤ (Src.length : Int)) (hd : 0 ≤ DestPos)
    (hdl : DestPos + Count ≤ (Dest.length : Int)) :
    ∃ Out, Memcpy Dest DestPos Src SrcPos Count = .ok Out ∧ Out.length = Dest.length := by
  have h : ∃ Out, Memcpy Dest DestPos Src SrcPos Count = .ok Out := by
    unfold Memcpy
    rw [if_neg (by omega), if_neg (by omega)]
    exact ⟨_, rfl⟩
  obtain ⟨Out, hO⟩ := h
  exact ⟨Out, hO, Memcpy_length hO⟩

theorem mergeMipSlice_safe (B : FTexture2DArray2BulkData) (N s : Nat) (m : Int) (sz : Nat)
    (dm : Option (List Byte)) (buf : List Byte) (pos : Nat) (hN : B.NumSlices = (N : Int))
    (hN31 : N < 2147483648) (hs : s < N) (hr : readAt B.MipSize m = .ok sz)
    (hsz : sz < 2147483648) (hd : readAt B.MipData m = .ok dm)
    (hcov : ∀ d, dm = some d → sz ≤ d.length) (hfit : pos + sz / N ≤ buf.length) :
    ∃ buf1, mergeMipSlice B (s : Int) m buf (pos : Int) = .ok (buf1, ((pos + sz / N : Nat) : Int)) ∧
      buf1.length = buf.length := by
  have hu : toUInt32 B.NumSlices = N := by rw [hN]; exact toUInt32_of_small N (by omega)
  have hN0 : N ≠ 0 := by omega
  have hq : sz / N < 2147483648 := lt_of_le_of_lt (Nat.div_le_self _ _) hsz
  have hle : N * (sz / N) ≤ sz := Nat.mul_div_le sz N
  have h1 : s * (sz / N) + sz / N ≤ N * (sz / N) := by
    have : (s + 1) * (sz / N) ≤ N * (sz / N) := Nat.mul_le_mul_right _ hs
    have e : (s + 1) * (sz / N) = s * (sz / N) + sz / N := by ring
    omega
  have hprod : s * (sz / N) + sz / N ≤ sz := le_trans h1 hle
  have hq0 : (0 : Int) ≤ ((sz / N : Nat) : Int) := Int.natCast_nonneg _
  have hp0 : (0 : Int) ≤ (s : Int) * ((sz / N : Nat) : Int) :=
    mul_nonneg (Int.natCast_nonneg _) hq0
  have hpq : (s : Int) * ((sz / N : Nat) : Int) + ((sz / N : Nat) : Int) ≤ (sz : Int) := by
    exact_mod_cast hprod
  have hfitI : (pos : Int) + ((sz / N : Nat) : Int) ≤ (buf.length : Int) := by
    exact_mod_cast hfit
  have hszI : (sz : Int) < 2147483648 := by exact_mod_cast hsz
  have hmul : mulInt32 (s : Int) ((sz / N : Nat) : Int)
      = .ok ((s : Int) * ((sz / N : Nat) : Int)) := by
    apply mulInt32_ok
    unfold FitsInt32 INT32_MIN INT32_MAX
    generalize (s : Int) * ((sz / N : Nat) : Int) = P at hp0 hpq
    generalize ((sz / N : Nat) : Int) = Q at hq0 hpq
    omega
  have e : ((pos : Int) + ((sz / N : Nat) : Int)) = ((pos + sz / N : Nat) : Int) := by
    push_cast; rfl
  unfold mergeMipSlice
  rw [hr]
  dsimp only
  rw [hu, if_neg hN0, toInt32_of_small _ hq, hmul]
  dsimp only
  rw [hd]
  cases dm with
  | none =>
    dsimp only
    rw [e]
    exact ⟨buf, rfl, rfl⟩
  | some d =>
    dsimp only
    have hc : (sz : Int) ≤ (d.length : Int) := by exact_mod_cast hcov d rfl
    obtain ⟨Out, hO, hl⟩ := Memcpy_safe buf d (pos : Int) ((s : Int) * ((sz / N : Nat) : Int))
      ((sz / N : Nat) : Int) hq0 hp0 (le_trans hpq hc) (Int.natCast_nonneg _) hfitI
    rw [hO]
    dsimp only
    rw [e]
    exact ⟨Out, rfl, hl⟩

theorem mergeMipsOfSlice_safe (B : FTexture2DArray2BulkData) (N s : Nat) (idxs : List Int)
    (hN : B.NumSlices = (N : Int)) (hN31 : N < 2147483648) (hs : s < N)
    (hall : ∀ m ∈ idxs, readAt B.MipSize m = .ok (B.sizeOfMip m) ∧
      B.sizeOfMip m < 2147483648 ∧
      ∃ dm, readAt B.MipData m = .ok dm ∧ ∀ d, dm = some d → B.sizeOfMip m ≤ d.length)
    (buf : List Byte) (pos : Nat)
    (hfit : pos + (idxs.map fun m => B.sizeOfMip m / N).sum ≤ buf.length) :
    ∃ buf1, mergeMipsOfSlice B (s : Int) idxs buf (pos : Int)
        = .ok (buf1, ((pos + (idxs.map fun m => B.sizeOfMip m / N).sum : Nat) : Int)) ∧
      buf1.length = buf.length := by
  induction idxs generalizing buf pos with
  | nil => exact ⟨buf, by simp [mergeMipsOfSlice], rfl⟩
  | cons m rest ih =>
    simp only [List.map_cons, List.sum_cons] at hfit ⊢
    obtain ⟨hr, hsz, dm, hd, hcov⟩ := hall m (List.mem_cons_self _ _)
    obtain ⟨b1, hb1, hl1⟩ := mergeMipSlice_safe B N s m _ dm buf pos hN hN31 hs hr hsz hd hcov
      (by omega)
    obtain ⟨b2, hb2, hl2⟩ := ih (fun x hx => hall x (List.mem_cons_of_mem _ hx)) b1
      (pos + B.sizeOfMip m / N) (by rw [hl1]; omega)
    refine ⟨b2, ?_, by rw [hl2, hl1]⟩
    simp only [mergeMipsOfSlice, hb1, hb2, Nat.add_assoc]

theorem mergeSlices_safe (B : FTexture2DArray2BulkData) (N : Nat) (idxs : List Int)
    (hN : B.NumSlices = (N : Int)) (hN31 : N < 2147483648)
    (hall : 0 < N → ∀ m ∈ idxs, readAt B.MipSize m = .ok (B.sizeOfMip m) ∧
      B.sizeOfMip m < 2147483648 ∧
      ∃ dm, readAt B.MipData m = .ok dm ∧ ∀ d, dm = some d → B.sizeOfMip m ≤ d.length)
    (ss : List Nat) (hss : ∀ s ∈ ss, s < N) (buf : List Byte) (pos : Nat)
    (hfit : pos + ss.length * (idxs.map fun m => B.sizeOfMip m / N).sum ≤ buf.length) :
    ∃ buf1 pos1, mergeSlices B idxs (ss.map fun (k : Nat) => (0 : Int) + (k : Int)) buf (pos : Int)
        = .ok (buf1, pos1) ∧ buf1.length = buf.length := by
  induction ss generalizing buf pos with
  | nil => exact ⟨buf, pos, by simp [mergeSlices], rfl⟩
  | cons s rest ih =>
    have hs : s < N := hss s (List.mem_cons_self _ _)
    simp only [List.length_cons, Nat.add_mul, Nat.one_mul] at hfit
    obtain ⟨b1, hb1, hl1⟩ := mergeMipsOfSlice_safe B N s idxs hN hN31 hs (hall (by omega)) buf pos
      (by omega)
    obtain ⟨b2, p2, hb2, hl2⟩ := ih (fun x hx => hss x (List.mem_cons_of_mem _ hx)) b1
      (pos + (idxs.map fun m => B.sizeOfMip m / N).sum) (by rw [hl1]; omega)
    refine ⟨b2, p2, ?_, by rw [hl2, hl1]⟩
    simp only [List.map_cons, mergeSlices, Int.zero_add, hb1]
    simp only [Int.zero_add] at hb2
    exact hb2

theorem sum_div_le (N : Nat) (l : List Nat) : N * (l.map fun x => x / N).sum ≤ l.sum := by
  induction l with
  | nil => simp
  | cons a r ih =>
    simp only [List.map_cons, List.sum_cons, Nat.mul_add]
    have := Nat.mul_div_le a N
    omega

theorem sum_le_length_mul (l : List Nat) (b : Nat) (h : ∀ x ∈ l, x ≤ b) :
    l.sum ≤ l.length * b := by
  induction l with
  | nil => simp
  | cons a r ih =>
    simp only [List.sum_cons, List.length_cons, Nat.add_mul, Nat.one_mul]
    have := h a (List.mem_cons_self _ _)
    have := ih (fun x hx => h x (List.mem_cons_of_mem _ hx))
    omega

/-- C25 (counterexample): 2 slices, and a second mip whose recorded size is 4 over a
buffer of 2 bytes: the copy for slice 1 of that mip reads bytes 2 and 3, past the
end of the buffer. The constructor builds such a state from platform data whose
second mip declares and loads 8 bytes where the computed size is 12: it records
`max(8, 12) = 12`, and `InitRHI` reads past the 8 bytes. -/
theorem C25_counterexample_buffer_shorter_than_size :
    demoShortBufferBulkData.MergeMips demoEngine (fun _ => 0) 2 = .error .ReadPastEnd ∧
    ∃ r, FTexture2DArray2Resource.new demoEngine 0 demoShortMipAsset 0 = .ok r ∧
      r.InitialData.MipSize.take 2 = [48, 12] ∧
      r.InitialData.MipData.take 2 = [some (List.replicate 48 1), some (List.replicate 8 2)] ∧
      r.InitialData.MergeMips demoEngine (fun _ => 0) r.NumMips = .error .ReadPastEnd ∧
      r.InitRHI demoEngine (fun _ => 0) demoStats = .error .ReadPastEnd :=
  ⟨rfl, _, rfl, rfl, rfl, rfl, rfl⟩

/-- C25 (amended): on bulk data whose two arrays have `MAX_TEXTURE_MIP_COUNT` entries, whose
sizes are `int32` values and whose buffers, where present, hold at least
`MipSize[m]` bytes, with `0 <= NumSlices` and `0 <= FirstMip < MAX_TEXTURE_MIP_COUNT`,
`MergeMips(NumMips)` completes for every `NumMips` that passes its `check`: no
division by zero, no read outside a mip buffer, no write outside the merged
buffer. The byte range read for slice `s` of mip `m` ends at or before
`MipSize[m]`, and the bytes written in all are at most the merged size. -/
theorem C25_MergeMips_in_bounds (E : Engine) (Uninit : Nat → Byte)
    (B : FTexture2DArray2BulkData) (NumMips : Int)
    (hcheck : NumMips < (E.MAX_TEXTURE_MIP_COUNT : Int))
    (hmax : (E.MAX_TEXTURE_MIP_COUNT : Int) ≤ INT32_MAX)
    (hlenS : B.MipSize.length = E.MAX_TEXTURE_MIP_COUNT)
    (hlenD : B.MipData.length = E.MAX_TEXTURE_MIP_COUNT)
    (hF : 0 ≤ B.FirstMip) (hFM : B.FirstMip < (E.MAX_TEXTURE_MIP_COUNT : Int))
    (hN : 0 ≤ B.NumSlices) (hN31 : B.NumSlices ≤ INT32_MAX)
    (hsz : ∀ sz ∈ B.MipSize, sz < 2147483648)
    (hbuf : ∀ p ∈ B.MipSize.zip B.MipData, ∀ d, p.2 = some d → p.1 ≤ d.length) :
    (∃ B1, B.MergeMips E Uninit NumMips = .ok B1) ∧
    (∀ s m : Int, 0 ≤ s → s < B.NumSlices → m ∈ loopRange B.FirstMip NumMips →
      s * ((B.sizeOfMip m / B.NumSlices.toNat : Nat) : Int)
        + ((B.sizeOfMip m / B.NumSlices.toNat : Nat) : Int) ≤ (B.sizeOfMip m : Int)) ∧
    B.NumSlices.toNat * ((B.sizesInRange NumMips).map fun x => x / B.NumSlices.toNat).sum
      ≤ (B.sizesInRange NumMips).sum := by
  obtain ⟨N, hNe⟩ := Int.eq_ofNat_of_zero_le hN
  have hNt : B.NumSlices.toNat = N := by rw [hNe]; rfl
  have hN31' : N < 2147483648 := by
    unfold INT32_MAX at hN31
    omega
  have hvalid : ∀ m ∈ loopRange B.FirstMip NumMips, 0 ≤ m ∧ m.toNat < B.MipSize.length := by
    intro m hm
    have := mem_loopRange hm
    omega
  have hfacts : ∀ m ∈ loopRange B.FirstMip NumMips, readAt B.MipSize m = .ok (B.sizeOfMip m) ∧
      B.sizeOfMip m < 2147483648 ∧
      ∃ dm, readAt B.MipData m = .ok dm ∧ ∀ d, dm = some d → B.sizeOfMip m ≤ d.length :=
    fun m hm => mip_facts B m (hvalid m hm).1 (hvalid m hm).2 (by omega) hsz hbuf
  have hdiv := sum_div_le N (B.sizesInRange NumMips)
  refine ⟨?_, ?_, by rw [hNt]; exact hdiv⟩
  · -- the call completes
    have hcount : (loopRange B.FirstMip NumMips).length < 2147483648 := by
      unfold loopRange
      rw [List.length_map, List.length_range]
      unfold INT32_MAX at hmax
      omega
    have hbound : (B.sizesInRange NumMips).sum < 18446744073709551616 := by
      have h1 : (B.sizesInRange NumMips).sum
          ≤ (B.sizesInRange NumMips).length * 2147483648 := by
        apply sum_le_length_mul
        intro x hx
        obtain ⟨m, hm, rfl⟩ := List.mem_map.1 hx
        exact le_of_lt (hfacts m hm).2.1
      have h2 : (B.sizesInRange NumMips).length = (loopRange B.FirstMip NumMips).length := by
        unfold FTexture2DArray2BulkData.sizesInRange
        rw [List.length_map]
      rw [h2] at h1
      have h3 : (loopRange B.FirstMip NumMips).length * 2147483648
          ≤ 2147483648 * 2147483648 := Nat.mul_le_mul_right _ (le_of_lt hcount)
      omega
    have hsum := sumMipSizes_valid B (loopRange B.FirstMip NumMips) 0 hvalid
      (by rw [Nat.zero_add]; exact hbound)
    rw [Nat.zero_add] at hsum
    have hz := readAt_MipSize B B.FirstMip hF (by omega)
    rw [MergeMips_of E Uninit B NumMips _ _ hcheck hsum hz]
    by_cases hgt : ((loopRange B.FirstMip NumMips).map B.sizeOfMip).sum > B.sizeOfMip B.FirstMip
    · rw [if_pos hgt]
      have hslices : loopRange 0 B.NumSlices
          = (List.range N).map fun (k : Nat) => (0 : Int) + (k : Int) := by
        rw [hNe]
        have := loopRange_ofNat 0 N
        simpa using this
      have hrow : N * ((loopRange B.FirstMip NumMips).map fun m => B.sizeOfMip m / N).sum
          ≤ ((loopRange B.FirstMip NumMips).map B.sizeOfMip).sum := by
        have := hdiv
        unfold FTexture2DArray2BulkData.sizesInRange at this
        rw [List.map_map] at this
        exact this
      obtain ⟨buf, pos, hms, hl⟩ := mergeSlices_safe B N (loopRange B.FirstMip NumMips) hNe hN31'
        (fun _ => hfacts) (List.range N) (fun s hs => List.mem_range.1 hs)
        (garbage Uninit 0 ((loopRange B.FirstMip NumMips).map B.sizeOfMip).sum) 0
        (by rw [List.length_range, garbage_length]; omega)
      unfold FTexture2DArray2BulkData.mergeCopy
      rw [Malloc_ok, hslices]
      dsimp only
      have e0 : ((0 : Nat) : Int) = 0 := rfl
      rw [e0] at hms
      rw [hms]
      dsimp only
      have hw1 : ∀ v, writeAt B.Discard.MipData B.Discard.FirstMip v
          = .ok (B.Discard.MipData.set B.FirstMip.toNat v) := fun v =>
        writeAt_ok _ _ _ hF (by
          show B.FirstMip.toNat < (B.MipData.map fun _ => none).length
          rw [List.length_map]; omega)
      have hw2 : ∀ v, writeAt B.Discard.MipSize B.Discard.FirstMip v
          = .ok (B.Discard.MipSize.set B.FirstMip.toNat v) := fun v =>
        writeAt_ok _ _ _ hF (by
          show B.FirstMip.toNat < (B.MipSize.map fun _ => 0).length
          rw [List.length_map]; omega)
      rw [hw1]
      dsimp only
      rw [hw2]
      exact ⟨_, rfl⟩
    · rw [if_neg hgt]
      exact ⟨B, rfl⟩
  · intro s m hs0 hs hm
    rw [hNt]
    obtain ⟨sn, hsn⟩ := Int.eq_ofNat_of_zero_le hs0
    subst hsn
    have hsN : sn < N := by omega
    have h1 : (sn + 1) * (B.sizeOfMip m / N) ≤ N * (B.sizeOfMip m / N) :=
      Nat.mul_le_mul_right _ hsN
    have h2 := Nat.mul_div_le (B.sizeOfMip m) N
    have h3 : (sn + 1) * (B.sizeOfMip m / N) = sn * (B.sizeOfMip m / N) + B.sizeOfMip m / N := by
      ring
    have : sn * (B.sizeOfMip m / N) + B.sizeOfMip m / N ≤ B.sizeOfMip m := by omega
    exact_mod_cast this

theorem C25_MergeMips_in_bounds_witness :
    (∃ B1, demoThreeSliceBulkData.MergeMips demoEngine (fun _ => 0) 1 = .ok B1) ∧
    (∃ B1, demoBulkData.MergeMips demoEngine (fun _ => 0) 3 = .ok B1) :=
  ⟨(C25_MergeMips_in_bounds demoEngine (fun _ => 0) demoThreeSliceBulkData 1 (by decide)
      (by decide) (by decide) (by decide) (by decide) (by decide) (by decide) (by decide)
      (by decide) (by decide)).1,
   (C25_MergeMips_in_bounds demoEngine (fun _ => 0) demoBulkData 3 (by decide)
      (by decide) (by decide) (by decide) (by decide) (by decide) (by decide) (by decide)
      (by decide) (by decide)).1⟩

theorem mergeMipSlice_copy (B : FTexture2DArray2BulkData) (N s : Nat) (m : Int) (d : List Byte)
    (buf : List Byte) (pos : Nat) (hN : B.NumSlices = (N : Int)) (hN32 : N < 4294967296)
    (hs : s < N) (hr : readAt B.MipSize m = .ok d.length)
    (hd : readAt B.MipData m = .ok (some d)) (hdv : N ∣ d.length)
    (hsm : d.length < 2147483648) (hfit : pos + d.length / N ≤ buf.length) :
    mergeMipSlice B (s : Int) m buf (pos : Int)
      = .ok (overwrite buf pos (sliceAt d (d.length / N) s), ((pos + d.length / N : Nat) : Int)) := by
  have := mergeMipsOfSlice_ok B N s [m] [d] (List.Forall₂.cons ⟨hr, hd⟩ List.Forall₂.nil) hN hN32
    hs (fun x hx => by rw [List.mem_singleton.1 hx]; exact hdv)
    (fun x hx => by rw [List.mem_singleton.1 hx]; exact hsm) buf pos
    (by simpa using hfit)
  simp only [List.flatMap_cons, List.flatMap_nil, List.append_nil, List.map_cons, List.map_nil,
    List.sum_cons, List.sum_nil, Nat.add_zero] at this
  unfold mergeMipsOfSlice at this
  cases hms : mergeMipSlice B (s : Int) m buf (pos : Int) with
  | error f => rw [hms] at this; cases this
  | ok r =>
    obtain ⟨b, p⟩ := r
    rw [hms] at this
    simp only [mergeMipsOfSlice] at this
    exact this

theorem mergeMipSlice_zero (B : FTexture2DArray2BulkData) (N s : Nat) (m : Int)
    (dm : Option (List Byte)) (buf : List Byte) (pos : Nat) (hN : B.NumSlices = (N : Int))
    (hN32 : N < 4294967296) (hs : s < N) (hr : readAt B.MipSize m = .ok 0)
    (hd : readAt B.MipData m = .ok dm) (hfit : pos ≤ buf.length) :
    mergeMipSlice B (s : Int) m buf (pos : Int) = .ok (buf, (pos : Int)) := by
  have hu : toUInt32 B.NumSlices = N := by rw [hN]; exact toUInt32_of_small N hN32
  have hN0 : N ≠ 0 := by omega
  have ht : toInt32 (((0 / N : Nat)) : Int) = 0 := by
    rw [Nat.zero_div]; rfl
  have hmul : mulInt32 (s : Int) 0 = .ok 0 := by
    unfold mulInt32
    rw [Int.mul_zero, if_pos (by decide)]
  unfold mergeMipSlice
  rw [hr]
  dsimp only
  rw [hu, if_neg hN0, ht, hmul]
  dsimp only
  rw [hd]
  cases dm with
  | none =>
    dsimp only
    rw [Int.add_zero]
  | some d =>
    dsimp only
    have hM : Memcpy buf (pos : Int) d 0 0 = .ok buf := by
      unfold Memcpy
      rw [if_neg (by omega), if_neg (by omega)]
      simp
    rw [hM]
    dsimp only
    rw [Int.add_zero]

theorem mergeMipsOfSlice_zero (B : FTexture2DArray2BulkData) (N s : Nat) (rest : List Int)
    (hN : B.NumSlices = (N : Int)) (hN32 : N < 4294967296) (hs : s < N)
    (hall : ∀ m ∈ rest, readAt B.MipSize m = .ok 0 ∧ ∃ dm, readAt B.MipData m = .ok dm)
    (buf : List Byte) (pos : Nat) (hfit : pos ≤ buf.length) :
    mergeMipsOfSlice B (s : Int) rest buf (pos : Int) = .ok (buf, (pos : Int)) := by
  induction rest with
  | nil => rfl
  | cons m r ih =>
    obtain ⟨hr, dm, hd⟩ := hall m (List.mem_cons_self _ _)
    simp only [mergeMipsOfSlice, mergeMipSlice_zero B N s m dm buf pos hN hN32 hs hr hd hfit]
    exact ih (fun x hx => hall x (List.mem_cons_of_mem _ hx))

/-- One pass of the inner loop over a range whose first mip holds `d` and whose other
mips have size 0: the slice region of `d` is copied, nothing else is written. -/
theorem mergeMipsOfSlice_head (B : FTexture2DArray2BulkData) (N s : Nat) (F : Int)
    (rest : List Int) (d : List Byte) (hN : B.NumSlices = (N : Int)) (hN32 : N < 4294967296)
    (hs : s < N) (hr : readAt B.MipSize F = .ok d.length)
    (hd : readAt B.MipData F = .ok (some d)) (hdv : N ∣ d.length)
    (hsm : d.length < 2147483648)
    (hall : ∀ m ∈ rest, readAt B.MipSize m = .ok 0 ∧ ∃ dm, readAt B.MipData m = .ok dm)
    (buf : List Byte) (pos : Nat) (hfit : pos + d.length / N ≤ buf.length) :
    mergeMipsOfSlice B (s : Int) (F :: rest) buf (pos : Int)
      = .ok (overwrite buf pos (sliceAt d (d.length / N) s), ((pos + d.length / N : Nat) : Int)) := by
  have hl : (sliceAt d (d.length / N) s).length = d.length / N :=
    sliceAt_length d _ s N hs (Nat.mul_div_cancel' hdv).symm
  simp only [mergeMipsOfSlice, mergeMipSlice_copy B N s F d buf pos hN hN32 hs hr hd hdv hsm hfit]
  exact mergeMipsOfSlice_zero B N s rest hN hN32 hs hall _ _
    (by rw [overwrite_length _ _ _ (by rw [hl]; exact hfit)]; exact hfit)

theorem mergeSlices_head (B : FTexture2DArray2BulkData) (N : Nat) (F : Int)
    (rest : List Int) (d : List Byte) (hN : B.NumSlices = (N : Int)) (hN32 : N < 4294967296)
    (hr : readAt B.MipSize F = .ok d.length)
    (hd : readAt B.MipData F = .ok (some d)) (hdv : N ∣ d.length)
    (hsm : d.length < 2147483648)
    (hall : ∀ m ∈ rest, readAt B.MipSize m = .ok 0 ∧ ∃ dm, readAt B.MipData m = .ok dm)
    (ss : List Nat) (hss : ∀ s ∈ ss, s < N) (buf : List Byte) (pos : Nat)
    (hfit : pos + ss.length * (d.length / N) ≤ buf.length) :
    mergeSlices B (F :: rest) (ss.map fun (k : Nat) => (0 : Int) + (k : Int)) buf (pos : Int)
      = mergeSlices B [F] (ss.map fun (k : Nat) => (0 : Int) + (k : Int)) buf (pos : Int) := by
  induction ss generalizing buf pos with
  | nil => rfl
  | cons s r ih =>
    have hs : s < N := hss s (List.mem_cons_self _ _)
    simp only [List.length_cons, Nat.add_mul, Nat.one_mul] at hfit
    have hl : (sliceAt d (d.length / N) s).length = d.length / N :=
      sliceAt_length d _ s N hs (Nat.mul_div_cancel' hdv).symm
    have h1 := mergeMipsOfSlice_head B N s F rest d hN hN32 hs hr hd hdv hsm hall buf pos
      (by omega)
    have h2 := mergeMipsOfSlice_head B N s F [] d hN hN32 hs hr hd hdv hsm
      (fun m hm => by cases hm) buf pos (by omega)
    have h3 := ih (fun x hx => hss x (List.mem_cons_of_mem _ hx))
      (overwrite buf pos (sliceAt d (d.length / N) s)) (pos + d.length / N)
      (by rw [overwrite_length _ _ _ (by rw [hl]; omega)]; omega)
    simp only [Int.zero_add] at h1 h2 h3
    simp only [List.map_cons, mergeSlices, Int.zero_add, h1, h2]
    exact h3

theorem mergeCopy_of_slices (Uninit : Nat → Byte) (B : FTexture2DArray2BulkData) (NumMips : Int)
    (M : Nat) (buf : List Byte) (pos : Int)
    (hm : mergeSlices B (loopRange B.FirstMip NumMips) (loopRange 0 B.NumSlices)
      (garbage Uninit 0 M) 0 = .ok (buf, pos))
    (hF : 0 ≤ B.FirstMip) (h1 : B.FirstMip.toNat < B.MipData.length)
    (h2 : B.FirstMip.toNat < B.MipSize.length) :
    ∃ B1, B.mergeCopy Uninit NumMips M = .ok B1 := by
  have hw1 : ∀ v, writeAt B.Discard.MipData B.Discard.FirstMip v
      = .ok (B.Discard.MipData.set B.FirstMip.toNat v) := fun v =>
    writeAt_ok _ _ _ hF (by
      show B.FirstMip.toNat < (B.MipData.map fun _ => none).length
      rw [List.length_map]; exact h1)
  have hw2 : ∀ v, writeAt B.Discard.MipSize B.Discard.FirstMip v
      = .ok (B.Discard.MipSize.set B.FirstMip.toNat v) := fun v =>
    writeAt_ok _ _ _ hF (by
      show B.FirstMip.toNat < (B.MipSize.map fun _ => 0).length
      rw [List.length_map]; exact h2)
  unfold FTexture2DArray2BulkData.mergeCopy
  rw [Malloc_ok]
  dsimp only
  rw [hm]
  dsimp only
  rw [hw1]
  dsimp only
  rw [hw2]
  exact ⟨_, rfl⟩

theorem sum_eq_zero_all (l : List Nat) (h : l.sum = 0) : ∀ x ∈ l, x = 0 := by
  induction l with
  | nil => intro x hx; cases hx
  | cons a r ih =>
    simp only [List.sum_cons] at h
    intro x hx
    rcases List.mem_cons.1 hx with rfl | hx
    · omega
    · exact ih (by omega) x hx

/-- C24 (counterexample): 3 slices and a single mip of 4 bytes. The merged size is the
stored size, so `MergeMips(1)` leaves the bulk data as it is and the buffer
`[1,2,3,4]` is reused; the copy loop, run on the same input, copies 3 regions of
`4 / 3 = 1` byte and leaves the fourth byte of its allocation unwritten. -/
theorem C24_counterexample_size_not_divisible :
    ∃ B1, demoThreeSliceBulkData.MergeMips demoEngine (fun _ => 0) 1 = .ok demoThreeSliceBulkData ∧
      sumMipSizes demoThreeSliceBulkData.MipSize (loopRange demoThreeSliceBulkData.FirstMip 1) 0
        = .ok 4 ∧
      demoThreeSliceBulkData.GetResourceBulkDataSize = .ok 4 ∧
      demoThreeSliceBulkData.GetResourceBulkData = .ok (some [1, 2, 3, 4]) ∧
      demoThreeSliceBulkData.mergeCopy (fun _ => 0) 1 4 = .ok B1 ∧
      B1.GetResourceBulkData = .ok (some [1, 2, 3, 0]) :=
  ⟨_, rfl, rfl, rfl, rfl, rfl, rfl⟩

/-- C24 (amended): whenever the merged size equals `MipSize[FirstMip]`, `MergeMips`
skips the copy and returns the bulk data unchanged. When moreover
`MipData[FirstMip]` holds exactly `MipSize[FirstMip]` bytes and `NumSlices` (at
least 1) divides that size, the reused buffer is byte for byte the buffer the
copy loop would have produced from the same input, with the same size. -/
theorem C24_skip_reuses_buffer (E : Engine) (Uninit : Nat → Byte)
    (B : FTexture2DArray2BulkData) (NumMips : Int)
    (hcheck : NumMips < (E.MAX_TEXTURE_MIP_COUNT : Int)) :
    (∀ z, sumMipSizes B.MipSize (loopRange B.FirstMip NumMips) 0 = .ok z →
      readAt B.MipSize B.FirstMip = .ok z → B.MergeMips E Uninit NumMips = .ok B) ∧
    (∀ (N : Nat) (d0 : List Byte), 0 ≤ B.FirstMip → B.FirstMip < NumMips →
      NumMips ≤ (B.MipSize.length : Int) → B.MipData.length = B.MipSize.length →
      B.NumSlices = (N : Int) → 0 < N → N < 2147483648 →
      readAt B.MipData B.FirstMip = .ok (some d0) →
      readAt B.MipSize B.FirstMip = .ok d0.length →
      (B.sizesInRange NumMips).sum = d0.length → N ∣ d0.length → d0.length < 2147483648 →
      B.MergeMips E Uninit NumMips = .ok B ∧
      ∃ B1, B.mergeCopy Uninit NumMips d0.length = .ok B1 ∧
        B1.GetResourceBulkData = B.GetResourceBulkData ∧
        B1.GetResourceBulkDataSize = B.GetResourceBulkDataSize) := by
  have hskip : ∀ z, sumMipSizes B.MipSize (loopRange B.FirstMip NumMips) 0 = .ok z →
      readAt B.MipSize B.FirstMip = .ok z → B.MergeMips E Uninit NumMips = .ok B := by
    intro z hsum hz
    rw [MergeMips_of E Uninit B NumMips z z hcheck hsum hz, if_neg (lt_irrefl _)]
  refine ⟨hskip, ?_⟩
  intro N d0 hF hFL hL hlen hN hNpos hN31 hd0 hz hsum hdv hsm
  have hvalid : ∀ m ∈ loopRange B.FirstMip NumMips, 0 ≤ m ∧ m.toNat < B.MipSize.length := by
    intro m hm
    have := mem_loopRange hm
    omega
  have hs := sumMipSizes_valid B (loopRange B.FirstMip NumMips) 0 hvalid (by
    show 0 + (B.sizesInRange NumMips).sum < 18446744073709551616
    rw [hsum]; omega)
  have hs1 : sumMipSizes B.MipSize (loopRange B.FirstMip NumMips) 0 = .ok d0.length := by
    rw [hs]
    show Except.ok (0 + (B.sizesInRange NumMips).sum) = _
    rw [hsum, Nat.zero_add]
  refine ⟨hskip _ hs1 hz, ?_⟩
  obtain ⟨rest, hr, hrest⟩ := loopRange_cons B.FirstMip NumMips hFL
  have hzF : B.sizeOfMip B.FirstMip = d0.length := by
    have := readAt_MipSize B B.FirstMip hF (readAt_inv hz).2.1
    rw [hz] at this
    injection this with this
    exact this.symm
  have hrest0 : ∀ m ∈ rest, B.sizeOfMip m = 0 := by
    have h1 : (B.sizesInRange NumMips).sum = B.sizeOfMip B.FirstMip + (rest.map B.sizeOfMip).sum := by
      unfold FTexture2DArray2BulkData.sizesInRange
      rw [hr, List.map_cons, List.sum_cons]
    have h2 : (rest.map B.sizeOfMip).sum = 0 := by omega
    intro m hm
    exact sum_eq_zero_all _ h2 _ (List.mem_map_of_mem _ hm)
  have hall : ∀ m ∈ rest, readAt B.MipSize m = .ok 0 ∧ ∃ dm, readAt B.MipData m = .ok dm := by
    intro m hm
    have hv := hvalid m (by rw [hr]; exact List.mem_cons_of_mem _ hm)
    have hb : m.toNat < B.MipData.length := by omega
    refine ⟨?_, B.MipData[m.toNat], ?_⟩
    · rw [readAt_MipSize B m hv.1 hv.2, hrest0 m hm]
    · exact readAt_of_getElem? _ _ _ hv.1 (List.getElem?_eq_getElem (by omega))
  have hslices : loopRange 0 B.NumSlices
      = (List.range N).map fun (k : Nat) => (0 : Int) + (k : Int) := by
    rw [hN]
    have := loopRange_ofNat 0 N
    simpa using this
  have hNq : N * (d0.length / N) = d0.length := Nat.mul_div_cancel' hdv
  have hhead := mergeSlices_head B N B.FirstMip rest d0 hN (by omega) hz hd0 hdv hsm hall
    (List.range N) (fun s hs => List.mem_range.1 hs) (garbage Uninit 0 d0.length) 0
    (by rw [List.length_range, garbage_length, hNq]; omega)
  have hone := mergeSlices_ok B N [B.FirstMip] [d0]
    (List.Forall₂.cons ⟨hz, hd0⟩ List.Forall₂.nil) hN (by omega)
    (fun x hx => by rw [List.mem_singleton.1 hx]; exact hdv)
    (fun x hx => by rw [List.mem_singleton.1 hx]; exact hsm) (List.range N)
    (fun s hs => List.mem_range.1 hs) (garbage Uninit 0 d0.length) 0
    (by simp only [List.length_range, garbage_length, List.map_cons, List.map_nil,
          List.sum_cons, List.sum_nil, Nat.add_zero, hNq]; omega)
  have hmajor : ((List.range N).flatMap fun s => [d0].flatMap fun d => sliceAt d (d.length / N) s)
      = d0 := sliceMajor_single N d0 [] hdv (fun d hd => by cases hd)
  rw [hmajor, overwrite_all _ _ (by rw [garbage_length])] at hone
  have e0 : ((0 : Nat) : Int) = 0 := rfl
  rw [e0] at hhead hone
  have hms : ∃ p, mergeSlices B (loopRange B.FirstMip NumMips) (loopRange 0 B.NumSlices)
      (garbage Uninit 0 d0.length) 0 = .ok (d0, p) := by
    rw [hr, hslices, hhead, hone]
    exact ⟨_, rfl⟩
  obtain ⟨p, hms⟩ := hms
  obtain ⟨B1, hB1⟩ := mergeCopy_of_slices Uninit B NumMips d0.length d0 _ hms hF
    (by have := (readAt_inv hd0).2.1; exact this) (readAt_inv hz).2.1
  obtain ⟨hF1, _, _, _, _, _, hsz, buf, pos, hm2, hbuf⟩ :=
    mergeCopy_entries Uninit B B1 NumMips d0.length hB1
  rw [hms] at hm2
  injection hm2 with hm2
  injection hm2 with hm2 _
  subst hm2
  refine ⟨B1, hB1, ?_, ?_⟩
  · show readAt B1.MipData B1.FirstMip = readAt B.MipData B.FirstMip
    rw [hbuf, hd0]
  · show readAt B1.MipSize B1.FirstMip = readAt B.MipSize B.FirstMip
    rw [hsz, hz, Nat.mod_eq_of_lt (by omega)]

theorem C24_skip_reuses_buffer_witness :
    demoSingleMipBulkData.MergeMips demoEngine (fun _ => 0) 1 = .ok demoSingleMipBulkData ∧
    ∃ B1, demoSingleMipBulkData.mergeCopy (fun _ => 0) 1 [65, 65, 66, 66].length = .ok B1 ∧
      B1.GetResourceBulkData = demoSingleMipBulkData.GetResourceBulkData ∧
      B1.GetResourceBulkDataSize = demoSingleMipBulkData.GetResourceBulkDataSize :=
  (C24_skip_reuses_buffer demoEngine (fun _ => 0) demoSingleMipBulkData 1 (by decide)).2
    2 [65, 65, 66, 66] (by decide) (by decide) (by decide) (by decide) rfl (by decide)
    (by decide) rfl rfl (by decide) (by decide) (by decide)

end T2DA
